import Mathlib

/-!
# render3d: a verification development

A shallow embedding of `render3d.cpp`: the OBJ mesh parser
(`ObjMeshParser::Parse`, `ObjMeshParser::GenerateSubMesh`), the program and
texture caches of the renderer, the cached matrices of `Mesh` and `Camera`,
the material system, the render pass and the mesh factories.

Conventions of the embedding.

* The text buffer is a `List Char`; the caller hands over `text.c_str()` and
  `text.length()`, so the byte right after the buffer is a NUL terminator.
* Behaviour that C++ leaves undefined is a `Fault`: the embedded functions
  return `Except Fault _`.
* An `int` or `float` that was never assigned is `none`.  Copying it is
  harmless; branching on it or indexing with it is a fault.
* The floating-point conversion of `sscanf` is a parameter `strtof`.
-/

namespace render3d

/-! ## Undefined behaviour -/

/-- Ways in which a run of the parser leaves defined behaviour. -/
inductive Fault where
  /-- a read beyond the text buffer and its terminator -/
  | outOfBuffer
  /-- the `%s` conversion stores more than `char temp[256]` holds -/
  | tokenOverflow
  /-- a `%d` conversion whose value does not fit an `int` -/
  | intOverflow
  /-- an indeterminate `int` decides a branch or is used as an index -/
  | uninitialised
  /-- `std::vector::operator[]` with an index outside the vector -/
  | outOfRange
  /-- a store through an attribute array that is `nullptr` -/
  | nullStore
  /-- a `static_cast` of a stored parameter to a class it is not -/
  | badCast
  /-- a member access through a `Program*` that is `nullptr` -/
  | nullProgram
  /-- a member access through a `Texture*` that is deleted or was never
  created -/
  | danglingTexture
  /-- a member access through an `ImageFrame*` that is `nullptr` -/
  | nullImage
  /-- a member access through a `Mesh*` that points to no live mesh -/
  | danglingMesh
  /-- the copy of a path into `char temp[256]` reads beyond the path or
  stores beyond the array -/
  | pathCopy
  /-- `std::string::substr` from a position beyond the string, which throws -/
  | substrRange
  /-- an `assert` whose condition is false -/
  | assertion
  deriving DecidableEq, Repr

/-! ## Characters and C strings -/

/-- The NUL character. -/
def NUL : Char := Char.ofNat 0

/-- `IsNewlineChar` of the source. -/
def IsNewlineChar (c : Char) : Bool := c == '\n' || c == '\r'

/-- The `isspace` class of the C locale, which `sscanf` skips. -/
def isspace (c : Char) : Bool :=
  c == ' ' || c == '\t' || c == '\n' || c == Char.ofNat 11 || c == Char.ofNat 12 || c == '\r'

/-- The effect of the first loop of `Parse` on one character of the buffer:
line ends become NUL, a slash becomes a blank. -/
def splitChar (c : Char) : Char :=
  if IsNewlineChar c then NUL else if c == '/' then ' ' else c

/-- The buffer after the first loop of `Parse`. -/
def splitBuffer (data : List Char) : List Char := data.map splitChar

/-- The offsets pushed onto `lines` by the first loop of `Parse`, scanning the
characters from offset `i` on; `size` is `m_data_size`. -/
def scanLines (size : Nat) : List Char → Nat → List Nat
  | [], _ => []
  | c :: cs, i =>
    if IsNewlineChar c && decide (i + 1 < size) then (i + 1) :: scanLines size cs (i + 1)
    else scanLines size cs (i + 1)

/-- The vector `lines` after the first loop of `Parse`. -/
def lineStarts (data : List Char) : List Nat := 0 :: scanLines data.length data 0

/-- The characters from offset `off` of the buffer up to the next NUL. -/
def lineAt (buf : List Char) (off : Nat) : List Char :=
  (buf.drop off).takeWhile (fun c => c != NUL)

/-- The C string that starts at offset `off` of the buffer `buf`, whose
terminator sits at offset `buf.length`. -/
def cstr (buf : List Char) (off : Nat) : Except Fault (List Char) :=
  if off ≤ buf.length then .ok (lineAt buf off) else .error .outOfBuffer

/-! ## The conversions of sscanf -/

/-- Skip white space, as every conversion used here does first. -/
def skipSpace (s : List Char) : List Char := s.dropWhile isspace

/-- The `%s` conversion into `char temp[256]`: the token is dropped, the rest
of the input is returned; `none` when the input is exhausted. -/
def scanToken (s : List Char) : Except Fault (Option (List Char)) :=
  match skipSpace s with
  | [] => .ok none
  | c :: cs =>
    if ((c :: cs).takeWhile (fun c => !isspace c)).length ≤ 255 then
      .ok (some ((c :: cs).dropWhile (fun c => !isspace c)))
    else .error .tokenOverflow

/-- The value of a run of decimal digits. -/
def digitsValue (ds : List Char) : Nat :=
  ds.foldl (fun acc c => 10 * acc + (c.toNat - 48)) 0

/-- The subject sequence of a `%d` conversion: an optional sign and at least
one digit.  Returns the value and the rest of the input. -/
def scanInt (s : List Char) : Option (Int × List Char) :=
  match skipSpace s with
  | '-' :: r =>
    if r.takeWhile Char.isDigit = [] then none
    else some (- (digitsValue (r.takeWhile Char.isDigit) : Int), r.dropWhile Char.isDigit)
  | '+' :: r =>
    if r.takeWhile Char.isDigit = [] then none
    else some ((digitsValue (r.takeWhile Char.isDigit) : Int), r.dropWhile Char.isDigit)
  | r =>
    if r.takeWhile Char.isDigit = [] then none
    else some ((digitsValue (r.takeWhile Char.isDigit) : Int), r.dropWhile Char.isDigit)

/-- Up to `n` successive `%d` conversions; the scan stops at the first one that
does not match, leaving the remaining arguments unassigned. -/
def scanInts : Nat → List Char → Except Fault (List Int)
  | 0, _ => .ok []
  | n + 1, s =>
    match scanInt s with
    | none => .ok []
    | some (v, rest) =>
      if -2147483648 ≤ v ∧ v ≤ 2147483647 then
        match scanInts n rest with
        | .ok vs => .ok (v :: vs)
        | .error e => .error e
      else .error .intOverflow

/-- Up to `n` successive `%f` conversions, with the library conversion
`strtof` applied after white space is skipped. -/
def scanFloats {F : Type} (strtof : List Char → Option (F × List Char)) :
    Nat → List Char → List F
  | 0, _ => []
  | n + 1, s =>
    match strtof (skipSpace s) with
    | none => []
    | some (v, rest) => v :: scanFloats strtof n rest

/-- A conversion for `strtof` that reads integer literals, which a `float`
holds exactly; it is used to run the parser on sample texts. -/
def strtofInteger (s : List Char) : Option (Int × List Char) := scanInt s

/-! ## Geometry records -/

/-- `Vector2f`; a component that was never assigned is `none`. -/
structure Vector2f (F : Type) where
  x : Option F
  y : Option F
  deriving DecidableEq, Repr

/-- `Vector3f`; a component that was never assigned is `none`. -/
structure Vector3f (F : Type) where
  x : Option F
  y : Option F
  z : Option F
  deriving DecidableEq, Repr

/-- `ObjTri`: nine indices, each `none` until `sscanf` assigns it. -/
structure ObjTri where
  v0 : Option Int
  t0 : Option Int
  n0 : Option Int
  v1 : Option Int
  t1 : Option Int
  n1 : Option Int
  v2 : Option Int
  t2 : Option Int
  n2 : Option Int
  deriving DecidableEq, Repr

/-- The geometry part of `SubMesh`.  An attribute array is `none` while its
pointer is `nullptr`; an allocated array lists the values stored so far, in
slot order. -/
structure SubMesh (F : Type) where
  m_vertex_count : Nat
  m_positions : Option (List (Vector3f F))
  m_texcoords : Option (List (Vector2f F))
  m_normals : Option (List (Vector3f F))
  m_ori_positions : List (Vector3f F)
  m_ori_triangles : List ObjTri
  deriving DecidableEq, Repr

/-! ## GenerateSubMesh -/

/-- The index conversion loop of `GenerateSubMesh`: every field minus one. -/
def ObjTri.decrement (tri : ObjTri) : ObjTri where
  v0 := tri.v0.map (fun i => i - 1)
  v1 := tri.v1.map (fun i => i - 1)
  v2 := tri.v2.map (fun i => i - 1)
  t0 := tri.t0.map (fun i => i - 1)
  t1 := tri.t1.map (fun i => i - 1)
  t2 := tri.t2.map (fun i => i - 1)
  n0 := tri.n0.map (fun i => i - 1)
  n1 := tri.n1.map (fun i => i - 1)
  n2 := tri.n2.map (fun i => i - 1)

/-- The read `(*vec)[i]` of a `std::vector`. -/
def vectorAt {α : Type} (vec : List α) (i : Option Int) : Except Fault α :=
  match i with
  | none => .error .uninitialised
  | some k =>
    if 0 ≤ k then
      match vec[k.toNat]? with
      | some a => .ok a
      | none => .error .outOfRange
    else .error .outOfRange

/-- One statement `array[slot] = (*vec)[i]` of the flattening loop, where
`slot` is the next free slot of `array`. -/
def storeNext {α : Type} (array : Option (List α)) (vec : List α) (i : Option Int) :
    Except Fault (Option (List α)) :=
  match vectorAt vec i with
  | .error e => .error e
  | .ok a =>
    match array with
    | none => .error .nullStore
    | some stored => .ok (some (stored ++ [a]))

/-- Three successive statements of the flattening loop on one array. -/
def storeCorners {α : Type} (array : Option (List α)) (vec : List α)
    (i0 i1 i2 : Option Int) : Except Fault (Option (List α)) :=
  match storeNext array vec i0 with
  | .error e => .error e
  | .ok a0 =>
    match storeNext a0 vec i1 with
    | .error e => .error e
    | .ok a1 => storeNext a1 vec i2

/-- The body of the flattening loop of `GenerateSubMesh` for one triangle. -/
def flattenTriangle {F : Type} (positions : List (Vector3f F)) (texcoords : List (Vector2f F))
    (normals : List (Vector3f F)) (submesh : SubMesh F) (tri : ObjTri) :
    Except Fault (SubMesh F) :=
  match storeCorners submesh.m_positions positions tri.v0 tri.v1 tri.v2 with
  | .error e => .error e
  | .ok ps =>
    match storeCorners submesh.m_texcoords texcoords tri.t0 tri.t1 tri.t2 with
    | .error e => .error e
    | .ok ts =>
      match storeCorners submesh.m_normals normals tri.n0 tri.n1 tri.n2 with
      | .error e => .error e
      | .ok ns => .ok { submesh with m_positions := ps, m_texcoords := ts, m_normals := ns }

/-- The flattening loop of `GenerateSubMesh`. -/
def flattenLoop {F : Type} (positions : List (Vector3f F)) (texcoords : List (Vector2f F))
    (normals : List (Vector3f F)) : List ObjTri → SubMesh F → Except Fault (SubMesh F)
  | [], submesh => .ok submesh
  | tri :: rest, submesh =>
    match flattenTriangle positions texcoords normals submesh tri with
    | .error e => .error e
    | .ok next => flattenLoop positions texcoords normals rest next

/-- `ObjMeshParser::GenerateSubMesh`. -/
def GenerateSubMesh {F : Type} (m_export_triangles : Bool) (positions : List (Vector3f F))
    (texcoords : List (Vector2f F)) (normals : List (Vector3f F)) (triangles : List ObjTri) :
    Except Fault (SubMesh F) :=
  flattenLoop positions texcoords normals (triangles.map ObjTri.decrement)
    { m_vertex_count := triangles.length * 3
      m_positions := some []
      m_texcoords := if texcoords.length > 0 then some [] else none
      m_normals := if normals.length > 0 then some [] else none
      m_ori_positions := if m_export_triangles then positions else []
      m_ori_triangles := if m_export_triangles then triangles else [] }

/-! ## Parse: what one line reads -/

/-- The branch of the line loop of `Parse` that a line takes. -/
inductive LineKind where
  | position
  | texcoord
  | normal
  | face
  | usemtl
  | other
  deriving DecidableEq, Repr

/-- The tests on the first characters of a line in the loop of `Parse`. -/
def classify : List Char → LineKind
  | 'v' :: ' ' :: _ => .position
  | 'v' :: 't' :: _ => .texcoord
  | 'v' :: 'n' :: _ => .normal
  | 'f' :: ' ' :: _ => .face
  | 'u' :: 's' :: 'e' :: 'm' :: 't' :: 'l' :: _ => .usemtl
  | _ => .other

/-- The chain `a < 0 || b < 0 || ...` over fields of an `ObjTri`, evaluated
left to right and stopping at the first negative one. -/
def anyNegative : List (Option Int) → Except Fault Bool
  | [] => .ok false
  | none :: _ => .error .uninitialised
  | some i :: rest => if i < 0 then .ok true else anyNegative rest

/-- The `ObjTri` that `sscanf` fills from the converted integers `vs`, by
record shape: whether texcoords and normals have been declared so far. -/
def fillTri (hasTexcoords hasNormals : Bool) (vs : List Int) : ObjTri :=
  match hasTexcoords, hasNormals with
  | true, true =>
    { v0 := vs[0]?, t0 := vs[1]?, n0 := vs[2]?, v1 := vs[3]?, t1 := vs[4]?, n1 := vs[5]?,
      v2 := vs[6]?, t2 := vs[7]?, n2 := vs[8]? }
  | true, false =>
    { v0 := vs[0]?, t0 := vs[1]?, v1 := vs[2]?, t1 := vs[3]?, v2 := vs[4]?, t2 := vs[5]?,
      n0 := none, n1 := none, n2 := none }
  | false, true =>
    { v0 := vs[0]?, n0 := vs[1]?, v1 := vs[2]?, n1 := vs[3]?, v2 := vs[4]?, n2 := vs[5]?,
      t0 := none, t1 := none, t2 := none }
  | false, false =>
    { v0 := vs[0]?, v1 := vs[1]?, v2 := vs[2]?,
      t0 := none, t1 := none, t2 := none, n0 := none, n1 := none, n2 := none }

/-- The number of `%d` conversions in the format of a record shape. -/
def shapeArity (hasTexcoords hasNormals : Bool) : Nat :=
  match hasTexcoords, hasNormals with
  | true, true => 9
  | true, false => 6
  | false, true => 6
  | false, false => 3

/-- The fields that the negative-index test of a record shape reads, in the
order of the source. -/
def checkedFields (hasTexcoords hasNormals : Bool) (tri : ObjTri) : List (Option Int) :=
  match hasTexcoords, hasNormals with
  | true, true => [tri.v0, tri.v1, tri.t0, tri.t1, tri.t2, tri.n0, tri.n1, tri.n2]
  | true, false => [tri.v0, tri.v1, tri.v2, tri.t0, tri.t1, tri.t2]
  | false, true => [tri.v0, tri.v1, tri.v2, tri.t0, tri.t1, tri.t2]
  | false, false => [tri.v0, tri.v1, tri.v2]

/-- What a line does to the parser, once its text has been read. -/
inductive Event (F : Type) where
  | position (v : Vector3f F)
  | texcoord (v : Vector2f F)
  | normal (v : Vector3f F)
  /-- a face record and the outcome of its negative-index test -/
  | face (tri : ObjTri) (hasNegIndex : Bool)
  /-- a material boundary; the name is `none` when `ptr + 7` lies beyond the
  terminator of the buffer -/
  | usemtl (name : Option String)
  | skip
  deriving DecidableEq, Repr

/-- The floats of a `v`, `vt` or `vn` line: `sscanf(ptr, "%s %f ...")`. -/
def readFloats {F : Type} (strtof : List Char → Option (F × List Char)) (n : Nat)
    (line : List Char) : Except Fault (List F) :=
  match scanToken line with
  | .error e => .error e
  | .ok none => .ok []
  | .ok (some rest) => .ok (scanFloats strtof n rest)

/-- The face branch up to the test of `hasNegIndex`. -/
def readFace (hasTexcoords hasNormals : Bool) (line : List Char) :
    Except Fault (ObjTri × Bool) :=
  match scanToken line with
  | .error e => .error e
  | .ok rest =>
    match scanInts (shapeArity hasTexcoords hasNormals) (rest.getD []) with
    | .error e => .error e
    | .ok vs =>
      match anyNegative (checkedFields hasTexcoords hasNormals
          (fillTri hasTexcoords hasNormals vs)) with
      | .error e => .error e
      | .ok neg => .ok (fillTri hasTexcoords hasNormals vs, neg)

/-- What the line at offset `ptr` reads, given whether `texcoords` and
`normals` are non-empty at that point. -/
def readLine {F : Type} (strtof : List Char → Option (F × List Char)) (buf : List Char)
    (hasTexcoords hasNormals : Bool) (ptr : Nat) : Except Fault (Event F) :=
  match cstr buf ptr with
  | .error e => .error e
  | .ok line =>
    match classify line with
    | .position =>
      match readFloats strtof 3 line with
      | .error e => .error e
      | .ok fs => .ok (.position ⟨fs[0]?, fs[1]?, fs[2]?⟩)
    | .texcoord =>
      match readFloats strtof 2 line with
      | .error e => .error e
      | .ok fs => .ok (.texcoord ⟨fs[0]?, fs[1]?⟩)
    | .normal =>
      match readFloats strtof 3 line with
      | .error e => .error e
      | .ok fs => .ok (.normal ⟨fs[0]?, fs[1]?, fs[2]?⟩)
    | .face =>
      match readFace hasTexcoords hasNormals line with
      | .error e => .error e
      | .ok (tri, neg) => .ok (.face tri neg)
    | .usemtl =>
      match cstr buf (ptr + 7) with
      | .error _ => .ok (.usemtl none)
      | .ok name => .ok (.usemtl (some (String.mk name)))
    | .other => .ok .skip

/-! ## Parse: the line loop -/

/-- The local vectors of `Parse`, with the submesh list of the mesh. -/
structure ParseState (F : Type) where
  positions : List (Vector3f F)
  texcoords : List (Vector2f F)
  normals : List (Vector3f F)
  triangles : List ObjTri
  m_submeshes : List (SubMesh F)
  submesh_material_names : List String
  deriving DecidableEq, Repr

/-- The effect of one line on the parser; the flag tells whether the loop is
left through `break`. -/
def applyLine {F : Type} (m_export_triangles : Bool) (s : ParseState F) :
    Event F → Except Fault (Bool × ParseState F)
  | .position v => .ok (false, { s with positions := s.positions ++ [v] })
  | .texcoord v => .ok (false, { s with texcoords := s.texcoords ++ [v] })
  | .normal v => .ok (false, { s with normals := s.normals ++ [v] })
  | .face tri hasNegIndex =>
    if hasNegIndex then .ok (true, s)
    else .ok (false, { s with triangles := s.triangles ++ [tri] })
  | .usemtl name =>
    if s.triangles.length > 0 then
      match GenerateSubMesh m_export_triangles s.positions s.texcoords s.normals
          s.triangles with
      | .error e => .error e
      | .ok submesh =>
        match name with
        | none => .error .outOfBuffer
        | some nm =>
          .ok (false, { s with
            m_submeshes := s.m_submeshes ++ [submesh]
            triangles := []
            submesh_material_names := s.submesh_material_names ++ [nm] })
    else
      match name with
      | none => .error .outOfBuffer
      | some nm =>
        .ok (false, { s with submesh_material_names := s.submesh_material_names ++ [nm] })
  | .skip => .ok (false, s)

/-- The line loop of `Parse` over the remaining entries of `lines`. -/
def parseLines {F : Type} (strtof : List Char → Option (F × List Char))
    (m_export_triangles : Bool) (buf : List Char) :
    List Nat → ParseState F → Except Fault (Bool × ParseState F)
  | [], s => .ok (false, s)
  | ptr :: rest, s =>
    match readLine strtof buf (decide (s.texcoords.length > 0))
        (decide (s.normals.length > 0)) ptr with
    | .error e => .error e
    | .ok ev =>
      match applyLine m_export_triangles s ev with
      | .error e => .error e
      | .ok (true, s1) => .ok (true, s1)
      | .ok (false, s1) => parseLines strtof m_export_triangles buf rest s1

/-- What a call of `Parse` leaves behind: the returned names, the flag written
through `succ`, and the submesh list of the mesh. -/
structure ParseResult (F : Type) where
  names : List String
  succ : Bool
  m_submeshes : List (SubMesh F)
  deriving DecidableEq, Repr

/-- `ObjMeshParser::Parse` on the text `m_data`, for a mesh whose submesh list
is `m_submeshes` when the call starts. -/
def Parse {F : Type} (strtof : List Char → Option (F × List Char))
    (m_export_triangles : Bool) (m_submeshes : List (SubMesh F)) (m_data : List Char) :
    Except Fault (ParseResult F) :=
  match parseLines strtof m_export_triangles (splitBuffer m_data) (lineStarts m_data)
      { positions := [], texcoords := [], normals := [], triangles := [],
        m_submeshes := m_submeshes, submesh_material_names := [] } with
  | .error e => .error e
  | .ok (true, s) => .ok { names := [], succ := false, m_submeshes := s.m_submeshes }
  | .ok (false, s) =>
    match GenerateSubMesh m_export_triangles s.positions s.texcoords s.normals
        s.triangles with
    | .error e => .error e
    | .ok submesh =>
      .ok { names := s.submesh_material_names, succ := true,
            m_submeshes := s.m_submeshes ++ [submesh] }

/-! ## Parse: the text seen as a sequence of events

These definitions restate, in the words of the specification, what a mesh
text contains; the theorems compare them with what `Parse` builds. -/

/-- The branch taken by the line that starts at offset `ptr`. -/
def kindAt (buf : List Char) (ptr : Nat) : LineKind := classify (lineAt buf ptr)

/-- The number of face lines of a mesh text. -/
def faceLineCount (m_data : List Char) : Nat :=
  ((lineStarts m_data).filter
    (fun ptr => decide (kindAt (splitBuffer m_data) ptr = .face))).length

/-- The number of material-boundary lines of a mesh text. -/
def usemtlLineCount (m_data : List Char) : Nat :=
  ((lineStarts m_data).filter
    (fun ptr => decide (kindAt (splitBuffer m_data) ptr = .usemtl))).length

/-- Whether one of the lines at the offsets `ptrs` is of kind `k`. -/
def declares (buf : List Char) (k : LineKind) (ptrs : List Nat) : Bool :=
  ptrs.any (fun ptr => decide (kindAt buf ptr = k))

/-- Whether an event declares a texture coordinate. -/
def Event.isTexcoord {F : Type} : Event F → Bool
  | .texcoord _ => true
  | _ => false

/-- Whether an event declares a normal. -/
def Event.isNormal {F : Type} : Event F → Bool
  | .normal _ => true
  | _ => false

/-- The events of the lines at the offsets given, read in order; the flags
tell whether a texcoord and a normal have been declared before. -/
def readLines {F : Type} (strtof : List Char → Option (F × List Char)) (buf : List Char) :
    List Nat → Bool → Bool → Except Fault (List (Event F))
  | [], _, _ => .ok []
  | ptr :: rest, hasTexcoords, hasNormals =>
    match readLine strtof buf hasTexcoords hasNormals ptr with
    | .error e => .error e
    | .ok ev =>
      match readLines strtof buf rest (hasTexcoords || ev.isTexcoord)
          (hasNormals || ev.isNormal) with
      | .error e => .error e
      | .ok evs => .ok (ev :: evs)

/-- The events of a whole mesh text. -/
def textEvents {F : Type} (strtof : List Char → Option (F × List Char))
    (m_data : List Char) : Except Fault (List (Event F)) :=
  readLines strtof (splitBuffer m_data) (lineStarts m_data) false false

/-- The material names of the boundary markers, in order of appearance. -/
def markerNames {F : Type} : List (Event F) → List String
  | [] => []
  | .usemtl (some nm) :: evs => nm :: markerNames evs
  | _ :: evs => markerNames evs

/-- The runs of faces that a boundary marker closes, in order, where `cur`
holds the faces seen since the last marker. -/
def closedBlocks {F : Type} (cur : List ObjTri) : List (Event F) → List (List ObjTri)
  | [] => []
  | .face tri _ :: evs => closedBlocks (cur ++ [tri]) evs
  | .usemtl _ :: evs => cur :: closedBlocks [] evs
  | _ :: evs => closedBlocks cur evs

/-- The faces after the last boundary marker. -/
def pendingFaces {F : Type} (cur : List ObjTri) : List (Event F) → List ObjTri
  | [] => cur
  | .face tri _ :: evs => pendingFaces (cur ++ [tri]) evs
  | .usemtl _ :: evs => pendingFaces [] evs
  | _ :: evs => pendingFaces cur evs

/-- The submesh `sm` is the flattening of exactly the faces `block`, over some
coordinate lists. -/
def HoldsFaces {F : Type} (m_export_triangles : Bool) (sm : SubMesh F)
    (block : List ObjTri) : Prop :=
  ∃ positions texcoords normals,
    GenerateSubMesh m_export_triangles positions texcoords normals block = .ok sm

/-- The sum of the vertex counts of a list of submeshes. -/
def vertexTotal {F : Type} (submeshes : List (SubMesh F)) : Nat :=
  (submeshes.map (fun sm => sm.m_vertex_count)).sum

/-- A face record has a negative index in a field that the test of its record
shape reads. -/
def HasCheckedNegative (hasTexcoords hasNormals : Bool) (line : List Char) : Prop :=
  ∃ rest vs i, scanToken line = .ok rest ∧
    scanInts (shapeArity hasTexcoords hasNormals) (rest.getD []) = .ok vs ∧
    some i ∈ checkedFields hasTexcoords hasNormals (fillTri hasTexcoords hasNormals vs) ∧
    i < 0

/-! ## The program cache -/

/-- `struct Attrib`. -/
structure Attrib where
  name : String
  location : Int
  size : Int
  type : Nat
  deriving DecidableEq, Repr

/-- `struct Uniform`. -/
structure Uniform where
  name : String
  location : Int
  size : Int
  type : Nat
  deriving DecidableEq, Repr

/-- The assignment `map[key] = value` of a `std::map`, kept as an association
list that `List.lookup` searches. -/
def mapSet {α : Type} (map : List (String × α)) (key : String) (value : α) :
    List (String × α) :=
  (key, value) :: map.filter (fun e => e.1 != key)

/-- The data members of `Program`. -/
structure Program where
  m_gl_program : Nat
  m_attribs : List (String × Attrib)
  m_uniforms : List (String × Uniform)
  m_builtin_uniforms : List String
  deriving DecidableEq, Repr

/-- `Program::Program()`: the member initialisers of the class. -/
def Program.new : Program :=
  { m_gl_program := 0, m_attribs := [], m_uniforms := [], m_builtin_uniforms := [] }

/-- `Program::GetAvailableBuiltinUniforms`. -/
def GetAvailableBuiltinUniforms : List String :=
  ["matWorld", "matView", "matProjection", "matWorldView", "matViewProjection", "matWVP",
   "diffuseEnvMap", "specularEnvMap", "iblBrdfLutMap", "iblDiffuseEnvMap",
   "iblSpecularEnvMap"]

/-- The file system and the graphics driver, as `LoadAndCompile` sees them.
The first argument of each driver answer is the number of `LoadAndCompile`
calls made before, so that answers may change over time. -/
structure Driver where
  ReadTextFile : String → String
  glCreateProgram : Nat → Nat
  compilesVertex : Nat → String → Bool
  compilesFragment : Nat → String → Bool
  linkStatus : Nat → String → String → Bool
  activeAttribs : Nat → String → String → List Attrib
  activeUniforms : Nat → String → String → List Uniform

/-- The loop of `LoadAndCompile` over the active attributes. -/
def collectAttribs (attribs : List Attrib) (m_attribs : List (String × Attrib)) :
    List (String × Attrib) :=
  attribs.foldl (fun m a => mapSet m a.name a) m_attribs

/-- The loop of `LoadAndCompile` over the active uniforms. -/
def collectUniforms (uniforms : List Uniform) (program : Program) : Program :=
  uniforms.foldl (fun p u =>
    { p with
      m_uniforms := mapSet p.m_uniforms u.name u
      m_builtin_uniforms :=
        if u.name ∈ GetAvailableBuiltinUniforms then p.m_builtin_uniforms ++ [u.name]
        else p.m_builtin_uniforms }) program

/-- The text handed to the shader compiler: `shader_prefix + ReadTextFile(file)`
with `shader_prefix = macros + "\n"`. -/
def fullSource (driver : Driver) (macros file : String) : String :=
  (macros ++ "\n") ++ driver.ReadTextFile file

/-- `Program::LoadAndCompile`, as the call number `n` against the driver. -/
def Program.LoadAndCompile (driver : Driver) (n : Nat) (self : Program)
    (vert_file frag_file macros : String) : Bool × Program :=
  if driver.glCreateProgram n = 0 then (false, self)
  else
    let full_vert_src := fullSource driver macros vert_file
    let full_frag_src := fullSource driver macros frag_file
    let ok := driver.compilesVertex n full_vert_src
    let ok := ok && driver.compilesFragment n full_frag_src
    if ok && !driver.linkStatus n full_vert_src full_frag_src then (false, self)
    else if !ok then (false, self)
    else
      let withAttribs := { self with
        m_attribs := collectAttribs (driver.activeAttribs n full_vert_src full_frag_src)
          self.m_attribs }
      let withUniforms :=
        collectUniforms (driver.activeUniforms n full_vert_src full_frag_src) withAttribs
      (true, { withUniforms with m_gl_program := driver.glCreateProgram n })

/-- `enum TextureType`. -/
inductive TextureType where
  | TEXTURE_2D
  | TEXTURE_CUBE
  deriving DecidableEq, Repr

/-- The members of `Texture` that the renderer reads back. -/
structure Texture where
  m_gl_texture : Nat
  m_width : Nat
  m_height : Nat
  m_type : TextureType
  deriving DecidableEq, Repr

/-- `struct TextureInfo`: a cached texture and its translucency flag. -/
structure TextureInfo where
  texture : Nat
  translucent : Bool
  deriving DecidableEq, Repr

/-- The caches, the mesh list and the environment textures of `Renderer`.
The program part is what `LoadProgram` works on.  A `Program*` is the index of
the object in `programs`, the live `Program` objects in order of creation;
`compiles` counts the calls of `LoadAndCompile` made so far. -/
structure Renderer where
  m_program_cache : List (String × Nat)
  programs : List Program
  compiles : Nat
  /-- `m_texture_cache`: path to `TextureInfo` -/
  m_texture_cache : List (String × TextureInfo) := []
  /-- the `Texture` objects created so far; a `Texture*` is an index here -/
  textures : List Texture := []
  /-- the `Texture*` that have been deleted -/
  released : List Nat := []
  /-- `m_mesh_list`, a `Mesh*` being a number -/
  m_mesh_list : List Nat := []
  m_diffuse_env_texture : Option Nat := none
  m_specular_env_texture : Option Nat := none
  m_ibl_brdf_lut_texture : Option Nat := none
  m_ibl_diffuse_env_texture : Option Nat := none
  m_ibl_specular_env_texture : Option Nat := none
  m_resource_dir : String := ""
  deriving DecidableEq, Repr

/-- A renderer whose caches are empty, as after construction. -/
def Renderer.new : Renderer := { m_program_cache := [], programs := [], compiles := 0 }

/-- `Renderer::LoadProgram`; `none` is `nullptr`. -/
def Renderer.LoadProgram (driver : Driver) (r : Renderer)
    (vert_file frag_file macros : String) : Option Nat × Renderer :=
  let program_key := vert_file ++ frag_file ++ macros
  match r.m_program_cache.lookup program_key with
  | some program => (some program, r)
  | none =>
    let program := r.programs.length
    match Program.new.LoadAndCompile driver r.compiles vert_file frag_file macros with
    | (true, compiled) =>
      (some program, { r with
        m_program_cache := mapSet r.m_program_cache program_key program
        programs := r.programs ++ [compiled]
        compiles := r.compiles + 1 })
    | (false, _) => (none, { r with compiles := r.compiles + 1 })

/-- Every cached `Program*` points to a live object. -/
def Renderer.CacheLive (r : Renderer) : Prop :=
  ∀ key program, (key, program) ∈ r.m_program_cache → program < r.programs.length

/-- A driver on which every shader compiles and links, with no active
attribute or uniform. -/
def driverAccepting : Driver where
  ReadTextFile := fun _ => ""
  glCreateProgram := fun n => n + 1
  compilesVertex := fun _ _ => true
  compilesFragment := fun _ _ => true
  linkStatus := fun _ _ _ => true
  activeAttribs := fun _ _ _ => []
  activeUniforms := fun _ _ _ => []

/-- A driver on which no program links. -/
def driverRejecting : Driver where
  ReadTextFile := fun _ => ""
  glCreateProgram := fun n => n + 1
  compilesVertex := fun _ _ => true
  compilesFragment := fun _ _ => true
  linkStatus := fun _ _ _ => false
  activeAttribs := fun _ _ _ => []
  activeUniforms := fun _ _ _ => []

/-! ## Auxiliary notions for the parser theorems -/

/-- The branch of the line loop an event comes from. -/
def Event.kind {F : Type} : Event F → LineKind
  | .position _ => .position
  | .texcoord _ => .texcoord
  | .normal _ => .normal
  | .face _ _ => .face
  | .usemtl _ => .usemtl
  | .skip => .other

/-- Whether an event is a face record. -/
def Event.isFace {F : Type} : Event F → Bool
  | .face _ _ => true
  | _ => false

/-- The parser state `s1` is what the events `evs`, none of which leaves the
loop, make of the state `s`. -/
def Replays {F : Type} (m_export_triangles : Bool) (s : ParseState F)
    (evs : List (Event F)) (s1 : ParseState F) : Prop :=
  s1.submesh_material_names = s.submesh_material_names ++ markerNames evs ∧
  s1.triangles = pendingFaces s.triangles evs ∧
  (∃ added, s1.m_submeshes = s.m_submeshes ++ added ∧
    List.Forall₂ (HoldsFaces m_export_triangles) added
      ((closedBlocks s.triangles evs).filter (fun b => decide (b ≠ [])))) ∧
  (∀ tri neg, Event.face tri neg ∈ evs → neg = false) ∧
  decide (s1.texcoords.length > 0) =
    (decide (s.texcoords.length > 0) || evs.any Event.isTexcoord) ∧
  decide (s1.normals.length > 0) = (decide (s.normals.length > 0) || evs.any Event.isNormal) ∧
  (∀ ev ∈ evs, ev ≠ Event.usemtl none)

/-- The renderer after `LoadProgram` of ("a.vert", "a.frag", "#define A") on
a fresh renderer with `driverAccepting`. -/
def rendererAfterFirstLoad : Renderer :=
  { m_program_cache := [("a.verta.frag#define A", 0)],
    programs := [{ m_gl_program := 1, m_attribs := [], m_uniforms := [],
                   m_builtin_uniforms := [] }],
    compiles := 1 }

/-- The list `out` holds, three slots per face record of `tris` and in face
order, the entries of `vec` whose 1-based numbers are the three indices that
`sel` picks from the record. -/
def Flattened {α : Type} (vec : List α) (sel : ObjTri → List (Option Int)) :
    List ObjTri → List α → Prop
  | [], out => out = []
  | tri :: rest, out =>
    ∃ a b c : Int, ∃ x y z : α, ∃ tail : List α,
      sel tri = [some a, some b, some c] ∧ 1 ≤ a ∧ 1 ≤ b ∧ 1 ≤ c ∧
      vec[(a - 1).toNat]? = some x ∧ vec[(b - 1).toNat]? = some y ∧
      vec[(c - 1).toNat]? = some z ∧
      out = x :: y :: z :: tail ∧ Flattened vec sel rest tail

/-- The vertex indices of a face record, by corner. -/
def ObjTri.vertexIndices (tri : ObjTri) : List (Option Int) := [tri.v0, tri.v1, tri.v2]

/-- The texcoord indices of a face record, by corner. -/
def ObjTri.texcoordIndices (tri : ObjTri) : List (Option Int) := [tri.t0, tri.t1, tri.t2]

/-- The normal indices of a face record, by corner. -/
def ObjTri.normalIndices (tri : ObjTri) : List (Option Int) := [tri.n0, tri.n1, tri.n2]

/-! ## Sample texts -/

/-- The end-to-end example of the specification: three positions, one face. -/
def sampleTriangle : List Char := "v 0 0 0\nv 1 0 0\nv 0 1 0\nf 1 2 3\n".toList

/-- A mesh with positions, a texcoord and a normal, and two material blocks of
one face each. -/
def sampleTwoMaterials : List Char :=
  ("v 0 0 0\nv 1 0 0\nv 0 1 0\nvt 0 0\nvn 0 0 1\n" ++
   "usemtl A\nf 1/1/1 2/1/1 3/1/1\nusemtl B\nf 3/1/1 2/1/1 1/1/1\n").toList

/-- A face line ahead of the only material boundary. -/
def sampleFaceBeforeMarker : List Char :=
  ("v 0 0 0\nv 1 0 0\nv 0 1 0\nvt 0 0\nvn 0 0 1\n" ++
   "f 1/1/1 2/1/1 3/1/1\nusemtl A\nf 3/1/1 2/1/1 1/1/1\n").toList

/-- A face record whose first vertex index is zero. -/
def sampleZeroIndex : List Char :=
  "v 0 0 0\nvt 0 0\nvn 0 0 1\nf 0/1/1 1/1/1 1/1/1\n".toList

/-- A material block followed by a block whose face has a negative index. -/
def sampleNegativeAfterBlock : List Char :=
  ("v 0 0 0\nvt 0 0\nvn 0 0 1\nusemtl A\nf 1/1/1 1/1/1 1/1/1\n" ++
   "usemtl B\nf 1/1/1 -1/1/1 1/1/1\n").toList

/-- A position with all three components assigned. -/
def vec3 (x y z : Int) : Vector3f Int := { x := some x, y := some y, z := some z }

/-- A texcoord with both components assigned. -/
def vec2 (x y : Int) : Vector2f Int := { x := some x, y := some y }

/-- A face record with all nine indices assigned. -/
def tri9 (v0 t0 n0 v1 t1 n1 v2 t2 n2 : Int) : ObjTri :=
  { v0 := some v0, t0 := some t0, n0 := some n0, v1 := some v1, t1 := some t1,
    n1 := some n1, v2 := some v2, t2 := some t2, n2 := some n2 }

/-- A flattened submesh without the exported copies. -/
def flatSubMesh (ps : List (Vector3f Int)) (ts : List (Vector2f Int))
    (ns : List (Vector3f Int)) : SubMesh Int :=
  { m_vertex_count := ps.length, m_positions := some ps, m_texcoords := some ts,
    m_normals := some ns, m_ori_positions := [], m_ori_triangles := [] }

/-- What `Parse` leaves on `sampleTwoMaterials`. -/
def sampleTwoMaterialsResult : ParseResult Int :=
  { names := ["A", "B"], succ := true,
    m_submeshes :=
      [flatSubMesh [vec3 0 0 0, vec3 1 0 0, vec3 0 1 0] [vec2 0 0, vec2 0 0, vec2 0 0]
         [vec3 0 0 1, vec3 0 0 1, vec3 0 0 1],
       flatSubMesh [vec3 0 1 0, vec3 1 0 0, vec3 0 0 0] [vec2 0 0, vec2 0 0, vec2 0 0]
         [vec3 0 0 1, vec3 0 0 1, vec3 0 0 1]] }

/-- What `Parse` leaves on `sampleFaceBeforeMarker`. -/
def sampleFaceBeforeMarkerResult : ParseResult Int :=
  { names := ["A"], succ := true,
    m_submeshes :=
      [flatSubMesh [vec3 0 0 0, vec3 1 0 0, vec3 0 1 0] [vec2 0 0, vec2 0 0, vec2 0 0]
         [vec3 0 0 1, vec3 0 0 1, vec3 0 0 1],
       flatSubMesh [vec3 0 1 0, vec3 1 0 0, vec3 0 0 0] [vec2 0 0, vec2 0 0, vec2 0 0]
         [vec3 0 0 1, vec3 0 0 1, vec3 0 0 1]] }

/-- What `Parse` leaves on `sampleNegativeAfterBlock`. -/
def sampleNegativeAfterBlockResult : ParseResult Int :=
  { names := [], succ := false,
    m_submeshes :=
      [flatSubMesh [vec3 0 0 0, vec3 0 0 0, vec3 0 0 0] [vec2 0 0, vec2 0 0, vec2 0 0]
         [vec3 0 0 1, vec3 0 0 1, vec3 0 0 1]] }

/-- A material boundary whose name contains a slash. -/
def sampleSlashName : List Char := "usemtl wood/oak\n".toList

/-! ## The matrix cache: Mesh and Camera -/

/-- The Eigen operations behind the cached matrices, over abstract types of
4x4 matrices `M`, 3-vectors `V`, quaternions `Q` and floats `S`. -/
structure Linear (M V Q S : Type) where
  /-- `(Translation3f(p) * q * AlignedScaling3f(s)).matrix()`: translate x
  rotate x scale -/
  trs : V → Q → V → M
  /-- `(Translation3f(p) * q).matrix()`: translate x rotate -/
  tr : V → Q → M
  /-- `Matrix4f::inverse()` -/
  inverse : M → M
  /-- `operator*` of two `Matrix4f` -/
  mul : M → M → M
  /-- the matrix that `MakeOrthographic` writes, from `m_flip_y` and its
  arguments -/
  orthographic : Bool → S → S → S → S → S → M
  /-- the matrix that `MakePerspective` writes -/
  perspective : Bool → S → S → S → S → M
  /-- the matrix that `MakePNPProjection` writes -/
  pnpProjection : Bool → S → S → S → S → S → S → M

/-- The transform members of `Mesh`.  `recomputations` is a ghost counter of
the times `GetTransform` recomposed the matrix. -/
structure Mesh (M V Q : Type) where
  m_position : V
  m_rotation : Q
  m_scale : V
  m_transform : M
  m_transform_dirty : Bool
  recomputations : Nat

/-- `Mesh::SetPosition`. -/
def Mesh.SetPosition {M V Q : Type} (self : Mesh M V Q) (position : V) : Mesh M V Q :=
  { self with m_position := position, m_transform_dirty := true }

/-- `Mesh::SetRotation`. -/
def Mesh.SetRotation {M V Q : Type} (self : Mesh M V Q) (rotation : Q) : Mesh M V Q :=
  { self with m_rotation := rotation, m_transform_dirty := true }

/-- `Mesh::SetScale`. -/
def Mesh.SetScale {M V Q : Type} (self : Mesh M V Q) (scale : V) : Mesh M V Q :=
  { self with m_scale := scale, m_transform_dirty := true }

/-- `Mesh::SetTransform`. -/
def Mesh.SetTransform {M V Q : Type} (self : Mesh M V Q) (matrix : M) : Mesh M V Q :=
  { self with m_transform := matrix, m_transform_dirty := false }

/-- `Mesh::GetTransform`: the returned matrix and the mesh afterwards. -/
def Mesh.GetTransform {M V Q S : Type} (alg : Linear M V Q S) (self : Mesh M V Q) :
    M × Mesh M V Q :=
  if self.m_transform_dirty then
    (alg.trs self.m_position self.m_rotation self.m_scale,
      { self with
        m_transform := alg.trs self.m_position self.m_rotation self.m_scale
        m_transform_dirty := false
        recomputations := self.recomputations + 1 })
  else (self.m_transform, self)

/-- A call on the transform interface of a mesh. -/
inductive MeshOp (M V Q : Type) where
  | setPosition (position : V)
  | setRotation (rotation : Q)
  | setScale (scale : V)
  | setTransform (matrix : M)
  | getTransform

/-- The mesh after one call. -/
def Mesh.step {M V Q S : Type} (alg : Linear M V Q S) (self : Mesh M V Q) :
    MeshOp M V Q → Mesh M V Q
  | .setPosition p => self.SetPosition p
  | .setRotation q => self.SetRotation q
  | .setScale s => self.SetScale s
  | .setTransform m => self.SetTransform m
  | .getTransform => (self.GetTransform alg).2

/-- The mesh after a sequence of calls. -/
def Mesh.run {M V Q S : Type} (alg : Linear M V Q S) (self : Mesh M V Q)
    (ops : List (MeshOp M V Q)) : Mesh M V Q :=
  ops.foldl (Mesh.step alg) self

/-- Whether a call mutates position, rotation, scale or transform. -/
def MeshOp.isMutation {M V Q : Type} : MeshOp M V Q → Bool
  | .getTransform => false
  | _ => true

/-- The last mutation of a sequence of calls; `seen` is the last one before
the sequence. -/
def lastMutation {M V Q : Type} (seen : Option (MeshOp M V Q)) :
    List (MeshOp M V Q) → Option (MeshOp M V Q)
  | [] => seen
  | .getTransform :: rest => lastMutation seen rest
  | op :: rest => lastMutation (some op) rest

/-- The members of `Camera`.  The two counters are ghosts: the times
`GetViewMatrix` and `GetViewProjectionMatrix` recomputed their matrix. -/
structure Camera (M V Q : Type) where
  m_position : V
  m_rotation : Q
  m_flip_y : Bool
  m_view_matrix : M
  m_view_matrix_dirty : Bool
  m_projection_matrix : M
  m_view_projection_matrix : M
  m_view_projection_matrix_dirty : Bool
  viewRecomputations : Nat
  viewProjectionRecomputations : Nat

/-- `Camera::SetPosition`. -/
def Camera.SetPosition {M V Q : Type} (self : Camera M V Q) (position : V) : Camera M V Q :=
  { self with
    m_position := position
    m_view_matrix_dirty := true
    m_view_projection_matrix_dirty := true }

/-- `Camera::SetRotation`. -/
def Camera.SetRotation {M V Q : Type} (self : Camera M V Q) (rotation : Q) : Camera M V Q :=
  { self with
    m_rotation := rotation
    m_view_matrix_dirty := true
    m_view_projection_matrix_dirty := true }

/-- `Camera::GetViewMatrix`. -/
def Camera.GetViewMatrix {M V Q S : Type} (alg : Linear M V Q S) (self : Camera M V Q) :
    M × Camera M V Q :=
  if !self.m_view_matrix_dirty then (self.m_view_matrix, self)
  else
    (alg.inverse (alg.tr self.m_position self.m_rotation),
      { self with
        m_view_matrix := alg.inverse (alg.tr self.m_position self.m_rotation)
        m_view_matrix_dirty := false
        viewRecomputations := self.viewRecomputations + 1 })

/-- `Camera::SetViewMatrix`. -/
def Camera.SetViewMatrix {M V Q : Type} (self : Camera M V Q) (matrix : M) : Camera M V Q :=
  { self with
    m_view_matrix := matrix
    m_view_matrix_dirty := false
    m_view_projection_matrix_dirty := true }

/-- `Camera::GetProjectionMatrix`. -/
def Camera.GetProjectionMatrix {M V Q : Type} (self : Camera M V Q) : M :=
  self.m_projection_matrix

/-- `Camera::SetProjectionMatrix`. -/
def Camera.SetProjectionMatrix {M V Q : Type} (self : Camera M V Q) (matrix : M) :
    Camera M V Q :=
  { self with m_projection_matrix := matrix, m_view_projection_matrix_dirty := true }

/-- `Camera::GetViewProjectionMatrix`. -/
def Camera.GetViewProjectionMatrix {M V Q S : Type} (alg : Linear M V Q S)
    (self : Camera M V Q) : M × Camera M V Q :=
  if !self.m_view_projection_matrix_dirty then (self.m_view_projection_matrix, self)
  else
    let viewed := (self.GetViewMatrix alg).2
    (alg.mul viewed.m_projection_matrix viewed.m_view_matrix,
      { viewed with
        m_view_projection_matrix := alg.mul viewed.m_projection_matrix viewed.m_view_matrix
        viewProjectionRecomputations := viewed.viewProjectionRecomputations + 1 })

/-- `Camera::MakeOrthographic`. -/
def Camera.MakeOrthographic {M V Q S : Type} (alg : Linear M V Q S) (self : Camera M V Q)
    (width height ratio near far : S) : Camera M V Q :=
  { self with
    m_projection_matrix := alg.orthographic self.m_flip_y width height ratio near far
    m_view_projection_matrix_dirty := true }

/-- `Camera::MakePerspective`. -/
def Camera.MakePerspective {M V Q S : Type} (alg : Linear M V Q S) (self : Camera M V Q)
    (fov ratio near far : S) : Camera M V Q :=
  { self with
    m_projection_matrix := alg.perspective self.m_flip_y fov ratio near far
    m_view_projection_matrix_dirty := true }

/-- `Camera::MakePNPProjection`. -/
def Camera.MakePNPProjection {M V Q S : Type} (alg : Linear M V Q S) (self : Camera M V Q)
    (width height fx fy near far : S) : Camera M V Q :=
  { self with
    m_projection_matrix := alg.pnpProjection self.m_flip_y width height fx fy near far
    m_view_projection_matrix_dirty := true }

/-- A call on the matrix interface of the camera. -/
inductive CameraOp (M V Q S : Type) where
  | setPosition (position : V)
  | setRotation (rotation : Q)
  | setViewMatrix (matrix : M)
  | setProjectionMatrix (matrix : M)
  | makeOrthographic (width height ratio near far : S)
  | makePerspective (fov ratio near far : S)
  | makePNPProjection (width height fx fy near far : S)
  | getViewMatrix
  | getViewProjectionMatrix

/-- The camera after one call. -/
def Camera.step {M V Q S : Type} (alg : Linear M V Q S) (self : Camera M V Q) :
    CameraOp M V Q S → Camera M V Q
  | .setPosition p => self.SetPosition p
  | .setRotation q => self.SetRotation q
  | .setViewMatrix m => self.SetViewMatrix m
  | .setProjectionMatrix m => self.SetProjectionMatrix m
  | .makeOrthographic w h r n f => self.MakeOrthographic alg w h r n f
  | .makePerspective v r n f => self.MakePerspective alg v r n f
  | .makePNPProjection w h fx fy n f => self.MakePNPProjection alg w h fx fy n f
  | .getViewMatrix => (self.GetViewMatrix alg).2
  | .getViewProjectionMatrix => (self.GetViewProjectionMatrix alg).2

/-- The camera after a sequence of calls. -/
def Camera.run {M V Q S : Type} (alg : Linear M V Q S) (self : Camera M V Q)
    (ops : List (CameraOp M V Q S)) : Camera M V Q :=
  ops.foldl (Camera.step alg) self

/-- A sample algebra on integers: a matrix is a number, composition and
product are sums, the inverse is the negation. -/
def sampleLinear : Linear Int Int Int Int where
  trs := fun p q s => p + q + s
  tr := fun p q => p + q
  inverse := fun m => - m
  mul := fun a b => a + b
  orthographic := fun _ w _ _ _ _ => w
  perspective := fun _ v _ _ _ => v
  pnpProjection := fun _ w _ _ _ _ _ => w

/-- A sample mesh as the member initialisers leave it: the transform is not
yet computed and the flag is set. -/
def sampleMesh : Mesh Int Int Int :=
  { m_position := 0, m_rotation := 0, m_scale := 1, m_transform := 77,
    m_transform_dirty := true, recomputations := 0 }

/-- A sample camera as the member initialisers leave it: both flags set. -/
def sampleCamera : Camera Int Int Int :=
  { m_position := 1, m_rotation := 0, m_flip_y := false, m_view_matrix := 55,
    m_view_matrix_dirty := true, m_projection_matrix := 10,
    m_view_projection_matrix := 66, m_view_projection_matrix_dirty := true,
    viewRecomputations := 0, viewProjectionRecomputations := 0 }

/-- A sample sequence of mesh calls that ends in `SetTransform`. -/
def sampleMeshOpsDirect : List (MeshOp Int Int Int) :=
  [.setPosition 3, .setTransform 9]

/-- A sample sequence of mesh calls whose last mutation is `SetScale`. -/
def sampleMeshOpsComposed : List (MeshOp Int Int Int) :=
  [.setPosition 3, .getTransform, .setScale 2]

/-- A sample sequence of camera calls. -/
def sampleCameraOps : List (CameraOp Int Int Int Int) :=
  [.setProjectionMatrix 20, .getViewProjectionMatrix, .setRotation 4]

/-! ## The texture cache -/

/-- The pixel formats of an `ImageFrame` that `LoadTexture` distinguishes. -/
inductive ImageFormat where
  | SRGBA
  | SBGRA
  | other
  deriving DecidableEq, Repr

/-- A decoded `ImageFrame`: its dimensions, row stride, format and the byte
at every offset of its pixel buffer. -/
structure ImageFrame where
  Width : Nat
  Height : Nat
  WidthStep : Nat
  Format : ImageFormat
  PixelData : Nat → Nat

/-- The image decoder, the texture names of the driver and the resource path
macro, as the texture cache sees them. -/
structure Images where
  /-- `getImageFrameFromPath(path, ImageFormat_SRGBA)`; `none` is `nullptr` -/
  getImageFrameFromPath : String → Option ImageFrame
  /-- the name `glGenTextures` yields, by the number of textures created
  before -/
  glGenTextures : Nat → Nat
  /-- the face size that `LoadCubeTexture` reads for a cube path and mipmap
  flag; `none` when one of the face images it dereferences is missing -/
  cubeFaceSize : String → Bool → Option Nat
  /-- the macro `CONCAT_RESOURCE_PATH(m_resource_dir, file)` -/
  CONCAT_RESOURCE_PATH : String → String → String
  /-- the default argument of `LoadCubeTexture` for `load_mipmap_chain` -/
  load_mipmap_chain_default : Bool

/-- The alpha byte of the pixel at `row`, `col`: `pixels[idx + 3]` with
`idx = row * WidthStep + col * 4`. -/
def ImageFrame.alpha (image : ImageFrame) (row col : Nat) : Nat :=
  image.PixelData (row * image.WidthStep + col * 4 + 3) % 256

/-- The two loops of `LoadTexture` over rows and columns, as they run when a
flag output is given: whether they meet an alpha with `0 < alpha < 255`. -/
def ImageFrame.scanAlpha (image : ImageFrame) : Bool :=
  (List.range image.Height).any fun row =>
    (List.range image.Width).any fun col =>
      decide (0 < image.alpha row col) && decide (image.alpha row col < 255)

/-- Whether the format test ahead of the alpha loops of `LoadTexture` holds. -/
def ImageFrame.hasAlphaFormat (image : ImageFrame) : Bool :=
  decide (image.Format = .SRGBA) || decide (image.Format = .SBGRA)

set_option linter.unusedVariables false in
/-- `Renderer::LoadTexture`.  The flag output is `none` for `nullptr` and
`some b` for a pointer to a `bool` that holds `b`; the result gives the
returned `Texture*`, the flag after the call and the renderer after the call. -/
def Renderer.LoadTexture (images : Images) (r : Renderer) (texture_file : String)
    (out_translucent_flag : Option Bool) (generate_mipmap : Bool) :
    Option Nat × Option Bool × Renderer :=
  match r.m_texture_cache.lookup texture_file with
  | some ti => (some ti.texture, out_translucent_flag.map (fun _ => ti.translucent), r)
  | none =>
    match images.getImageFrameFromPath texture_file with
    | none => (none, out_translucent_flag, r)
    | some image_frame =>
      let texture := r.textures.length
      let flag := out_translucent_flag.map
        (fun _ => image_frame.hasAlphaFormat && image_frame.scanAlpha)
      let ti : TextureInfo := { texture := texture, translucent := flag.getD false }
      (some texture, flag,
        { r with
          textures := r.textures ++
            [{ m_gl_texture := images.glGenTextures r.textures.length
               m_width := image_frame.Width
               m_height := image_frame.Height
               m_type := .TEXTURE_2D }]
          m_texture_cache := mapSet r.m_texture_cache texture_file ti })

/-- `Renderer::AddMesh`; `none` is a null `Mesh*`. -/
def Renderer.AddMesh (r : Renderer) (mesh : Option Nat) : Renderer :=
  match mesh with
  | none => r
  | some m => if m ∈ r.m_mesh_list then r else { r with m_mesh_list := r.m_mesh_list ++ [m] }

/-- `Renderer::RemoveMesh`. -/
def Renderer.RemoveMesh (r : Renderer) (mesh : Option Nat) : Renderer :=
  match mesh with
  | none => r
  | some m => { r with m_mesh_list := r.m_mesh_list.erase m }

/-- One round of the loop of `Mesh::~Mesh` over `m_associated_textures`. -/
def Renderer.releaseAssociated (r : Renderer) (texture_path : String) : Renderer :=
  match r.m_texture_cache.lookup texture_path with
  | some ti =>
    { r with
      released := r.released ++ [ti.texture]
      m_texture_cache := r.m_texture_cache.filter (fun e => e.1 != texture_path) }
  | none => r

/-- What `Mesh::~Mesh` does to the renderer, for a mesh whose
`m_associated_textures` are the paths given. -/
def Renderer.destroyMesh (r : Renderer) (m_associated_textures : List String) : Renderer :=
  m_associated_textures.foldl Renderer.releaseAssociated r

/-- `Renderer::~Renderer`, on the caches: every cached texture is deleted and
both caches are cleared. -/
def Renderer.destroy (r : Renderer) : Renderer :=
  { r with
    released := r.released ++ r.m_texture_cache.map (fun e => e.2.texture)
    m_texture_cache := []
    m_program_cache := [] }

/-- A call that the owner of a renderer can make on its resources. -/
inductive RendererOp where
  | loadTexture (texture_file : String) (out_translucent_flag : Option Bool)
      (generate_mipmap : Bool)
  | loadProgram (vert_file frag_file macros : String)
  | addMesh (mesh : Option Nat)
  | removeMesh (mesh : Option Nat)
  | destroyMesh (m_associated_textures : List String)
  deriving DecidableEq, Repr

/-- The renderer after one call. -/
def Renderer.step (driver : Driver) (images : Images) (r : Renderer) :
    RendererOp → Renderer
  | .loadTexture file flag mip => (r.LoadTexture images file flag mip).2.2
  | .loadProgram v f m => (r.LoadProgram driver v f m).2
  | .addMesh mesh => r.AddMesh mesh
  | .removeMesh mesh => r.RemoveMesh mesh
  | .destroyMesh paths => r.destroyMesh paths

/-- The renderer after a sequence of calls. -/
def Renderer.run (driver : Driver) (images : Images) (r : Renderer)
    (ops : List RendererOp) : Renderer :=
  ops.foldl (Renderer.step driver images) r

/-- Whether a call destroys a mesh that lists `path` among its associated
textures. -/
def RendererOp.releases (path : String) : RendererOp → Bool
  | .destroyMesh paths => decide (path ∈ paths)
  | _ => false

/-- The entry of `path` in the texture cache is `ti`, its texture is alive,
and no other path of the cache shares the texture. -/
def Renderer.Owns (r : Renderer) (path : String) (ti : TextureInfo) : Prop :=
  r.m_texture_cache.lookup path = some ti ∧ ti.texture < r.textures.length ∧
    ti.texture ∉ r.released ∧
    ∀ key other, (key, other) ∈ r.m_texture_cache → other.texture = ti.texture → key = path

/-- An image of one pixel whose alpha is 128. -/
def sampleHalfAlpha : ImageFrame :=
  { Width := 1, Height := 1, WidthStep := 4, Format := .SRGBA,
    PixelData := fun i => if i = 3 then 128 else 0 }

/-- A decoder that knows the one image `glass.png`. -/
def sampleImages : Images where
  getImageFrameFromPath := fun path => if path = "glass.png" then some sampleHalfAlpha else none
  glGenTextures := fun n => n + 1
  cubeFaceSize := fun _ _ => none
  CONCAT_RESOURCE_PATH := fun dir file => dir ++ file
  load_mipmap_chain_default := false

/-- The renderer after `LoadTexture("glass.png", nullptr, true)` on a fresh
renderer with `sampleImages`. -/
def rendererAfterGlass : Renderer :=
  { Renderer.new with
    m_texture_cache := [("glass.png", { texture := 0, translucent := false })]
    textures := [{ m_gl_texture := 1, m_width := 1, m_height := 1, m_type := .TEXTURE_2D }] }

/-- A sample sequence of renderer calls that destroys a mesh holding another
texture. -/
def sampleRendererOps : List RendererOp :=
  [.loadTexture "glass.png" (some false) true, .loadTexture "wood.png" none false,
   .loadProgram "a.vert" "a.frag" "", .addMesh (some 1), .removeMesh (some 1),
   .destroyMesh ["wood.png"]]

/-! ## The material system -/

/-- A stored parameter: an object of class `FloatMaterialParam`,
`Matrix4fMaterialParam` or `TextureMaterialParam` with its payload; a null
`Texture*` is `none`. -/
inductive MaterialParam (M S : Type) where
  | float (m_value : S)
  | matrix (m_matrix : M)
  | texture (m_texture : Option Nat)
  deriving DecidableEq, Repr

/-- Whether two parameters are objects of the same class. -/
def MaterialParam.sameKind {M S : Type} : MaterialParam M S → MaterialParam M S → Bool
  | .float _, .float _ => true
  | .matrix _, .matrix _ => true
  | .texture _, .texture _ => true
  | _, _ => false

/-- Whether a parameter is a texture parameter with a non-null texture. -/
def MaterialParam.isBound {M S : Type} : MaterialParam M S → Bool
  | .texture (some _) => true
  | _ => false

/-- The insertion `map[key] = value` into a `std::map` that does not hold the
key, the map being listed in key order; `std::string` keys are ordered
character by character. -/
def mapInsert {α : Type} : List (String × α) → String → α → List (String × α)
  | [], key, value => [(key, value)]
  | (k, v) :: rest, key, value =>
    if key.toList < k.toList then (key, value) :: (k, v) :: rest
    else (k, v) :: mapInsert rest key value

/-- The assignment through `iter->second` of a `std::map`: the value stored
under the key is replaced in place. -/
def mapReplace {α : Type} : List (String × α) → String → α → List (String × α)
  | [], _, _ => []
  | (k, v) :: rest, key, value =>
    if k = key then (k, value) :: mapReplace rest key value
    else (k, v) :: mapReplace rest key value

/-- The map without the entries of a key. -/
def mapErase {α : Type} (map : List (String × α)) (key : String) : List (String × α) :=
  map.filter (fun e => e.1 != key)

/-- The data members of `Material`; the shared `Program` is held by value,
`none` being a null `m_program`. -/
structure Material (M S : Type) where
  m_program : Option Program
  m_params : List (String × MaterialParam M S)
  m_translucent : Bool
  m_idle_texture_unit : Nat
  deriving DecidableEq, Repr

/-- The common body of the three `Set...Param` functions: `find`, then either
the assignment through the `static_cast` of the stored object, which is
defined only for an object of the class cast to, or the insertion of a new
object. -/
def Material.setParam {M S : Type} (self : Material M S) (name : String)
    (value : MaterialParam M S) : Except Fault (Material M S) :=
  match self.m_params.lookup name with
  | some stored =>
    if stored.sameKind value then
      .ok { self with m_params := mapReplace self.m_params name value }
    else .error .badCast
  | none => .ok { self with m_params := mapInsert self.m_params name value }

/-- `Material::SetFloatParam`. -/
def Material.SetFloatParam {M S : Type} (self : Material M S) (name : String) (value : S) :
    Except Fault (Material M S) :=
  self.setParam name (.float value)

/-- `Material::SetMatrix4fParam`. -/
def Material.SetMatrix4fParam {M S : Type} (self : Material M S) (name : String)
    (matrix : M) : Except Fault (Material M S) :=
  self.setParam name (.matrix matrix)

/-- `Material::SetTextureParam`. -/
def Material.SetTextureParam {M S : Type} (self : Material M S) (name : String)
    (texture : Option Nat) : Except Fault (Material M S) :=
  self.setParam name (.texture texture)

/-- `Material::SetTranslucent`. -/
def Material.SetTranslucent {M S : Type} (self : Material M S) (translucent : Bool) :
    Material M S :=
  { self with m_translucent := translucent }

/-- `Program::GetUniformLocation`. -/
def Program.GetUniformLocation (self : Program) (uniform_name : String) : Int :=
  match self.m_uniforms.lookup uniform_name with
  | some u => u.location
  | none => -1

/-- The object behind a `Texture*`. -/
def Renderer.texture (r : Renderer) (ptr : Nat) : Except Fault Texture :=
  if ptr ∈ r.released then .error .danglingTexture
  else
    match r.textures[ptr]? with
    | some t => .ok t
    | none => .error .danglingTexture

/-- `Renderer::LoadCubeTexture`.  The reads of the face images and of the
mipmap chain are summed up in `cubeFaceSize`. -/
def Renderer.LoadCubeTexture (images : Images) (r : Renderer) (cube_texture_file : String)
    (load_mipmap_chain : Bool) : Except Fault (Option Nat × Renderer) :=
  match r.m_texture_cache.lookup cube_texture_file with
  | some ti => .ok (some ti.texture, r)
  | none =>
    match images.cubeFaceSize cube_texture_file load_mipmap_chain with
    | none => .error .nullImage
    | some face_size =>
      .ok (some r.textures.length,
        { r with
          textures := r.textures ++
            [{ m_gl_texture := images.glGenTextures r.textures.length
               m_width := face_size
               m_height := face_size
               m_type := .TEXTURE_CUBE }]
          m_texture_cache := mapSet r.m_texture_cache cube_texture_file
            { texture := r.textures.length, translucent := false } })

/-- `Renderer::GetDiffuseEnvTexture`. -/
def Renderer.GetDiffuseEnvTexture (images : Images) (r : Renderer) : Option Nat × Renderer :=
  match r.m_diffuse_env_texture with
  | some t => (some t, r)
  | none =>
    let loaded := r.LoadTexture images
      (images.CONCAT_RESOURCE_PATH r.m_resource_dir "/textures/diffuse.png") none false
    (loaded.1, { loaded.2.2 with m_diffuse_env_texture := loaded.1 })

/-- `Renderer::GetSpecularEnvTexture`. -/
def Renderer.GetSpecularEnvTexture (images : Images) (r : Renderer) : Option Nat × Renderer :=
  match r.m_specular_env_texture with
  | some t => (some t, r)
  | none =>
    let loaded := r.LoadTexture images
      (images.CONCAT_RESOURCE_PATH r.m_resource_dir "/textures/environment.png") none true
    (loaded.1, { loaded.2.2 with m_specular_env_texture := loaded.1 })

/-- `Renderer::GetIblBrdfLutTexture`. -/
def Renderer.GetIblBrdfLutTexture (images : Images) (r : Renderer) : Option Nat × Renderer :=
  match r.m_ibl_brdf_lut_texture with
  | some t => (some t, r)
  | none =>
    let loaded := r.LoadTexture images
      (images.CONCAT_RESOURCE_PATH r.m_resource_dir "/textures/brdfLUT.png") none false
    (loaded.1, { loaded.2.2 with m_ibl_brdf_lut_texture := loaded.1 })

/-- `Renderer::GetIblDiffuseEnvTexture`. -/
def Renderer.GetIblDiffuseEnvTexture (images : Images) (r : Renderer) :
    Except Fault (Option Nat × Renderer) :=
  match r.m_ibl_diffuse_env_texture with
  | some t => .ok (some t, r)
  | none =>
    match r.LoadCubeTexture images
        (images.CONCAT_RESOURCE_PATH r.m_resource_dir "/textures/papermill/diffuse/diffuse")
        images.load_mipmap_chain_default with
    | .error e => .error e
    | .ok (t, r1) => .ok (t, { r1 with m_ibl_diffuse_env_texture := t })

/-- `Renderer::GetIblSpecularEnvTexture`. -/
def Renderer.GetIblSpecularEnvTexture (images : Images) (r : Renderer) :
    Except Fault (Option Nat × Renderer) :=
  match r.m_ibl_specular_env_texture with
  | some t => .ok (some t, r)
  | none =>
    match r.LoadCubeTexture images
        (images.CONCAT_RESOURCE_PATH r.m_resource_dir "/textures/papermill/specular/specular")
        true with
    | .error e => .error e
    | .ok (t, r1) => .ok (t, { r1 with m_ibl_specular_env_texture := t })

/-- What a material reaches through `m_submesh`: the owning mesh, and through
it the renderer and its camera. -/
structure Scene (M V Q : Type) where
  mesh : Mesh M V Q
  camera : Camera M V Q
  renderer : Renderer

/-- The value that the branch of `UpdateBuiltinUniforms` for the name
`builtin_uniform` computes, with the scene after the getters it calls; `none`
when no branch tests for the name. -/
def builtinValue {M V Q S : Type} (alg : Linear M V Q S) (images : Images)
    (sc : Scene M V Q) (builtin_uniform : String) :
    Except Fault (Option (MaterialParam M S) × Scene M V Q) :=
  if builtin_uniform = "matWorld" then
    .ok (some (.matrix (sc.mesh.GetTransform alg).1),
      { sc with mesh := (sc.mesh.GetTransform alg).2 })
  else if builtin_uniform = "matView" then
    .ok (some (.matrix (sc.camera.GetViewMatrix alg).1),
      { sc with camera := (sc.camera.GetViewMatrix alg).2 })
  else if builtin_uniform = "matProjection" then
    .ok (some (.matrix sc.camera.GetProjectionMatrix), sc)
  else if builtin_uniform = "matWorldView" then
    .ok (some (.matrix (alg.mul (sc.camera.GetViewMatrix alg).1 (sc.mesh.GetTransform alg).1)),
      { sc with
        mesh := (sc.mesh.GetTransform alg).2
        camera := (sc.camera.GetViewMatrix alg).2 })
  else if builtin_uniform = "matViewProjection" then
    .ok (some (.matrix (sc.camera.GetViewProjectionMatrix alg).1),
      { sc with camera := (sc.camera.GetViewProjectionMatrix alg).2 })
  else if builtin_uniform = "matWVP" then
    .ok (some (.matrix
        (alg.mul (sc.camera.GetViewProjectionMatrix alg).1 (sc.mesh.GetTransform alg).1)),
      { sc with
        mesh := (sc.mesh.GetTransform alg).2
        camera := (sc.camera.GetViewProjectionMatrix alg).2 })
  else if builtin_uniform = "diffuseEnvMap" then
    .ok (some (.texture (sc.renderer.GetDiffuseEnvTexture images).1),
      { sc with renderer := (sc.renderer.GetDiffuseEnvTexture images).2 })
  else if builtin_uniform = "specularEnvMap" then
    .ok (some (.texture (sc.renderer.GetSpecularEnvTexture images).1),
      { sc with renderer := (sc.renderer.GetSpecularEnvTexture images).2 })
  else if builtin_uniform = "iblBrdfLutMap" then
    .ok (some (.texture (sc.renderer.GetIblBrdfLutTexture images).1),
      { sc with renderer := (sc.renderer.GetIblBrdfLutTexture images).2 })
  else if builtin_uniform = "iblDiffuseEnvMap" then
    match sc.renderer.GetIblDiffuseEnvTexture images with
    | .error e => .error e
    | .ok (t, r) => .ok (some (.texture t), { sc with renderer := r })
  else if builtin_uniform = "iblSpecularEnvMap" then
    match sc.renderer.GetIblSpecularEnvTexture images with
    | .error e => .error e
    | .ok (t, r) => .ok (some (.texture t), { sc with renderer := r })
  else .ok (none, sc)

/-- One round of the loop of `UpdateBuiltinUniforms`: the value of the branch
is stored by `SetMatrix4fParam` or `SetTextureParam`. -/
def updateBuiltin {M V Q S : Type} (alg : Linear M V Q S) (images : Images)
    (state : Scene M V Q × Material M S) (builtin_uniform : String) :
    Except Fault (Scene M V Q × Material M S) :=
  match builtinValue alg images state.1 builtin_uniform with
  | .error e => .error e
  | .ok (none, sc) => .ok (sc, state.2)
  | .ok (some value, sc) =>
    match state.2.setParam builtin_uniform value with
    | .error e => .error e
    | .ok material => .ok (sc, material)

/-- The loop of `Material::UpdateBuiltinUniforms` over the builtin names of
the program. -/
def UpdateBuiltinUniforms {M V Q S : Type} (alg : Linear M V Q S) (images : Images) :
    List String → Scene M V Q × Material M S → Except Fault (Scene M V Q × Material M S)
  | [], state => .ok state
  | name :: rest, state =>
    match updateBuiltin alg images state name with
    | .error e => .error e
    | .ok next => UpdateBuiltinUniforms alg images rest next

/-- A call of the graphics interface made while a material is applied. -/
inductive GLCall (M S : Type) where
  | glUseProgram (program : Nat)
  | glUniform1f (location : Int) (value : S)
  | glUniformMatrix4fv (location : Int) (matrix : M)
  | glActiveTexture (unit : Nat)
  | glBindTexture (type : TextureType) (texture : Nat)
  | glUniform1i (location : Int) (value : Nat)
  deriving DecidableEq, Repr

/-- The `Apply` of one stored parameter, with the texture unit counter of the
material before and after. -/
def applyParam {M S : Type} (program : Program) (r : Renderer) (unit : Nat) (name : String) :
    MaterialParam M S → Except Fault (Nat × List (GLCall M S))
  | .float value => .ok (unit, [.glUniform1f (program.GetUniformLocation name) value])
  | .matrix matrix => .ok (unit, [.glUniformMatrix4fv (program.GetUniformLocation name) matrix])
  | .texture none => .ok (unit, [])
  | .texture (some t) =>
    match r.texture t with
    | .error e => .error e
    | .ok tex =>
      .ok (unit + 1,
        [.glActiveTexture unit, .glBindTexture tex.m_type tex.m_gl_texture,
         .glUniform1i (program.GetUniformLocation name) unit])

/-- The loop of `Material::Apply` over `m_params`. -/
def applyParams {M S : Type} (program : Program) (r : Renderer) :
    List (String × MaterialParam M S) → Nat → Except Fault (Nat × List (GLCall M S))
  | [], unit => .ok (unit, [])
  | (name, param) :: rest, unit =>
    match applyParam program r unit name param with
    | .error e => .error e
    | .ok (unit1, calls1) =>
      match applyParams program r rest unit1 with
      | .error e => .error e
      | .ok (unit2, calls2) => .ok (unit2, calls1 ++ calls2)

/-- `Material::Apply`: the scene and the material afterwards, and the calls
made on the graphics interface. -/
def Material.Apply {M V Q S : Type} (alg : Linear M V Q S) (images : Images)
    (sc : Scene M V Q) (self : Material M S) :
    Except Fault (Scene M V Q × Material M S × List (GLCall M S)) :=
  match self.m_program with
  | none => .error .nullProgram
  | some program =>
    match UpdateBuiltinUniforms alg images program.m_builtin_uniforms
        (sc, { self with m_idle_texture_unit := 0 }) with
    | .error e => .error e
    | .ok (sc1, updated) =>
      match applyParams program sc1.renderer updated.m_params updated.m_idle_texture_unit with
      | .error e => .error e
      | .ok (unit, calls) =>
        .ok (sc1, { updated with m_idle_texture_unit := unit },
          .glUseProgram program.m_gl_program :: calls)

/-- The names of the stored texture parameters with a non-null texture, in
the order of the parameter map. -/
def boundTextures {M S : Type} (params : List (String × MaterialParam M S)) : List String :=
  (params.filter (fun e => e.2.isBound)).map (fun e => e.1)

/-- The texture units that the calls select, in order. -/
def activeUnits {M S : Type} : List (GLCall M S) → List Nat
  | [] => []
  | .glActiveTexture unit :: rest => unit :: activeUnits rest
  | _ :: rest => activeUnits rest

/-- The sampler uploads of the calls: uniform location and texture unit. -/
def samplerUploads {M S : Type} : List (GLCall M S) → List (Int × Nat)
  | [] => []
  | .glUniform1i location unit :: rest => (location, unit) :: samplerUploads rest
  | _ :: rest => samplerUploads rest

/-- Whether a call has an effect: an upload to the location -1 has none. -/
def GLCall.isEffective {M S : Type} : GLCall M S → Bool
  | .glUniform1f location _ => decide (location ≠ -1)
  | .glUniformMatrix4fv location _ => decide (location ≠ -1)
  | .glUniform1i location _ => decide (location ≠ -1)
  | _ => true

/-- The map is listed in key order, without a repeated key. -/
def KeysSorted {α : Type} (map : List (String × α)) : Prop :=
  map.Pairwise (fun a b => a.1.toList < b.1.toList)

/-- A sample program with two samplers and the builtin `matWorld`. -/
def sampleProgram : Program :=
  { m_gl_program := 7
    m_attribs := []
    m_uniforms :=
      [("baseMap", { name := "baseMap", location := 1, size := 1, type := 0 }),
       ("matWorld", { name := "matWorld", location := 0, size := 1, type := 0 }),
       ("rmaMap", { name := "rmaMap", location := 2, size := 1, type := 0 })]
    m_builtin_uniforms := ["matWorld"] }

/-- A renderer that holds two live textures. -/
def rendererTwoTextures : Renderer :=
  { Renderer.new with
    textures :=
      [{ m_gl_texture := 1, m_width := 1, m_height := 1, m_type := .TEXTURE_2D },
       { m_gl_texture := 2, m_width := 1, m_height := 1, m_type := .TEXTURE_2D }] }

/-- A sample scene: the sample mesh and camera, and two textures. -/
def sampleScene : Scene Int Int Int :=
  { mesh := sampleMesh, camera := sampleCamera, renderer := rendererTwoTextures }

/-- A sample material with two textures, whose unit counter holds a stale
value. -/
def sampleMaterial : Material Int Int :=
  { m_program := some sampleProgram
    m_params := [("baseMap", .texture (some 0)), ("rmaMap", .texture (some 1))]
    m_translucent := false
    m_idle_texture_unit := 5 }

/-- The scene after the sample material is applied: the transform of the mesh
has been computed. -/
def sampleSceneApplied : Scene Int Int Int :=
  { sampleScene with
    mesh := { sampleMesh with m_transform := 1, m_transform_dirty := false,
                              recomputations := 1 } }

/-- The sample material after `Apply`. -/
def sampleMaterialApplied : Material Int Int :=
  { sampleMaterial with
    m_params :=
      [("baseMap", .texture (some 0)), ("matWorld", .matrix 1), ("rmaMap", .texture (some 1))]
    m_idle_texture_unit := 2 }

/-- The calls that `Apply` on the sample material makes. -/
def sampleCalls : List (GLCall Int Int) :=
  [.glUseProgram 7,
   .glActiveTexture 0, .glBindTexture .TEXTURE_2D 1, .glUniform1i 1 0,
   .glUniformMatrix4fv 0 1,
   .glActiveTexture 1, .glBindTexture .TEXTURE_2D 2, .glUniform1i 2 1]

/-- The sample material with one more texture, under a name that is not a
uniform of the program. -/
def sampleMaterialStray : Material Int Int :=
  { sampleMaterial with
    m_params :=
      [("baseMap", .texture (some 0)), ("ghostMap", .texture (some 1)),
       ("rmaMap", .texture (some 1))] }

/-- The sample material with a float under a name that is not a uniform of
the program. -/
def sampleMaterialGhost : Material Int Int :=
  { sampleMaterial with
    m_params :=
      [("baseMap", .texture (some 0)), ("ghost", .float 3), ("rmaMap", .texture (some 1))] }

/-- The material without the parameter stored under a name. -/
def Material.without {M S : Type} (self : Material M S) (name : String) : Material M S :=
  { self with m_params := mapErase self.m_params name }

/-- The value that a builtin name is to hold after an `Apply`, in the words of
the specification: the matrices as the mesh and the camera of the scene
before the `Apply` report them, the environment textures as the renderer
holds them after it; `none` for a name outside the registry. -/
def builtinSpec {M V Q S : Type} (alg : Linear M V Q S) (before after : Scene M V Q)
    (name : String) : Option (MaterialParam M S) :=
  if name = "matWorld" then some (.matrix (before.mesh.GetTransform alg).1)
  else if name = "matView" then some (.matrix (before.camera.GetViewMatrix alg).1)
  else if name = "matProjection" then some (.matrix before.camera.m_projection_matrix)
  else if name = "matWorldView" then
    some (.matrix
      (alg.mul (before.camera.GetViewMatrix alg).1 (before.mesh.GetTransform alg).1))
  else if name = "matViewProjection" then
    some (.matrix (before.camera.GetViewProjectionMatrix alg).1)
  else if name = "matWVP" then
    some (.matrix
      (alg.mul (before.camera.GetViewProjectionMatrix alg).1 (before.mesh.GetTransform alg).1))
  else if name = "diffuseEnvMap" then some (.texture after.renderer.m_diffuse_env_texture)
  else if name = "specularEnvMap" then some (.texture after.renderer.m_specular_env_texture)
  else if name = "iblBrdfLutMap" then some (.texture after.renderer.m_ibl_brdf_lut_texture)
  else if name = "iblDiffuseEnvMap" then
    some (.texture after.renderer.m_ibl_diffuse_env_texture)
  else if name = "iblSpecularEnvMap" then
    some (.texture after.renderer.m_ibl_specular_env_texture)
  else none

/-- The calls hold the upload of a parameter under a name: the uniform call
of a float or a matrix, and for a non-null texture the selection of a unit,
the binding of the texture object and the upload of the unit, in a row. -/
def Uploaded {M S : Type} (program : Program) (r : Renderer) (calls : List (GLCall M S))
    (name : String) : MaterialParam M S → Prop
  | .float value => GLCall.glUniform1f (program.GetUniformLocation name) value ∈ calls
  | .matrix matrix => GLCall.glUniformMatrix4fv (program.GetUniformLocation name) matrix ∈ calls
  | .texture none => True
  | .texture (some t) =>
    ∃ tex unit before after, r.texture t = .ok tex ∧
      calls = before ++
        [.glActiveTexture unit, .glBindTexture tex.m_type tex.m_gl_texture,
         .glUniform1i (program.GetUniformLocation name) unit] ++ after

/-- Two scenes report the same world, view, projection and view-projection
matrices. -/
def SameMatrices {M V Q S : Type} (alg : Linear M V Q S) (a b : Scene M V Q) : Prop :=
  (b.mesh.GetTransform alg).1 = (a.mesh.GetTransform alg).1 ∧
    (b.camera.GetViewMatrix alg).1 = (a.camera.GetViewMatrix alg).1 ∧
    b.camera.m_projection_matrix = a.camera.m_projection_matrix ∧
    (b.camera.GetViewProjectionMatrix alg).1 = (a.camera.GetViewProjectionMatrix alg).1

/-- The environment texture members of two renderers agree, apart from those
of the builtin names marked as changed. -/
def EnvFrame (changed : String → Prop) (a b : Renderer) : Prop :=
  (¬ changed "diffuseEnvMap" → b.m_diffuse_env_texture = a.m_diffuse_env_texture) ∧
    (¬ changed "specularEnvMap" → b.m_specular_env_texture = a.m_specular_env_texture) ∧
    (¬ changed "iblBrdfLutMap" → b.m_ibl_brdf_lut_texture = a.m_ibl_brdf_lut_texture) ∧
    (¬ changed "iblDiffuseEnvMap" →
      b.m_ibl_diffuse_env_texture = a.m_ibl_diffuse_env_texture) ∧
    (¬ changed "iblSpecularEnvMap" →
      b.m_ibl_specular_env_texture = a.m_ibl_specular_env_texture)

/-- A driver on which every shader compiles and links to the program 7, with
the three active uniforms of the sample program. -/
def sampleDriver : Driver where
  ReadTextFile := fun _ => ""
  glCreateProgram := fun _ => 7
  compilesVertex := fun _ _ => true
  compilesFragment := fun _ _ => true
  linkStatus := fun _ _ _ => true
  activeAttribs := fun _ _ _ => []
  activeUniforms := fun _ _ _ =>
    [{ name := "rmaMap", location := 2, size := 1, type := 0 },
     { name := "matWorld", location := 0, size := 1, type := 0 },
     { name := "baseMap", location := 1, size := 1, type := 0 }]

/-- What a change of the projection alone leaves in place: the view-projection
flag is set in `after`, and every member but the projection matrix and that
flag is as in `before`. -/
def Camera.ProjectionOnly {M V Q : Type} (before after : Camera M V Q) : Prop :=
  after.m_view_projection_matrix_dirty = true ∧
    after.m_view_matrix_dirty = before.m_view_matrix_dirty ∧
    after.m_view_matrix = before.m_view_matrix ∧
    after.m_position = before.m_position ∧
    after.m_rotation = before.m_rotation ∧
    after.m_flip_y = before.m_flip_y ∧
    after.m_view_projection_matrix = before.m_view_projection_matrix ∧
    after.viewRecomputations = before.viewRecomputations ∧
    after.viewProjectionRecomputations = before.viewProjectionRecomputations

/-- The renderer after `LoadProgram` of ("ab", "c", "") on a fresh renderer
with `driverAccepting`. -/
def rendererAfterCollidingLoad : Renderer :=
  { m_program_cache := [("abc", 0)],
    programs := [{ m_gl_program := 1, m_attribs := [], m_uniforms := [],
                   m_builtin_uniforms := [] }],
    compiles := 1 }

/-- A renderer whose render list holds the meshes 4, 2 and 7, in the order of
their registration. -/
def rendererThreeMeshes : Renderer := { Renderer.new with m_mesh_list := [4, 2, 7] }

/-- A mesh text with texture coordinates and no normals; every index of its
face lies within the coordinates declared before it. -/
def sampleNoNormals : List Char :=
  "v 0 0 0\nv 1 0 0\nv 0 1 0\nvt 0 0\nf 1/1 2/1 3/1\n".toList

/-- The face record of `sampleNoNormals` as `Parse` reads it: the normal
indices are not assigned. -/
def sampleNoNormalsFace : ObjTri :=
  { v0 := some 1, t0 := some 1, n0 := none, v1 := some 2, t1 := some 1, n1 := none,
    v2 := some 3, t2 := some 1, n2 := none }

/-- The text with every `'\n'` replaced by `"\r\n"`. -/
def crlf (text : List Char) : List Char :=
  text.flatMap (fun c => if c = '\n' then ['\r', '\n'] else [c])

/-- A material boundary line that carries no name, followed by another line. -/
def sampleBareUsemtl : List Char := "usemtl\nA\n".toList

/-- The submesh that `GenerateSubMesh` builds from no face. -/
def emptySubMesh (F : Type) : SubMesh F :=
  { m_vertex_count := 0, m_positions := some [], m_texcoords := none, m_normals := none,
    m_ori_positions := [], m_ori_triangles := [] }

/-! ## Drawing -/

/-- A `SubMesh` with the member that the parser leaves null: `m_material`. -/
structure SubMeshObject (F M S : Type) extends SubMesh F where
  m_material : Option (Material M S)

/-- A `Mesh`: the transform members, the submeshes and the paths of the
associated textures. -/
structure MeshObject (F M V Q S : Type) extends Mesh M V Q where
  m_submeshes : List (SubMeshObject F M S)
  m_associated_textures : List String

/-- The renderer with its camera and the `Mesh` objects created so far; a
`Mesh*` is the index of the object in `meshes`. -/
structure World (F M V Q S : Type) where
  renderer : Renderer
  camera : Camera M V Q
  meshes : List (MeshObject F M V Q S)

/-- The capabilities that the render pass switches. -/
inductive Capability where
  | GL_DEPTH_TEST
  | GL_BLEND
  deriving DecidableEq, Repr

/-- Depth comparison functions. -/
inductive DepthFunc where
  | GL_LESS
  | GL_LEQUAL
  | GL_ALWAYS
  deriving DecidableEq, Repr

/-- Blend factors. -/
inductive BlendFactor where
  | GL_ZERO
  | GL_ONE
  | GL_SRC_ALPHA
  | GL_ONE_MINUS_SRC_ALPHA
  deriving DecidableEq, Repr

/-- A call of the graphics interface made while the meshes are rendered.  The
draw call carries the mesh and the number of the submesh that issued it. -/
inductive FrameCall (M S : Type) where
  | glEnable (cap : Capability)
  | glDisable (cap : Capability)
  | glDepthFunc (func : DepthFunc)
  | glDepthMask (flag : Bool)
  | glBlendFunc (sfactor dfactor : BlendFactor)
  /-- a call made by `Material::Apply` -/
  | material (call : GLCall M S)
  /-- `glDrawArrays(GL_TRIANGLES, 0, count)` -/
  | glDrawArrays (mesh submesh count : Nat)
  deriving DecidableEq, Repr

/-- The depth and blend state of the graphics backend. -/
structure GLState where
  depthTest : Bool
  depthFunc : DepthFunc
  depthMask : Bool
  blend : Bool
  blendFunc : BlendFactor × BlendFactor
  deriving DecidableEq, Repr

/-- The state of the backend after one call. -/
def GLState.after {M S : Type} (s : GLState) : FrameCall M S → GLState
  | .glEnable .GL_DEPTH_TEST => { s with depthTest := true }
  | .glEnable .GL_BLEND => { s with blend := true }
  | .glDisable .GL_DEPTH_TEST => { s with depthTest := false }
  | .glDisable .GL_BLEND => { s with blend := false }
  | .glDepthFunc func => { s with depthFunc := func }
  | .glDepthMask flag => { s with depthMask := flag }
  | .glBlendFunc sfactor dfactor => { s with blendFunc := (sfactor, dfactor) }
  | .material _ => s
  | .glDrawArrays _ _ _ => s

/-- The draws of a sequence of calls, in order: mesh, submesh number, and the
state of the backend in which the draw is issued. -/
def drawStates {M S : Type} (s : GLState) : List (FrameCall M S) → List ((Nat × Nat) × GLState)
  | [] => []
  | .glDrawArrays mesh submesh _ :: rest => ((mesh, submesh), s) :: drawStates s rest
  | call :: rest => drawStates (s.after call) rest

/-- The draws of a sequence of calls, in order: mesh and submesh number. -/
def draws {M S : Type} : List (FrameCall M S) → List (Nat × Nat)
  | [] => []
  | .glDrawArrays mesh submesh _ :: rest => (mesh, submesh) :: draws rest
  | _ :: rest => draws rest

/-- `SubMesh::Render` for the submesh number `submesh` of the mesh `mesh`.
The log keeps the calls of `Material::Apply` and the draw; the calls between
them and after the draw, which create, bind and unbind the vertex array and
its buffers, are not logged. -/
def SubMeshObject.Render {F M V Q S : Type} (alg : Linear M V Q S) (images : Images)
    (mesh submesh : Nat) (sc : Scene M V Q) (self : SubMeshObject F M S) :
    Except Fault (Scene M V Q × SubMeshObject F M S × List (FrameCall M S)) :=
  match self.m_material with
  | none => .ok (sc, self, [])
  | some material =>
    match material.Apply alg images sc with
    | .error e => .error e
    | .ok (sc1, applied, calls) =>
      .ok (sc1, { self with m_material := some applied },
        calls.map FrameCall.material ++ [.glDrawArrays mesh submesh self.m_vertex_count])

/-- The loop of `Mesh::RenderOpaqueSubMeshes` (`translucent = false`) and of
`Mesh::RenderTranslucentSubMeshes` (`translucent = true`) from the submesh
number `submesh` on. -/
def renderSubMeshes {F M V Q S : Type} (alg : Linear M V Q S) (images : Images)
    (translucent : Bool) (mesh : Nat) :
    Nat → List (SubMeshObject F M S) → Scene M V Q →
      Except Fault (Scene M V Q × List (SubMeshObject F M S) × List (FrameCall M S))
  | _, [], sc => .ok (sc, [], [])
  | submesh, sm :: rest, sc =>
    match sm.m_material with
    | none =>
      match renderSubMeshes alg images translucent mesh (submesh + 1) rest sc with
      | .error e => .error e
      | .ok (sc2, rest2, calls2) => .ok (sc2, sm :: rest2, calls2)
    | some material =>
      if material.m_translucent = translucent then
        match sm.Render alg images mesh submesh sc with
        | .error e => .error e
        | .ok (sc1, sm1, calls1) =>
          match renderSubMeshes alg images translucent mesh (submesh + 1) rest sc1 with
          | .error e => .error e
          | .ok (sc2, rest2, calls2) => .ok (sc2, sm1 :: rest2, calls1 ++ calls2)
      else
        match renderSubMeshes alg images translucent mesh (submesh + 1) rest sc with
        | .error e => .error e
        | .ok (sc2, rest2, calls2) => .ok (sc2, sm :: rest2, calls2)

/-- `mesh->RenderOpaqueSubMeshes()` or `mesh->RenderTranslucentSubMeshes()`
for the pointer `mesh`, with the world afterwards. -/
def World.renderMesh {F M V Q S : Type} (alg : Linear M V Q S) (images : Images)
    (translucent : Bool) (w : World F M V Q S) (mesh : Nat) :
    Except Fault (World F M V Q S × List (FrameCall M S)) :=
  match w.meshes[mesh]? with
  | none => .error .danglingMesh
  | some object =>
    match renderSubMeshes alg images translucent mesh 0 object.m_submeshes
        { mesh := object.toMesh, camera := w.camera, renderer := w.renderer } with
    | .error e => .error e
    | .ok (sc, submeshes, calls) =>
      .ok ({ renderer := sc.renderer
             camera := sc.camera
             meshes := w.meshes.set mesh
               { object with toMesh := sc.mesh, m_submeshes := submeshes } },
        calls)

/-- One of the two loops of `Renderer::RenderMeshes` over `m_mesh_list`. -/
def World.renderList {F M V Q S : Type} (alg : Linear M V Q S) (images : Images)
    (translucent : Bool) :
    List Nat → World F M V Q S → Except Fault (World F M V Q S × List (FrameCall M S))
  | [], w => .ok (w, [])
  | mesh :: rest, w =>
    match w.renderMesh alg images translucent mesh with
    | .error e => .error e
    | .ok (w1, calls1) =>
      match World.renderList alg images translucent rest w1 with
      | .error e => .error e
      | .ok (w2, calls2) => .ok (w2, calls1 ++ calls2)

/-- `Renderer::RenderMeshes`. -/
def World.RenderMeshes {F M V Q S : Type} (alg : Linear M V Q S) (images : Images)
    (w : World F M V Q S) : Except Fault (World F M V Q S × List (FrameCall M S)) :=
  match World.renderList alg images false w.renderer.m_mesh_list w with
  | .error e => .error e
  | .ok (w1, opaque_calls) =>
    match World.renderList alg images true w1.renderer.m_mesh_list w1 with
    | .error e => .error e
    | .ok (w2, translucent_calls) =>
      .ok (w2,
        [.glEnable .GL_DEPTH_TEST, .glDepthFunc .GL_LESS, .glDisable .GL_BLEND] ++
          opaque_calls ++
          [.glDepthMask false, .glEnable .GL_BLEND,
           .glBlendFunc .GL_ONE .GL_ONE_MINUS_SRC_ALPHA] ++
          translucent_calls)

/-- The calls of `Renderer::EndRender` on the depth and blend state. -/
def endRenderCalls (M S : Type) : List (FrameCall M S) :=
  [.glEnable .GL_DEPTH_TEST, .glDepthMask true, .glDisable .GL_BLEND]

/-- The state after a sequence of calls. -/
def GLState.run {M S : Type} (s : GLState) (calls : List (FrameCall M S)) : GLState :=
  calls.foldl GLState.after s

/-- For each submesh of a mesh: whether it has a material, and whether that
material is translucent. -/
def MeshObject.flags {F M V Q S : Type} (object : MeshObject F M V Q S) :
    List (Option Bool) :=
  object.m_submeshes.map (fun sm => sm.m_material.map (fun material => material.m_translucent))

/-- The submeshes that a pass over one mesh is to draw, from the submesh
number `submesh` on: those with a material of the translucency of the pass. -/
def passDraws (translucent : Bool) (mesh : Nat) : Nat → List (Option Bool) → List (Nat × Nat)
  | _, [] => []
  | submesh, flag :: rest =>
    if flag = some translucent then
      (mesh, submesh) :: passDraws translucent mesh (submesh + 1) rest
    else passDraws translucent mesh (submesh + 1) rest

/-- The draws that one pass over the render list is to make, in the order of
registration and then of the submeshes. -/
def World.passDraws {F M V Q S : Type} (translucent : Bool) (w : World F M V Q S) :
    List (Nat × Nat) :=
  w.renderer.m_mesh_list.flatMap (fun mesh =>
    match w.meshes[mesh]? with
    | none => []
    | some object => render3d.passDraws translucent mesh 0 object.flags)

/-- The state in which the opaque pass draws, for the state `s` at the call
of `RenderMeshes`. -/
def GLState.opaquePass (s : GLState) : GLState :=
  { s with depthTest := true, depthFunc := .GL_LESS, blend := false }

/-- The state in which the translucent pass draws. -/
def GLState.translucentPass (s : GLState) : GLState :=
  { s.opaquePass with
    depthMask := false, blend := true, blendFunc := (.GL_ONE, .GL_ONE_MINUS_SRC_ALPHA) }

/-- The draws that one pass over a render list is to make, given the flags of
the submeshes of every mesh. -/
def listDraws (translucent : Bool) (flags : List (List (Option Bool))) (list : List Nat) :
    List (Nat × Nat) :=
  list.flatMap (fun mesh =>
    match flags[mesh]? with
    | none => []
    | some submeshes => passDraws translucent mesh 0 submeshes)

/-- The flags of the submeshes of every mesh of the world. -/
def World.flags {F M V Q S : Type} (w : World F M V Q S) : List (List (Option Bool)) :=
  w.meshes.map MeshObject.flags

/-- The state of a fresh graphics context. -/
def GLState.initial : GLState :=
  { depthTest := false, depthFunc := .GL_LESS, depthMask := true, blend := false,
    blendFunc := (.GL_ONE, .GL_ZERO) }

/-- The geometry of one triangle. -/
def sampleGeometry : SubMesh Int :=
  { m_vertex_count := 3
    m_positions := some [vec3 0 0 0, vec3 1 0 0, vec3 0 1 0]
    m_texcoords := some [vec2 0 0, vec2 0 0, vec2 0 0]
    m_normals := some [vec3 0 0 1, vec3 0 0 1, vec3 0 0 1]
    m_ori_positions := []
    m_ori_triangles := [] }

/-- A mesh of three submeshes: an opaque one, one without a material, and a
translucent one. -/
def sampleMeshObject : MeshObject Int Int Int Int Int :=
  { toMesh := sampleMesh
    m_submeshes :=
      [{ toSubMesh := sampleGeometry, m_material := some sampleMaterial },
       { toSubMesh := sampleGeometry, m_material := none },
       { toSubMesh := sampleGeometry,
         m_material := some { sampleMaterial with m_translucent := true } }]
    m_associated_textures := [] }

/-- A world with the sample mesh registered. -/
def sampleWorld : World Int Int Int Int Int :=
  { renderer := { rendererTwoTextures with m_mesh_list := [0] }
    camera := sampleCamera
    meshes := [sampleMeshObject] }

/-! ## The mesh factories -/

/-- The object behind a `Program*`; `none` for `nullptr`. -/
def Renderer.program (r : Renderer) (ptr : Option Nat) : Option Program :=
  match ptr with
  | none => none
  | some p => r.programs[p]?

/-- `Material::Material(submesh, program)`: the program and the member
initialisers. -/
def Material.new {M S : Type} (program : Option Program) : Material M S :=
  { m_program := program, m_params := [], m_translucent := false, m_idle_texture_unit := 0 }

/-- The first statements of every factory: the path without its last four
characters, copied through `char temp[256]`.  The copy is defined when the
path has at least four characters and the terminator fits the array. -/
def stripExtension (mesh_file_path : String) : Except Fault String :=
  if 4 ≤ mesh_file_path.length ∧ mesh_file_path.length - 4 ≤ 255 then
    .ok (String.mk
      ((mesh_file_path.toList.take (mesh_file_path.length - 4)).takeWhile
        (fun c => c != NUL)))
  else .error .pathCopy

/-- The statements under `// load mesh` of every factory: the text is read, a
mesh is created and parsed, and a mesh whose parse failed is deleted; `none`
is `return nullptr`. -/
def loadMesh {F : Type} (driver : Driver) (strtof : List Char → Option (F × List Char))
    (m_export_triangles : Bool) (r : Renderer) (mesh_file_path : String) :
    Except Fault (Option (ParseResult F) × Renderer) :=
  if (driver.ReadTextFile mesh_file_path).length ≤ 0 then .ok (none, r)
  else
    match Parse strtof m_export_triangles [] (driver.ReadTextFile mesh_file_path).toList with
    | .error e => .error e
    | .ok parsed =>
      if parsed.succ then .ok (some parsed, r) else .ok (none, r.destroyMesh [])

/-- The submeshes of a parsed mesh, none of which has a material yet. -/
def bareSubMeshes {F M S : Type} (submeshes : List (SubMesh F)) :
    List (SubMeshObject F M S) :=
  submeshes.map (fun sm => { toSubMesh := sm, m_material := none })

/-- The world with one more mesh, and the pointer to it. -/
def World.addMesh {F M V Q S : Type} (w : World F M V Q S) (r : Renderer)
    (mesh : MeshObject F M V Q S) : Option Nat × World F M V Q S :=
  (some w.meshes.length, { w with renderer := r, meshes := w.meshes ++ [mesh] })

/-- One round of the loop of `CreateScanMesh`, `createUnlitMesh` and
`CreateDepthMesh`, for the material name number `i`. -/
def attachBaseMaterial {F M S : Type} (driver : Driver) (images : Images)
    (base_tex_path vert_file frag_file : String) (i : Nat)
    (state : Renderer × List (SubMeshObject F M S)) :
    Except Fault (Renderer × List (SubMeshObject F M S)) :=
  let base_tex := state.1.LoadTexture images base_tex_path (some false) false
  let program := base_tex.2.2.LoadProgram driver vert_file frag_file ""
  match state.2[i]? with
  | none => .error .outOfRange
  | some submesh =>
    match (Material.new (program.2.program program.1)).SetTextureParam "baseMap"
        base_tex.1 with
    | .error e => .error e
    | .ok material =>
      .ok (program.2,
        state.2.set i
          { submesh with
            m_material := some (material.SetTranslucent (base_tex.2.1.getD false)) })

/-- The loop over `submesh_material_names` of `CreateScanMesh`,
`createUnlitMesh` and `CreateDepthMesh`, from the name number `i` on. -/
def attachBaseMaterials {F M S : Type} (driver : Driver) (images : Images)
    (base_tex_path : String → String) (vert_file frag_file : String) :
    Nat → List String → Renderer × List (SubMeshObject F M S) →
      Except Fault (Renderer × List (SubMeshObject F M S))
  | _, [], state => .ok state
  | i, submesh_material_name :: rest, state =>
    match attachBaseMaterial driver images (base_tex_path submesh_material_name)
        vert_file frag_file i state with
    | .error e => .error e
    | .ok next =>
      attachBaseMaterials driver images base_tex_path vert_file frag_file (i + 1) rest next

/-- What `CreateScanMesh`, `createUnlitMesh` and `CreateDepthMesh` have in
common; they differ in the texture path and in the shader files. -/
def World.createBaseMesh {F M V Q S : Type} (driver : Driver) (images : Images)
    (strtof : List Char → Option (F × List Char)) (created : Mesh M V Q)
    (m_export_triangles : Bool) (base_tex_path : String → String → String)
    (vert_file frag_file : String) (w : World F M V Q S) (mesh_file_path : String) :
    Except Fault (Option Nat × World F M V Q S) :=
  match stripExtension mesh_file_path with
  | .error e => .error e
  | .ok mesh_file_path_without_ext =>
    match loadMesh driver strtof m_export_triangles w.renderer mesh_file_path with
    | .error e => .error e
    | .ok (none, r) => .ok (none, { w with renderer := r })
    | .ok (some parsed, r) =>
      match attachBaseMaterials driver images (base_tex_path mesh_file_path_without_ext)
          (images.CONCAT_RESOURCE_PATH r.m_resource_dir vert_file)
          (images.CONCAT_RESOURCE_PATH r.m_resource_dir frag_file) 0 parsed.names
          (r, bareSubMeshes parsed.m_submeshes) with
      | .error e => .error e
      | .ok (r1, submeshes) =>
        .ok (w.addMesh r1
          { toMesh := created, m_submeshes := submeshes, m_associated_textures := [] })

/-- `Renderer::CreateScanMesh`.  `created` is the mesh as `Mesh::Mesh` leaves
it. -/
def World.CreateScanMesh {F M V Q S : Type} (driver : Driver) (images : Images)
    (strtof : List Char → Option (F × List Char)) (created : Mesh M V Q)
    (w : World F M V Q S) (mesh_file_path : String) (export_triangles : Bool) :
    Except Fault (Option Nat × World F M V Q S) :=
  w.createBaseMesh driver images strtof created export_triangles
    (fun mesh_file_path_without_ext submesh_material_name =>
      mesh_file_path_without_ext ++ "_" ++ submesh_material_name ++ "_" ++ "Base.jpg")
    "/shaders/scan.vert" "/shaders/scan.frag" mesh_file_path

/-- `Renderer::createUnlitMesh`.  `export_triangles` is the default argument of
the parser's constructor. -/
def World.createUnlitMesh {F M V Q S : Type} (driver : Driver) (images : Images)
    (strtof : List Char → Option (F × List Char)) (created : Mesh M V Q)
    (export_triangles : Bool) (w : World F M V Q S) (mesh_file_path : String) :
    Except Fault (Option Nat × World F M V Q S) :=
  w.createBaseMesh driver images strtof created export_triangles
    (fun mesh_file_path_without_ext submesh_material_name =>
      mesh_file_path_without_ext ++ "_" ++ submesh_material_name ++ "_" ++ "Base.png")
    "/shaders/unlit.vert" "/shaders/unlit.frag" mesh_file_path

/-- `Renderer::CreateDepthMesh`. -/
def World.CreateDepthMesh {F M V Q S : Type} (driver : Driver) (images : Images)
    (strtof : List Char → Option (F × List Char)) (created : Mesh M V Q)
    (export_triangles : Bool) (w : World F M V Q S) (mesh_file_path : String) :
    Except Fault (Option Nat × World F M V Q S) :=
  w.createBaseMesh driver images strtof created export_triangles
    (fun _ _ => images.CONCAT_RESOURCE_PATH w.renderer.m_resource_dir "/textures/uv_0.jpg")
    "/shaders/depth_mask.vert" "/shaders/depth_mask.frag" mesh_file_path

/-- The loop of `CreateOccluderMesh` over the submeshes of the mesh. -/
def attachOccluderMaterials {F M S : Type} (driver : Driver) (images : Images) :
    List (SubMesh F) → Renderer → List (SubMeshObject F M S) × Renderer
  | [], r => ([], r)
  | submesh :: rest, r =>
    let program := r.LoadProgram driver
      (images.CONCAT_RESOURCE_PATH r.m_resource_dir "/shaders/occluder.vert")
      (images.CONCAT_RESOURCE_PATH r.m_resource_dir "/shaders/occluder.frag") ""
    let others := attachOccluderMaterials driver images rest program.2
    ({ toSubMesh := submesh, m_material := some (Material.new (program.2.program program.1)) }
        :: others.1,
      others.2)

/-- `Renderer::CreateOccluderMesh`. -/
def World.CreateOccluderMesh {F M V Q S : Type} (driver : Driver) (images : Images)
    (strtof : List Char → Option (F × List Char)) (created : Mesh M V Q)
    (export_triangles : Bool) (w : World F M V Q S) (mesh_file_path : String) :
    Except Fault (Option Nat × World F M V Q S) :=
  match stripExtension mesh_file_path with
  | .error e => .error e
  | .ok _ =>
    match loadMesh driver strtof export_triangles w.renderer mesh_file_path with
    | .error e => .error e
    | .ok (none, r) => .ok (none, { w with renderer := r })
    | .ok (some parsed, r) =>
      let attached := attachOccluderMaterials driver images parsed.m_submeshes
        { r with m_mesh_list := r.m_mesh_list ++ [w.meshes.length] }
      .ok (w.addMesh attached.2
        { toMesh := created, m_submeshes := attached.1, m_associated_textures := [] })

/-- `std::set::emplace` on `m_associated_textures`: a path already held is
not added again. -/
def emplace (paths : List String) (path : String) : List String :=
  if path ∈ paths then paths else paths ++ [path]

/-- `std::string::rfind("/")`: the offset of the last slash. -/
def rfindSlash (s : String) : Option Nat :=
  if '/' ∈ s.toList then some (s.length - 1 - s.toList.reverse.indexOf '/') else none

/-- The statements of `CreatePBRMesh` under `if (mirrorPath)`: the directory of
the mesh, the mirror directory and the file name.  `substr` throws when the
path holds no slash. -/
def mirrorStem (mesh_file_path_without_ext mirrorPath : String) : Except Fault String :=
  match rfindSlash mesh_file_path_without_ext with
  | none => .error .substrRange
  | some div_pos =>
    .ok (String.mk (mesh_file_path_without_ext.toList.take div_pos) ++ "/" ++ mirrorPath ++
      String.mk (mesh_file_path_without_ext.toList.drop div_pos))

/-- One of the four `if (!tex && mirrorPath)` statements of `CreatePBRMesh`:
the texture, the flag and the path after it. -/
def retryTexture (images : Images) (mirrorPath : Bool) (texture : Option Nat)
    (flag : Option Bool) (path fallback : String) (r : Renderer) :
    (Option Nat × Option Bool × Renderer) × String :=
  if texture.isNone && mirrorPath then (r.LoadTexture images fallback flag true, fallback)
  else ((texture, flag, r), path)

/-- The material that `CreatePBRMesh` builds from a program and the four
textures. -/
def pbrMaterial {M S : Type} (program : Option Program)
    (base_tex rma_tex normal_tex emissive_tex : Option Nat) (is_translucent : Bool) :
    Except Fault (Material M S) :=
  match (Material.new program).SetTextureParam "baseMap" base_tex with
  | .error e => .error e
  | .ok m1 =>
    match m1.SetTextureParam "rmaMap" rma_tex with
    | .error e => .error e
    | .ok m2 =>
      match (if normal_tex.isSome then
          (m2.SetTranslucent is_translucent).SetTextureParam "normalMap" normal_tex
        else Except.ok (m2.SetTranslucent is_translucent)) with
      | .error e => .error e
      | .ok m3 =>
        if emissive_tex.isSome then m3.SetTextureParam "emissiveMap" emissive_tex
        else .ok m3

/-- One round of the loop of `CreatePBRMesh`, for the material name number
`i`; the state is the renderer, the submeshes of the mesh and its
`m_associated_textures`. -/
def attachPBRMaterial {F M S : Type} (driver : Driver) (images : Images)
    (mesh_file_path_without_ext bk_mesh_file_path_without_ext : String) (mirrorPath : Bool)
    (i : Nat) (submesh_material_name : String)
    (state : Renderer × List (SubMeshObject F M S) × List String) :
    Except Fault (Renderer × List (SubMeshObject F M S) × List String) :=
  let stem := mesh_file_path_without_ext ++ "_" ++ submesh_material_name ++ "_"
  let bk := bk_mesh_file_path_without_ext ++ "_" ++ submesh_material_name
  let base0 := state.1.LoadTexture images (stem ++ "Base.png") (some false) true
  let rma0 := base0.2.2.LoadTexture images (stem ++ "RMA.png") none true
  let normal0 := rma0.2.2.LoadTexture images (stem ++ "Normal.png") none true
  let emissive0 := normal0.2.2.LoadTexture images (stem ++ "Emissive.png") none true
  let base := retryTexture images mirrorPath base0.1 base0.2.1 (stem ++ "Base.png")
    (bk ++ "_Base.png") emissive0.2.2
  let rma := retryTexture images mirrorPath rma0.1 none (stem ++ "RMA.png")
    (bk ++ "_RMA.png") base.1.2.2
  let normal := retryTexture images mirrorPath normal0.1 none (stem ++ "Normal.png")
    (bk ++ "_Normal.png") rma.1.2.2
  let emissive := retryTexture images mirrorPath emissive0.1 none (stem ++ "Emissive.png")
    (bk ++ "_Emissive.png") normal.1.2.2
  let withBase := emplace (emplace state.2.2 base.2) rma.2
  let withNormal := if normal.1.1.isSome then emplace withBase normal.2 else withBase
  let associated := if emissive.1.1.isSome then emplace withNormal emissive.2 else withNormal
  let macros := (if normal.1.1.isSome then "#define USE_NORMAL_MAP\n" else "") ++
    (if emissive.1.1.isSome then "#define USE_EMISSIVE_MAP\n" else "")
  let program := emissive.1.2.2.LoadProgram driver
    (images.CONCAT_RESOURCE_PATH state.1.m_resource_dir "/shaders/pbr_kh.vert")
    (images.CONCAT_RESOURCE_PATH state.1.m_resource_dir "/shaders/pbr_kh.frag") macros
  match program.1 with
  | none => .ok (program.2, state.2.1, associated)
  | some p =>
    match state.2.1[i]? with
    | none => .error .outOfRange
    | some submesh =>
      match pbrMaterial (program.2.program (some p)) base.1.1 rma.1.1 normal.1.1
          emissive.1.1 (base.1.2.1.getD false) with
      | .error e => .error e
      | .ok material =>
        .ok (program.2, state.2.1.set i { submesh with m_material := some material },
          associated)

/-- The loop of `CreatePBRMesh` over `submesh_material_names`, from the name
number `i` on. -/
def attachPBRMaterials {F M S : Type} (driver : Driver) (images : Images)
    (mesh_file_path_without_ext bk_mesh_file_path_without_ext : String) (mirrorPath : Bool) :
    Nat → List String → Renderer × List (SubMeshObject F M S) × List String →
      Except Fault (Renderer × List (SubMeshObject F M S) × List String)
  | _, [], state => .ok state
  | i, submesh_material_name :: rest, state =>
    match attachPBRMaterial driver images mesh_file_path_without_ext
        bk_mesh_file_path_without_ext mirrorPath i submesh_material_name state with
    | .error e => .error e
    | .ok next =>
      attachPBRMaterials driver images mesh_file_path_without_ext
        bk_mesh_file_path_without_ext mirrorPath (i + 1) rest next

/-- `Renderer::CreatePBRMesh`; `mirrorPath = none` is a null `mirrorPath`.
When the text names no material the mesh is returned as parsed: the scan of
the file name for `newmtl` that the source makes there fills only the local
list of names.  A failed `assert` is a fault. -/
def World.CreatePBRMesh {F M V Q S : Type} (driver : Driver) (images : Images)
    (strtof : List Char → Option (F × List Char)) (created : Mesh M V Q)
    (export_triangles : Bool) (w : World F M V Q S) (mesh_file_path : String)
    (mirrorPath : Option String) : Except Fault (Option Nat × World F M V Q S) :=
  match stripExtension mesh_file_path with
  | .error e => .error e
  | .ok bk_mesh_file_path_without_ext =>
    match (match mirrorPath with
        | none => Except.ok bk_mesh_file_path_without_ext
        | some mirror => mirrorStem bk_mesh_file_path_without_ext mirror) with
    | .error e => .error e
    | .ok mesh_file_path_without_ext =>
      match loadMesh driver strtof export_triangles w.renderer mesh_file_path with
      | .error e => .error e
      | .ok (none, r) => .ok (none, { w with renderer := r })
      | .ok (some parsed, r) =>
        if parsed.names.length = 0 then
          .ok (w.addMesh r
            { toMesh := created, m_submeshes := bareSubMeshes parsed.m_submeshes,
              m_associated_textures := [] })
        else if parsed.names.length ≠ parsed.m_submeshes.length then .error .assertion
        else
          match attachPBRMaterials driver images mesh_file_path_without_ext
              bk_mesh_file_path_without_ext mirrorPath.isSome 0 parsed.names
              (r, bareSubMeshes parsed.m_submeshes, []) with
          | .error e => .error e
          | .ok (r1, submeshes, associated) =>
            .ok (w.addMesh r1
              { toMesh := created, m_submeshes := submeshes,
                m_associated_textures := associated })

/-- A driver on which no program links and which reads two mesh files: `a.obj`
holds `sampleTwoMaterials`, and `bad.obj` holds `sampleNegativeAfterBlock`,
on which `Parse` reports failure. -/
def meshDriverRejecting : Driver :=
  { driverRejecting with
    ReadTextFile := fun path =>
      if path = "a.obj" then String.mk sampleTwoMaterials
      else if path = "bad.obj" then String.mk sampleNegativeAfterBlock
      else "" }

/-- A world without meshes. -/
def emptyWorld : World Int Int Int Int Int :=
  { renderer := Renderer.new, camera := sampleCamera, meshes := [] }

/-- For each mesh of the world and each of its submeshes: whether it has a
material, and whether that material has a program. -/
def World.materialPrograms {F M V Q S : Type} (w : World F M V Q S) :
    List (List (Option Bool)) :=
  w.meshes.map (fun object =>
    object.m_submeshes.map (fun sm =>
      sm.m_material.map (fun material => material.m_program.isSome)))

/-! # Theorems -/

/-! ## GenerateSubMesh -/

theorem flattenTriangle_fields {F : Type} {P : List (Vector3f F)} {T : List (Vector2f F)}
    {N : List (Vector3f F)} {sm sm1 : SubMesh F} {tri : ObjTri}
    (h : flattenTriangle P T N sm tri = .ok sm1) :
    sm1.m_vertex_count = sm.m_vertex_count ∧ sm1.m_ori_positions = sm.m_ori_positions ∧
      sm1.m_ori_triangles = sm.m_ori_triangles := by
  unfold flattenTriangle at h
  split at h
  · cases h
  · split at h
    · cases h
    · split at h
      · cases h
      · cases h
        exact ⟨rfl, rfl, rfl⟩

theorem flattenLoop_fields {F : Type} {P : List (Vector3f F)} {T : List (Vector2f F)}
    {N : List (Vector3f F)} (tris : List ObjTri) :
    ∀ {sm sm1 : SubMesh F}, flattenLoop P T N tris sm = .ok sm1 →
      sm1.m_vertex_count = sm.m_vertex_count ∧ sm1.m_ori_positions = sm.m_ori_positions ∧
        sm1.m_ori_triangles = sm.m_ori_triangles := by
  induction tris with
  | nil =>
    intro sm sm1 h
    simp only [flattenLoop] at h
    cases h
    exact ⟨rfl, rfl, rfl⟩
  | cons tri rest ih =>
    intro sm sm1 h
    simp only [flattenLoop] at h
    split at h
    · cases h
    · rename_i next hnext
      obtain ⟨a, b, c⟩ := ih h
      obtain ⟨a1, b1, c1⟩ := flattenTriangle_fields hnext
      exact ⟨a.trans a1, b.trans b1, c.trans c1⟩

theorem GenerateSubMesh_vertex_count {F : Type} {ex : Bool} {P : List (Vector3f F)}
    {T : List (Vector2f F)} {N : List (Vector3f F)} {tris : List ObjTri} {sm : SubMesh F}
    (h : GenerateSubMesh ex P T N tris = .ok sm) : sm.m_vertex_count = tris.length * 3 := by
  unfold GenerateSubMesh at h
  exact (flattenLoop_fields _ h).1

theorem GenerateSubMesh_ori_triangles {F : Type} {ex : Bool} {P : List (Vector3f F)}
    {T : List (Vector2f F)} {N : List (Vector3f F)} {tris : List ObjTri} {sm : SubMesh F}
    (h : GenerateSubMesh ex P T N tris = .ok sm) :
    sm.m_ori_triangles = if ex then tris else [] := by
  unfold GenerateSubMesh at h
  exact (flattenLoop_fields _ h).2.2

theorem HoldsFaces.vertex_count {F : Type} {ex : Bool} {sm : SubMesh F} {block : List ObjTri}
    (h : HoldsFaces ex sm block) : sm.m_vertex_count = block.length * 3 := by
  obtain ⟨P, T, N, hg⟩ := h
  exact GenerateSubMesh_vertex_count hg

theorem cstr_ok {buf : List Char} {off : Nat} {line : List Char}
    (h : cstr buf off = .ok line) : line = lineAt buf off := by
  unfold cstr at h
  split at h
  · cases h; rfl
  · cases h

theorem readLine_kind {F : Type} {strtof : List Char → Option (F × List Char)}
    {buf : List Char} {hT hN : Bool} {ptr : Nat} {ev : Event F}
    (h : readLine strtof buf hT hN ptr = .ok ev) : ev.kind = kindAt buf ptr := by
  unfold readLine at h
  split at h
  · cases h
  · rename_i line hline
    have hl := cstr_ok hline
    subst hl
    unfold kindAt
    split at h
    all_goals (rename_i hk; rw [hk])
    all_goals (first | (cases h <;> rfl) | skip)
    all_goals (split at h)
    all_goals (cases h <;> rfl)

/-! ## Flattening keeps the face list -/

theorem storeNext_ok {α : Type} {array : Option (List α)} {vec : List α} {i : Option Int}
    {r : Option (List α)} (h : storeNext array vec i = .ok r) :
    ∃ stored a j, array = some stored ∧ i = some j ∧ 0 ≤ j ∧ vec[j.toNat]? = some a ∧
      r = some (stored ++ [a]) := by
  unfold storeNext at h
  split at h
  · cases h
  · rename_i a hread
    split at h
    · cases h
    · rename_i stored
      cases h
      unfold vectorAt at hread
      split at hread
      · cases hread
      · rename_i k
        split at hread
        · rename_i hk
          split at hread
          · rename_i b hb
            cases hread
            exact ⟨stored, a, k, rfl, rfl, hk, hb, rfl⟩
          · cases hread
        · cases hread

theorem storeCorners_ok {α : Type} {array : Option (List α)} {vec : List α}
    {i0 i1 i2 : Option Int} {r : Option (List α)}
    (h : storeCorners array vec i0 i1 i2 = .ok r) :
    ∃ stored x y z j0 j1 j2, array = some stored ∧
      i0 = some j0 ∧ i1 = some j1 ∧ i2 = some j2 ∧ 0 ≤ j0 ∧ 0 ≤ j1 ∧ 0 ≤ j2 ∧
      vec[j0.toNat]? = some x ∧ vec[j1.toNat]? = some y ∧ vec[j2.toNat]? = some z ∧
      r = some (stored ++ [x, y, z]) := by
  unfold storeCorners at h
  split at h
  · cases h
  · rename_i a0 h0
    split at h
    · cases h
    · rename_i a1 h1
      obtain ⟨s0, x, j0, e0, hi0, hj0, hx, r0⟩ := storeNext_ok h0
      subst r0
      obtain ⟨s1, y, j1, e1, hi1, hj1, hy, r1⟩ := storeNext_ok h1
      subst r1
      obtain ⟨s2, z, j2, e2, hi2, hj2, hz, r2⟩ := storeNext_ok h
      cases e1
      cases e2
      refine ⟨s0, x, y, z, j0, j1, j2, e0, hi0, hi1, hi2, hj0, hj1, hj2, hx, hy, hz, ?_⟩
      rw [r2]
      simp

theorem storeCorners_none {α : Type} {vec : List α} {i0 i1 i2 : Option Int}
    {r : Option (List α)} : storeCorners none vec i0 i1 i2 ≠ .ok r := by
  intro h
  obtain ⟨stored, _, _, _, _, _, _, e, _⟩ := storeCorners_ok h
  cases e

theorem flattened_step {α : Type} {vec : List α} {sel : ObjTri → List (Option Int)}
    {tri : ObjTri} {rest : List ObjTri} {x y z : α} {j0 j1 j2 : Int} {tail : List α}
    (hsel : sel tri = [some (j0 + 1), some (j1 + 1), some (j2 + 1)])
    (h0 : 0 ≤ j0) (h1 : 0 ≤ j1) (h2 : 0 ≤ j2)
    (hx : vec[j0.toNat]? = some x) (hy : vec[j1.toNat]? = some y)
    (hz : vec[j2.toNat]? = some z) (ht : Flattened vec sel rest tail) :
    Flattened vec sel (tri :: rest) (x :: y :: z :: tail) := by
  refine ⟨j0 + 1, j1 + 1, j2 + 1, x, y, z, tail, hsel, by omega, by omega, by omega,
    ?_, ?_, ?_, rfl, ht⟩
  · simpa using hx
  · simpa using hy
  · simpa using hz

theorem decrement_some {i : Option Int} {j : Int}
    (h : i.map (fun k => k - 1) = some j) : i = some (j + 1) := by
  cases i with
  | none => cases h
  | some k =>
    simp only [Option.map_some', Option.some.injEq] at h
    rw [← h]
    simp

theorem flattenLoop_flattened {F : Type} {P : List (Vector3f F)} {T : List (Vector2f F)}
    {N : List (Vector3f F)} (tris : List ObjTri) :
    ∀ {sm sm1 : SubMesh F},
      flattenLoop P T N (tris.map ObjTri.decrement) sm = .ok sm1 →
      (∀ acc, sm.m_positions = some acc →
        ∃ out, sm1.m_positions = some (acc ++ out) ∧
          Flattened P ObjTri.vertexIndices tris out) ∧
      (∀ acc, sm.m_texcoords = some acc →
        ∃ out, sm1.m_texcoords = some (acc ++ out) ∧
          Flattened T ObjTri.texcoordIndices tris out) ∧
      (∀ acc, sm.m_normals = some acc →
        ∃ out, sm1.m_normals = some (acc ++ out) ∧
          Flattened N ObjTri.normalIndices tris out) ∧
      (sm.m_texcoords = none → sm1.m_texcoords = none) ∧
      (sm.m_normals = none → sm1.m_normals = none) := by
  induction tris with
  | nil =>
    intro sm sm1 h
    simp only [List.map_nil, flattenLoop] at h
    cases h
    refine ⟨?_, ?_, ?_, id, id⟩ <;>
      exact fun acc hacc => ⟨[], by simpa using hacc, rfl⟩
  | cons tri rest ih =>
    intro sm sm1 h
    simp only [List.map_cons, flattenLoop] at h
    split at h
    · cases h
    · rename_i next hnext
      obtain ⟨ihP, ihT, ihN, _, _⟩ := ih h
      unfold flattenTriangle at hnext
      split at hnext
      · cases hnext
      · rename_i ps hps
        split at hnext
        · cases hnext
        · rename_i ts hts
          split at hnext
          · cases hnext
          · rename_i ns hns
            cases hnext
            obtain ⟨sp, px, py, pz, p0, p1, p2, ep, hp0, hp1, hp2, gp0, gp1, gp2, hpx, hpy,
              hpz, rp⟩ := storeCorners_ok hps
            obtain ⟨st, tx, ty, tz, t0, t1, t2, et, ht0, ht1, ht2, gt0, gt1, gt2, htx, hty,
              htz, rt⟩ := storeCorners_ok hts
            obtain ⟨sn, nx, ny, nz, n0, n1, n2, en, hn0, hn1, hn2, gn0, gn1, gn2, hnx, hny,
              hnz, rn⟩ := storeCorners_ok hns
            refine ⟨?_, ?_, ?_, ?_, ?_⟩
            · intro acc hacc
              rw [ep] at hacc
              cases hacc
              obtain ⟨out, ho, hf⟩ := ihP (sp ++ [px, py, pz]) rp
              refine ⟨px :: py :: pz :: out, by rw [ho]; simp, ?_⟩
              refine flattened_step ?_ gp0 gp1 gp2 hpx hpy hpz hf
              simp only [ObjTri.vertexIndices]
              rw [decrement_some hp0, decrement_some hp1, decrement_some hp2]
            · intro acc hacc
              rw [et] at hacc
              cases hacc
              obtain ⟨out, ho, hf⟩ := ihT (st ++ [tx, ty, tz]) rt
              refine ⟨tx :: ty :: tz :: out, by rw [ho]; simp, ?_⟩
              refine flattened_step ?_ gt0 gt1 gt2 htx hty htz hf
              simp only [ObjTri.texcoordIndices]
              rw [decrement_some ht0, decrement_some ht1, decrement_some ht2]
            · intro acc hacc
              rw [en] at hacc
              cases hacc
              obtain ⟨out, ho, hf⟩ := ihN (sn ++ [nx, ny, nz]) rn
              refine ⟨nx :: ny :: nz :: out, by rw [ho]; simp, ?_⟩
              refine flattened_step ?_ gn0 gn1 gn2 hnx hny hnz hf
              simp only [ObjTri.normalIndices]
              rw [decrement_some hn0, decrement_some hn1, decrement_some hn2]
            · intro hnone
              rw [et] at hnone
              cases hnone
            · intro hnone
              rw [en] at hnone
              cases hnone

/-- Flattening preserves the face list: the arrays of a submesh that
`GenerateSubMesh` returns hold, three slots per face and in face order, the
coordinates that the 1-based indices of the faces name. -/
theorem GenerateSubMesh_flattened {F : Type} {ex : Bool} {P : List (Vector3f F)}
    {T : List (Vector2f F)} {N : List (Vector3f F)} {tris : List ObjTri} {sm : SubMesh F}
    (h : GenerateSubMesh ex P T N tris = .ok sm) :
    (∃ ps, sm.m_positions = some ps ∧ Flattened P ObjTri.vertexIndices tris ps) ∧
      (∀ ts, sm.m_texcoords = some ts → Flattened T ObjTri.texcoordIndices tris ts) ∧
      (∀ ns, sm.m_normals = some ns → Flattened N ObjTri.normalIndices tris ns) := by
  unfold GenerateSubMesh at h
  obtain ⟨hP, hT, hN, hTn, hNn⟩ := flattenLoop_flattened tris h
  refine ⟨?_, ?_, ?_⟩
  · obtain ⟨out, ho, hf⟩ := hP [] rfl
    exact ⟨out, by simpa using ho, hf⟩
  · intro ts hts
    by_cases hl : T.length > 0
    · obtain ⟨out, ho, hf⟩ := hT [] (by simp [hl])
      rw [hts] at ho
      simp only [List.nil_append, Option.some.injEq] at ho
      rw [ho]
      exact hf
    · have := hTn (by simp [hl])
      rw [hts] at this
      cases this
  · intro ns hns
    by_cases hl : N.length > 0
    · obtain ⟨out, ho, hf⟩ := hN [] (by simp [hl])
      rw [hns] at ho
      simp only [List.nil_append, Option.some.injEq] at ho
      rw [ho]
      exact hf
    · have := hNn (by simp [hl])
      rw [hns] at this
      cases this

/-- The slot form of `Flattened`: slot `3 * i + k` holds the entry of `vec`
whose 1-based number is index `k` of face `i`. -/
theorem Flattened.slot {α : Type} {vec : List α} {sel : ObjTri → List (Option Int)}
    (tris : List ObjTri) :
    ∀ {out : List α}, Flattened vec sel tris out →
      out.length = 3 * tris.length ∧
      ∀ i k tri, tris[i]? = some tri → k < 3 →
        ∃ a : Int, ∃ x : α, (sel tri)[k]? = some (some a) ∧ 1 ≤ a ∧
          vec[(a - 1).toNat]? = some x ∧ out[3 * i + k]? = some x := by
  induction tris with
  | nil =>
    intro out h
    simp only [Flattened] at h
    subst h
    refine ⟨rfl, ?_⟩
    intro i k tri hi
    simp at hi
  | cons t rest ih =>
    intro out h
    obtain ⟨a, b, c, x, y, z, tail, hsel, ha, hb, hc, hx, hy, hz, ho, ht⟩ := h
    obtain ⟨hlen, hslots⟩ := ih ht
    subst ho
    refine ⟨by simp only [List.length_cons, hlen]; omega, ?_⟩
    intro i k tri hi hk
    cases i with
    | zero =>
      simp only [List.getElem?_cons_zero, Option.some.injEq] at hi
      subst hi
      rw [hsel]
      match k, hk with
      | 0, _ => exact ⟨a, x, rfl, ha, hx, by simp⟩
      | 1, _ => exact ⟨b, y, rfl, hb, hy, by simp⟩
      | 2, _ => exact ⟨c, z, rfl, hc, hz, by simp⟩
    | succ j =>
      simp only [List.getElem?_cons_succ] at hi
      obtain ⟨a1, x1, h1, h2, h3, h4⟩ := hslots j k tri hi hk
      refine ⟨a1, x1, h1, h2, h3, ?_⟩
      have : 3 * (j + 1) + k = (3 * j + k) + 3 := by omega
      rw [this]
      simpa using h4

/-! ## Events and blocks -/

theorem markerNames_append {F : Type} (a b : List (Event F)) :
    markerNames (a ++ b) = markerNames a ++ markerNames b := by
  induction a with
  | nil => rfl
  | cons ev rest ih =>
    cases ev with
    | usemtl name => cases name <;> simp [markerNames, ih]
    | _ => simp [markerNames, ih]

theorem pendingFaces_append {F : Type} (a b : List (Event F)) :
    ∀ cur, pendingFaces cur (a ++ b) = pendingFaces (pendingFaces cur a) b := by
  induction a with
  | nil => intro cur; rfl
  | cons ev rest ih =>
    intro cur
    cases ev <;> simp [pendingFaces, ih]

theorem closedBlocks_append {F : Type} (a b : List (Event F)) :
    ∀ cur, closedBlocks cur (a ++ b) = closedBlocks cur a ++ closedBlocks (pendingFaces cur a) b := by
  induction a with
  | nil => intro cur; rfl
  | cons ev rest ih =>
    intro cur
    cases ev <;> simp [closedBlocks, pendingFaces, ih]

theorem Replays.refl {F : Type} (ex : Bool) (s : ParseState F) : Replays ex s [] s := by
  refine ⟨by simp [markerNames], rfl, ⟨[], by simp, ?_⟩, ?_, by simp, by simp, by simp⟩
  · simp [closedBlocks]
  · intro tri neg h
    cases h

theorem Replays.trans {F : Type} {ex : Bool} {s s1 s2 : ParseState F}
    {evs1 evs2 : List (Event F)} (h1 : Replays ex s evs1 s1) (h2 : Replays ex s1 evs2 s2) :
    Replays ex s (evs1 ++ evs2) s2 := by
  obtain ⟨n1, t1, ⟨a1, e1, f1⟩, g1, x1, y1, z1⟩ := h1
  obtain ⟨n2, t2, ⟨a2, e2, f2⟩, g2, x2, y2, z2⟩ := h2
  refine ⟨?_, ?_, ⟨a1 ++ a2, ?_, ?_⟩, ?_, ?_, ?_, ?_⟩
  · rw [n2, n1, markerNames_append, List.append_assoc]
  · rw [t2, t1, pendingFaces_append]
  · rw [e2, e1, List.append_assoc]
  · rw [closedBlocks_append, List.filter_append, ← t1]
    exact List.rel_append f1 f2
  · intro tri neg h
    rcases List.mem_append.1 h with h | h
    · exact g1 tri neg h
    · exact g2 tri neg h
  · rw [x2, x1, List.any_append, Bool.or_assoc]
  · rw [y2, y1, List.any_append, Bool.or_assoc]
  · intro ev h
    rcases List.mem_append.1 h with h | h
    · exact z1 ev h
    · exact z2 ev h

theorem applyLine_false {F : Type} {ex : Bool} {s s1 : ParseState F} {ev : Event F}
    (h : applyLine ex s ev = .ok (false, s1)) : Replays ex s [ev] s1 := by
  cases ev with
  | position v =>
    simp only [applyLine] at h
    cases h
    refine ⟨by simp [markerNames], rfl, ⟨[], by simp, by simp [closedBlocks]⟩, ?_, by simp [Event.isTexcoord], by simp [Event.isNormal], by simp⟩
    intro tri neg hm
    simp at hm
  | texcoord v =>
    simp only [applyLine] at h
    cases h
    refine ⟨by simp [markerNames], rfl, ⟨[], by simp, by simp [closedBlocks]⟩, ?_, by simp [Event.isTexcoord], by simp [Event.isNormal], by simp⟩
    intro tri neg hm
    simp at hm
  | normal v =>
    simp only [applyLine] at h
    cases h
    refine ⟨by simp [markerNames], rfl, ⟨[], by simp, by simp [closedBlocks]⟩, ?_, by simp [Event.isTexcoord], by simp [Event.isNormal], by simp⟩
    intro tri neg hm
    simp at hm
  | skip =>
    simp only [applyLine] at h
    cases h
    refine ⟨by simp [markerNames], rfl, ⟨[], by simp, by simp [closedBlocks]⟩, ?_, by simp [Event.isTexcoord], by simp [Event.isNormal], by simp⟩
    intro tri neg hm
    simp at hm
  | face tri neg =>
    simp only [applyLine] at h
    split at h
    · cases h
    · rename_i hneg
      cases h
      refine ⟨by simp [markerNames], rfl, ⟨[], by simp, by simp [closedBlocks]⟩, ?_, by simp [Event.isTexcoord], by simp [Event.isNormal], by simp⟩
      intro tri1 neg1 hm
      simp at hm
      rw [hm.2]
      simpa using hneg
  | usemtl name =>
    simp only [applyLine] at h
    split at h
    · rename_i hlen
      split at h
      · cases h
      · rename_i submesh hgen
        split at h
        · cases h
        · rename_i nm
          cases h
          have hne : s.triangles ≠ [] := by
            intro h0
            rw [h0] at hlen
            simp at hlen
          refine ⟨by simp [markerNames], rfl, ⟨[submesh], rfl, ?_⟩, ?_, by simp [Event.isTexcoord], by simp [Event.isNormal], by simp⟩
          · simp only [closedBlocks, List.filter_cons, hne, ne_eq, not_false_eq_true, decide_True, if_true, List.filter_nil]
            exact List.Forall₂.cons ⟨_, _, _, hgen⟩ List.Forall₂.nil
          · intro tri1 neg1 hm
            simp at hm
    · rename_i hlen
      split at h
      · cases h
      · rename_i nm
        cases h
        have he : s.triangles = [] := by
          cases hs : s.triangles with
          | nil => rfl
          | cons a b => rw [hs] at hlen; simp at hlen
        refine ⟨by simp [markerNames], ?_, ⟨[], by simp, ?_⟩, ?_, by simp [Event.isTexcoord], by simp [Event.isNormal], by simp⟩
        · simp [pendingFaces, he]
        · simp [closedBlocks, he]
        · intro tri1 neg1 hm
          simp at hm

/-! ## The line loop -/

theorem applyLine_true {F : Type} {ex : Bool} {s s1 : ParseState F} {ev : Event F}
    (h : applyLine ex s ev = .ok (true, s1)) : s1 = s ∧ ∃ tri, ev = .face tri true := by
  cases ev with
  | face tri neg =>
    simp only [applyLine] at h
    split at h
    · rename_i hneg
      cases h
      exact ⟨rfl, tri, by rw [hneg]⟩
    · cases h
  | usemtl name =>
    simp only [applyLine] at h
    split at h
    · split at h
      · cases h
      · split at h <;> cases h
    · split at h <;> cases h
  | _ =>
    simp only [applyLine] at h
    cases h

theorem parseLines_false {F : Type} {strtof : List Char → Option (F × List Char)} {ex : Bool}
    {buf : List Char} (ls : List Nat) :
    ∀ {s s1 : ParseState F}, parseLines strtof ex buf ls s = .ok (false, s1) →
      ∃ evs, readLines strtof buf ls (decide (s.texcoords.length > 0))
          (decide (s.normals.length > 0)) = .ok evs ∧ Replays ex s evs s1 := by
  induction ls with
  | nil =>
    intro s s1 h
    simp only [parseLines] at h
    cases h
    exact ⟨[], rfl, Replays.refl ex s⟩
  | cons ptr rest ih =>
    intro s s1 h
    simp only [parseLines] at h
    split at h
    · cases h
    · rename_i ev hread
      split at h
      · cases h
      · cases h
      · rename_i s2 happly
        have hrep := applyLine_false happly
        have hT := hrep.2.2.2.2.1
        have hN := hrep.2.2.2.2.2.1
        simp only [List.any_cons, List.any_nil, Bool.or_false] at hT hN
        obtain ⟨evs, hevs, hrep2⟩ := ih h
        refine ⟨ev :: evs, ?_, Replays.trans hrep hrep2⟩
        simp only [readLines, hread]
        rw [← hT, ← hN, hevs]

theorem parseLines_true {F : Type} {strtof : List Char → Option (F × List Char)} {ex : Bool}
    {buf : List Char} (ls : List Nat) :
    ∀ {s s1 : ParseState F}, parseLines strtof ex buf ls s = .ok (true, s1) →
      ∃ pre ptr post evs tri, ls = pre ++ ptr :: post ∧
        readLines strtof buf pre (decide (s.texcoords.length > 0))
          (decide (s.normals.length > 0)) = .ok evs ∧
        Replays ex s evs s1 ∧
        readLine strtof buf (decide (s1.texcoords.length > 0))
          (decide (s1.normals.length > 0)) ptr = .ok (.face tri true) := by
  induction ls with
  | nil =>
    intro s s1 h
    simp only [parseLines] at h
    cases h
  | cons ptr rest ih =>
    intro s s1 h
    simp only [parseLines] at h
    split at h
    · cases h
    · rename_i ev hread
      split at h
      · cases h
      · rename_i s2 happly
        cases h
        obtain ⟨hs, tri, hev⟩ := applyLine_true happly
        subst hs
        subst hev
        exact ⟨[], ptr, rest, [], tri, rfl, rfl, Replays.refl ex _, hread⟩
      · rename_i s2 happly
        have hrep := applyLine_false happly
        have hT := hrep.2.2.2.2.1
        have hN := hrep.2.2.2.2.2.1
        simp only [List.any_cons, List.any_nil, Bool.or_false] at hT hN
        obtain ⟨pre, p, post, evs, tri, hls, hevs, hrep2, hbad⟩ := ih h
        refine ⟨ptr :: pre, p, post, ev :: evs, tri, by rw [hls]; rfl, ?_,
          Replays.trans hrep hrep2, hbad⟩
        simp only [readLines, hread]
        rw [← hT, ← hN, hevs]

theorem readLines_kinds {F : Type} {strtof : List Char → Option (F × List Char)}
    {buf : List Char} (ls : List Nat) :
    ∀ {hT hN : Bool} {evs : List (Event F)}, readLines strtof buf ls hT hN = .ok evs →
      evs.map Event.kind = ls.map (kindAt buf) := by
  induction ls with
  | nil =>
    intro hT hN evs h
    simp only [readLines] at h
    cases h
    rfl
  | cons ptr rest ih =>
    intro hT hN evs h
    simp only [readLines] at h
    split at h
    · cases h
    · rename_i ev hread
      split at h
      · cases h
      · rename_i evs1 hrest
        cases h
        simp [readLine_kind hread, ih hrest]

/-! ## Counting faces and vertices -/

theorem vertexTotal_append {F : Type} (a b : List (SubMesh F)) :
    vertexTotal (a ++ b) = vertexTotal a + vertexTotal b := by
  simp [vertexTotal]

theorem vertexTotal_of_holds {F : Type} {ex : Bool} {added : List (SubMesh F)}
    {blocks : List (List ObjTri)} (h : List.Forall₂ (HoldsFaces ex) added blocks) :
    vertexTotal added = 3 * (blocks.map List.length).sum := by
  induction h with
  | nil => rfl
  | cons hab _ ih =>
    have hv := HoldsFaces.vertex_count hab
    simp only [vertexTotal, List.map_cons, List.sum_cons] at ih ⊢
    rw [ih, hv]
    ring

theorem sum_length_filter_nonempty (bs : List (List ObjTri)) :
    (((bs.filter (fun b => decide (b ≠ []))).map List.length).sum) = (bs.map List.length).sum := by
  induction bs with
  | nil => rfl
  | cons b rest ih =>
    cases b with
    | nil => simpa using ih
    | cons x xs =>
      have h1 : (List.filter (fun b => decide (b ≠ [])) ((x :: xs) :: rest)) =
          (x :: xs) :: List.filter (fun b => decide (b ≠ [])) rest := by
        simp
      rw [h1]
      simp only [List.map_cons, List.sum_cons, ih]

theorem blocks_count {F : Type} (evs : List (Event F)) :
    ∀ cur, ((closedBlocks cur evs).map List.length).sum + (pendingFaces cur evs).length =
      cur.length + (evs.filter Event.isFace).length := by
  induction evs with
  | nil => intro cur; simp [closedBlocks, pendingFaces]
  | cons ev rest ih =>
    intro cur
    cases ev with
    | face tri neg =>
      simp only [closedBlocks, pendingFaces, Event.isFace, List.filter_cons_of_pos,
        List.length_cons]
      rw [ih]
      simp
      omega
    | usemtl name =>
      have := ih []
      have hf : List.filter Event.isFace (Event.usemtl name :: rest) =
          List.filter Event.isFace rest := by
        simp [Event.isFace]
      rw [hf]
      simp only [closedBlocks, pendingFaces, List.map_cons, List.sum_cons]
      simp at this ⊢
      omega
    | _ =>
      have := ih cur
      simp only [closedBlocks, pendingFaces, Event.isFace]
      simpa using this

theorem faces_of_kinds {F : Type} {strtof : List Char → Option (F × List Char)}
    {buf : List Char} {ls : List Nat} {hT hN : Bool} {evs : List (Event F)}
    (h : readLines strtof buf ls hT hN = .ok evs) :
    (evs.filter Event.isFace).length =
      (ls.filter (fun ptr => decide (kindAt buf ptr = .face))).length := by
  have hk := readLines_kinds ls h
  have h1 : (evs.filter Event.isFace).length =
      ((evs.map Event.kind).filter (fun k => decide (k = .face))).length := by
    rw [List.filter_map, List.length_map]
    congr 1
    apply List.filter_congr
    intro ev _
    cases ev <;> simp [Event.isFace, Event.kind]
  rw [h1, hk, List.filter_map, List.length_map]
  rfl

/-! ## Declarations seen so far -/

theorem isTexcoord_eq_kind {F : Type} (ev : Event F) :
    ev.isTexcoord = decide (ev.kind = .texcoord) := by
  cases ev <;> simp [Event.isTexcoord, Event.kind]

theorem isNormal_eq_kind {F : Type} (ev : Event F) :
    ev.isNormal = decide (ev.kind = .normal) := by
  cases ev <;> simp [Event.isNormal, Event.kind]

theorem any_isTexcoord_of_kinds {F : Type} {buf : List Char} {evs : List (Event F)}
    {ls : List Nat} (hk : evs.map Event.kind = ls.map (kindAt buf)) :
    evs.any Event.isTexcoord = declares buf .texcoord ls := by
  induction evs generalizing ls with
  | nil =>
    cases ls with
    | nil => rfl
    | cons p ps => simp at hk
  | cons ev rest ih =>
    cases ls with
    | nil => simp at hk
    | cons p ps =>
      simp only [List.map_cons, List.cons.injEq] at hk
      have h2 := ih hk.2
      simp only [List.any_cons, declares] at h2 ⊢
      rw [h2, isTexcoord_eq_kind, hk.1]

theorem any_isNormal_of_kinds {F : Type} {buf : List Char} {evs : List (Event F)}
    {ls : List Nat} (hk : evs.map Event.kind = ls.map (kindAt buf)) :
    evs.any Event.isNormal = declares buf .normal ls := by
  induction evs generalizing ls with
  | nil =>
    cases ls with
    | nil => rfl
    | cons p ps => simp at hk
  | cons ev rest ih =>
    cases ls with
    | nil => simp at hk
    | cons p ps =>
      simp only [List.map_cons, List.cons.injEq] at hk
      have h2 := ih hk.2
      simp only [List.any_cons, declares] at h2 ⊢
      rw [h2, isNormal_eq_kind, hk.1]

theorem readLines_append {F : Type} {strtof : List Char → Option (F × List Char)}
    {buf : List Char} (a b : List Nat) :
    ∀ {hT hN : Bool} {evs : List (Event F)}, readLines strtof buf (a ++ b) hT hN = .ok evs →
      ∃ e1 e2, evs = e1 ++ e2 ∧ readLines strtof buf a hT hN = .ok e1 ∧
        readLines strtof buf b (hT || declares buf .texcoord a)
          (hN || declares buf .normal a) = .ok e2 := by
  induction a with
  | nil =>
    intro hT hN evs h
    refine ⟨[], evs, rfl, rfl, ?_⟩
    simpa [declares] using h
  | cons ptr rest ih =>
    intro hT hN evs h
    simp only [List.cons_append, readLines] at h
    split at h
    · cases h
    · rename_i ev hread
      split at h
      · cases h
      · rename_i evs1 hrest
        cases h
        obtain ⟨e1, e2, he, h1, h2⟩ := ih hrest
        refine ⟨ev :: e1, e2, by rw [he]; rfl, ?_, ?_⟩
        · simp only [readLines, hread, h1]
        · have hk := readLine_kind hread
          rw [isTexcoord_eq_kind, isNormal_eq_kind, hk] at h2
          simpa [declares, Bool.or_assoc] using h2

/-! ## The two ways Parse returns -/

theorem Parse_succ {F : Type} {strtof : List Char → Option (F × List Char)} {ex : Bool}
    {m0 : List (SubMesh F)} {data : List Char} {out : ParseResult F}
    (h : Parse strtof ex m0 data = .ok out) (hs : out.succ = true) :
    ∃ evs added sm, textEvents strtof data = .ok evs ∧ out.names = markerNames evs ∧
      out.m_submeshes = m0 ++ added ++ [sm] ∧
      List.Forall₂ (HoldsFaces ex) added
        ((closedBlocks [] evs).filter (fun b => decide (b ≠ []))) ∧
      HoldsFaces ex sm (pendingFaces [] evs) ∧
      (∀ tri neg, Event.face tri neg ∈ evs → neg = false) ∧
      (∀ ev ∈ evs, ev ≠ Event.usemtl none) := by
  unfold Parse at h
  split at h
  · cases h
  · cases h
    simp at hs
  · rename_i s hrun
    split at h
    · cases h
    · rename_i sm hgen
      cases h
      obtain ⟨evs, hevs, hn, ht, ⟨added, ha, hf⟩, hg, _, _, hnm⟩ := parseLines_false _ hrun
      refine ⟨evs, added, sm, ?_, ?_, ?_, hf, ?_, hg, hnm⟩
      · simpa [textEvents] using hevs
      · simpa using hn
      · simp only [ha]
      · rw [ht] at hgen
        exact ⟨_, _, _, hgen⟩

theorem Parse_fail {F : Type} {strtof : List Char → Option (F × List Char)} {ex : Bool}
    {m0 : List (SubMesh F)} {data : List Char} {out : ParseResult F}
    (h : Parse strtof ex m0 data = .ok out) (hs : out.succ = false) :
    ∃ pre ptr post evs tri added, lineStarts data = pre ++ ptr :: post ∧
      readLines strtof (splitBuffer data) pre false false = .ok evs ∧
      readLine strtof (splitBuffer data) (declares (splitBuffer data) .texcoord pre)
        (declares (splitBuffer data) .normal pre) ptr = .ok (.face tri true) ∧
      out.m_submeshes = m0 ++ added ∧
      List.Forall₂ (HoldsFaces ex) added
        ((closedBlocks [] evs).filter (fun b => decide (b ≠ []))) ∧
      out.names = [] := by
  unfold Parse at h
  split at h
  · cases h
  · rename_i s hrun
    cases h
    obtain ⟨pre, ptr, post, evs, tri, hls, hevs, ⟨_, _, ⟨added, ha, hf⟩, _, hT, hN, _⟩, hbad⟩ :=
      parseLines_true _ hrun
    have hevs1 : readLines strtof (splitBuffer data) pre false false = .ok evs := by
      simpa using hevs
    have hk := readLines_kinds pre hevs1
    rw [hT, hN, any_isTexcoord_of_kinds hk, any_isNormal_of_kinds hk] at hbad
    refine ⟨pre, ptr, post, evs, tri, added, hls, hevs1, ?_, ha, hf, rfl⟩
    simpa using hbad
  · split at h
    · cases h
    · cases h
      simp at hs

/-! ## Material boundaries -/

theorem anyNegative_false (xs : List (Option Int)) (h : anyNegative xs = .ok false) :
    ∀ i, some i ∈ xs → 0 ≤ i := by
  induction xs with
  | nil => intro i hi; cases hi
  | cons x rest ih =>
    cases x with
    | none => simp [anyNegative] at h
    | some j =>
      simp only [anyNegative] at h
      split at h
      · cases h
      · rename_i hj
        intro i hi
        rcases List.mem_cons.1 hi with hi | hi
        · cases hi
          omega
        · exact ih h i hi

theorem readLine_face {F : Type} {strtof : List Char → Option (F × List Char)}
    {buf : List Char} {hT hN : Bool} {ptr : Nat} {tri : ObjTri} {neg : Bool}
    (h : readLine strtof buf hT hN ptr = .ok (.face tri neg)) :
    readFace hT hN (lineAt buf ptr) = .ok (tri, neg) := by
  unfold readLine at h
  split at h
  · cases h
  · rename_i line hline
    have hl := cstr_ok hline
    subst hl
    split at h
    · split at h <;> cases h
    · split at h <;> cases h
    · split at h <;> cases h
    · split at h
      · cases h
      · rename_i tri1 neg1 hface
        cases h
        exact hface
    · split at h <;> cases h
    · cases h

theorem readFace_not_negative {hT hN : Bool} {line : List Char} {tri : ObjTri}
    (h : readFace hT hN line = .ok (tri, false)) : ¬ HasCheckedNegative hT hN line := by
  rintro ⟨rest, vs, i, htok, hints, hmem, hneg⟩
  unfold readFace at h
  rw [htok] at h
  simp only [hints] at h
  split at h
  · cases h
  · rename_i neg hany
    cases h
    have := anyNegative_false _ hany i hmem
    omega

/-! # The claims about the mesh parser -/

/-- C1, code defect.  On the end-to-end example of the specification (no material
boundary, one face with the in-range indices 1 2 3) `Parse` does not report
success: the last `GenerateSubMesh` indexes `texcoords` with the texcoord index
that `sscanf` never assigned, on its way to a store through the null
`m_texcoords`.  This holds for every float conversion, export flag and mesh. -/
theorem Parse_sampleTriangle_faults {F : Type} (strtof : List Char → Option (F × List Char))
    (ex : Bool) (m0 : List (SubMesh F)) :
    Parse strtof ex m0 sampleTriangle = .error .uninitialised := by
  cases ex <;> rfl

/-- C2, code defect.  The face line of the witness text is read as the triangle
1 2 3 with unassigned texcoord and normal indices, and `GenerateSubMesh` on the
three parsed positions and that triangle yields no submesh: after the three
position slots it faults on the texcoord statements, which the source does not
guard by the presence of `texcoords`. -/
theorem GenerateSubMesh_sampleTriangle_faults :
    textEvents strtofInteger sampleTriangle =
        .ok [.position (vec3 0 0 0), .position (vec3 1 0 0), .position (vec3 0 1 0),
          .face { v0 := some 1, t0 := none, n0 := none, v1 := some 2, t1 := none,
                  n1 := none, v2 := some 3, t2 := none, n2 := none } false] ∧
      ∀ ex : Bool, GenerateSubMesh ex [vec3 0 0 0, vec3 1 0 0, vec3 0 1 0] [] []
        [{ v0 := some 1, t0 := none, n0 := none, v1 := some 2, t1 := none,
           n1 := none, v2 := some 3, t2 := none, n2 := none }] = .error .uninitialised := by
  refine ⟨rfl, ?_⟩
  intro ex
  cases ex <;> rfl

/-- C3, counterexample.  A nine-index face record whose first vertex index is
zero passes the negative-index test, and `Parse` does not report failure on the
text: the zero index reaches `GenerateSubMesh`, which reads `positions[-1]`. -/
theorem Parse_zero_index_not_rejected :
    readFace true true (lineAt (splitBuffer sampleZeroIndex) 24) =
        .ok (tri9 0 1 1 1 1 1 1 1 1, false) ∧
      Parse strtofInteger false [] sampleZeroIndex = .error .outOfRange ∧
      ¬ ∃ out, Parse strtofInteger false [] sampleZeroIndex = .ok out ∧
        out.succ = false ∧ out.names = [] := by
  refine ⟨rfl, rfl, ?_⟩
  rintro ⟨out, h, _⟩
  have h2 : Parse strtofInteger false [] sampleZeroIndex = .error .outOfRange := rfl
  rw [h2] at h
  cases h

/-- C3, amended.  If a face line has a negative index in a field that the test
of its record shape reads (the shape being fixed by the texcoord and normal
lines before it), then a returning `Parse` reports failure and returns no
material name, whatever precedes and follows that line. -/
theorem Parse_rejects_checked_negative {F : Type}
    (strtof : List Char → Option (F × List Char)) (ex : Bool) (m0 : List (SubMesh F))
    (data : List Char) (out : ParseResult F) (pre post : List Nat) (ptr : Nat)
    (h : Parse strtof ex m0 data = .ok out)
    (hl : lineStarts data = pre ++ ptr :: post)
    (hneg : HasCheckedNegative (declares (splitBuffer data) .texcoord pre)
      (declares (splitBuffer data) .normal pre) (lineAt (splitBuffer data) ptr))
    (hk : kindAt (splitBuffer data) ptr = .face) :
    out.succ = false ∧ out.names = [] := by
  cases hs : out.succ with
  | false =>
    obtain ⟨_, _, _, _, _, _, _, _, _, _, _, hn⟩ := Parse_fail h hs
    exact ⟨rfl, hn⟩
  | true =>
    exfalso
    obtain ⟨evs, _, _, hev, _, _, _, _, hfaces, _⟩ := Parse_succ h hs
    unfold textEvents at hev
    rw [hl] at hev
    obtain ⟨e1, e2, he, _, h2⟩ := readLines_append pre (ptr :: post) hev
    simp only [Bool.false_or, readLines] at h2
    split at h2
    · cases h2
    · rename_i ev hread
      have hkind := readLine_kind hread
      rw [hk] at hkind
      split at h2
      · cases h2
      · rename_i evs2 _
        cases h2
        cases ev with
        | face tri neg =>
          have hnegf : neg = false := hfaces tri neg (by rw [he]; simp)
          subst hnegf
          exact readFace_not_negative (readLine_face hread) hneg
        | _ => simp [Event.kind] at hkind

/-- C3, witness: the last face of `sampleNegativeAfterBlock` has the second
vertex index -1, after a valid face and two material markers. -/
theorem Parse_rejects_checked_negative_witness :
    Parse strtofInteger false [] sampleNegativeAfterBlock =
        .ok sampleNegativeAfterBlockResult ∧
      lineStarts sampleNegativeAfterBlock = [0, 8, 15, 24, 33, 53] ++ 62 :: [] ∧
      HasCheckedNegative
        (declares (splitBuffer sampleNegativeAfterBlock) .texcoord [0, 8, 15, 24, 33, 53])
        (declares (splitBuffer sampleNegativeAfterBlock) .normal [0, 8, 15, 24, 33, 53])
        (lineAt (splitBuffer sampleNegativeAfterBlock) 62) ∧
      kindAt (splitBuffer sampleNegativeAfterBlock) 62 = .face ∧
      (sampleNegativeAfterBlockResult.succ = false ∧
        sampleNegativeAfterBlockResult.names = []) :=
  have hneg : HasCheckedNegative
      (declares (splitBuffer sampleNegativeAfterBlock) .texcoord [0, 8, 15, 24, 33, 53])
      (declares (splitBuffer sampleNegativeAfterBlock) .normal [0, 8, 15, 24, 33, 53])
      (lineAt (splitBuffer sampleNegativeAfterBlock) 62) :=
    ⟨some " 1 1 1 -1 1 1 1 1 1".toList, [1, 1, 1, -1, 1, 1, 1, 1, 1], -1, rfl, rfl,
      by decide, by decide⟩
  ⟨rfl, rfl, hneg, rfl,
    Parse_rejects_checked_negative strtofInteger false [] sampleNegativeAfterBlock
      sampleNegativeAfterBlockResult [0, 8, 15, 24, 33, 53] [] 62 rfl rfl hneg rfl⟩

/-- C4, code defect.  A text with one material boundary on which `Parse`
succeeds and yet returns one material name for two submeshes: the faces ahead
of the first `usemtl` line are emitted as a submesh of their own, for which no
name is recorded, against the assertion of `CreatePBRMesh`. -/
theorem Parse_names_fewer_than_submeshes :
    usemtlLineCount sampleFaceBeforeMarker = 1 ∧
      Parse strtofInteger false [] sampleFaceBeforeMarker =
        .ok sampleFaceBeforeMarkerResult ∧
      sampleFaceBeforeMarkerResult.succ = true ∧
      sampleFaceBeforeMarkerResult.names.length = 1 ∧
      sampleFaceBeforeMarkerResult.m_submeshes.length = 2 :=
  ⟨rfl, rfl, rfl, rfl, rfl⟩

/-- C5.  On a text with `N` face lines on which `Parse` succeeds, the vertex
counts of the submeshes that the call appends to the mesh sum to `3 * N`. -/
theorem Parse_vertex_total {F : Type} (strtof : List Char → Option (F × List Char))
    (ex : Bool) (m0 : List (SubMesh F)) (data : List Char) (out : ParseResult F)
    (h : Parse strtof ex m0 data = .ok out) (hs : out.succ = true) :
    ∃ emitted, out.m_submeshes = m0 ++ emitted ∧
      vertexTotal emitted = 3 * faceLineCount data := by
  obtain ⟨evs, added, sm, hev, _, hsub, hf, hlast, _, _⟩ := Parse_succ h hs
  refine ⟨added ++ [sm], by rw [hsub, List.append_assoc], ?_⟩
  have h1 := vertexTotal_of_holds hf
  have h2 := HoldsFaces.vertex_count hlast
  have h3 := blocks_count evs []
  have h4 := faces_of_kinds hev
  rw [sum_length_filter_nonempty] at h1
  rw [vertexTotal_append, h1]
  simp only [vertexTotal, List.map_cons, List.map_nil, List.sum_cons, List.sum_nil, h2]
  simp only [List.length_nil, Nat.zero_add] at h3
  unfold faceLineCount
  omega

/-- C5, witness: two material blocks of one face each give six vertices. -/
theorem Parse_vertex_total_witness :
    Parse strtofInteger false [] sampleTwoMaterials = .ok sampleTwoMaterialsResult ∧
      sampleTwoMaterialsResult.succ = true ∧
      ∃ emitted, sampleTwoMaterialsResult.m_submeshes = [] ++ emitted ∧
        vertexTotal emitted = 3 * faceLineCount sampleTwoMaterials :=
  ⟨rfl, rfl,
    Parse_vertex_total strtofInteger false [] sampleTwoMaterials sampleTwoMaterialsResult
      rfl rfl⟩

/-- C7, counterexample.  `Parse` fails on the negative index of the second
material block, and the submesh emitted for the first block is still in the
mesh, which started with no submesh. -/
theorem Parse_failure_leaves_submesh :
    Parse strtofInteger false [] sampleNegativeAfterBlock =
        .ok sampleNegativeAfterBlockResult ∧
      sampleNegativeAfterBlockResult.succ = false ∧
      sampleNegativeAfterBlockResult.m_submeshes.length = 1 ∧
      sampleNegativeAfterBlockResult.m_submeshes ≠ [] :=
  ⟨rfl, rfl, rfl, by decide⟩

theorem badLine_unique {F : Type} {strtof : List Char → Option (F × List Char)}
    {buf : List Char} {pre pre2 post post2 : List Nat} {ptr ptr2 : Nat}
    {evs2 : List (Event F)} {tri : ObjTri}
    (hl : pre ++ ptr :: post = pre2 ++ ptr2 :: post2) (hlong : pre.length < pre2.length)
    (hbad : readLine strtof buf (declares buf .texcoord pre) (declares buf .normal pre) ptr =
      .ok (.face tri true))
    (hev2 : readLines strtof buf pre2 false false = .ok evs2) :
    Event.face tri true ∈ evs2 := by
  rcases List.append_eq_append_iff.1 hl with ⟨a, ha, hb⟩ | ⟨c, hc, _⟩
  · cases a with
    | nil =>
      rw [ha] at hlong
      simp at hlong
    | cons x rest =>
      simp only [List.cons_append, List.cons.injEq] at hb
      rw [ha, ← hb.1] at hev2
      obtain ⟨e1, e2, he, _, h2⟩ := readLines_append pre (ptr :: rest) hev2
      simp only [Bool.false_or, readLines, hbad] at h2
      split at h2
      · cases h2
      · cases h2
        rw [he]
        simp
  · rw [hc] at hlong
    simp at hlong

theorem Parse_fail_first {F : Type} {strtof : List Char → Option (F × List Char)} {ex : Bool}
    {m0 : List (SubMesh F)} {data : List Char} {out : ParseResult F}
    (h : Parse strtof ex m0 data = .ok out) (hs : out.succ = false) :
    ∃ pre ptr post evs tri added, lineStarts data = pre ++ ptr :: post ∧
      readLines strtof (splitBuffer data) pre false false = .ok evs ∧
      (∀ t neg, Event.face t neg ∈ evs → neg = false) ∧
      readLine strtof (splitBuffer data) (declares (splitBuffer data) .texcoord pre)
        (declares (splitBuffer data) .normal pre) ptr = .ok (.face tri true) ∧
      out.m_submeshes = m0 ++ added ∧
      List.Forall₂ (HoldsFaces ex) added
        ((closedBlocks [] evs).filter (fun b => decide (b ≠ []))) ∧
      out.names = [] := by
  unfold Parse at h
  split at h
  · cases h
  · rename_i s hrun
    cases h
    obtain ⟨pre, ptr, post, evs, tri, hls, hevs, ⟨_, _, ⟨added, ha, hf⟩, hnn, hT, hN, _⟩, hbad⟩ :=
      parseLines_true _ hrun
    have hevs1 : readLines strtof (splitBuffer data) pre false false = .ok evs := by
      simpa using hevs
    have hk := readLines_kinds pre hevs1
    rw [hT, hN, any_isTexcoord_of_kinds hk, any_isNormal_of_kinds hk] at hbad
    refine ⟨pre, ptr, post, evs, tri, added, hls, hevs1, hnn, ?_, ha, hf, rfl⟩
    simpa using hbad
  · split at h
    · cases h
    · cases h
      simp at hs

/-- C7, amended.  A failed `Parse` returns no material name and removes no
submesh.  It stopped at the bad face line, which is the first line whose face
record has a negative index in a field that is tested: the lines before it
were read without a fault and none of their face records was rejected.  The
submesh list of the mesh is the initial list followed by the flattening of
every non-empty run of faces that a material boundary closed before that
line.  The bad line is determined by the text: every such split of the lines
is this one. -/
theorem Parse_failure_keeps_blocks {F : Type} (strtof : List Char → Option (F × List Char))
    (ex : Bool) (m0 : List (SubMesh F)) (data : List Char) (out : ParseResult F)
    (h : Parse strtof ex m0 data = .ok out) (hf : out.succ = false) :
    out.names = [] ∧
      ∃ pre ptr post evs tri emitted, lineStarts data = pre ++ ptr :: post ∧
        kindAt (splitBuffer data) ptr = .face ∧
        readLines strtof (splitBuffer data) pre false false = .ok evs ∧
        (∀ t neg, Event.face t neg ∈ evs → neg = false) ∧
        readLine strtof (splitBuffer data) (declares (splitBuffer data) .texcoord pre)
          (declares (splitBuffer data) .normal pre) ptr = .ok (.face tri true) ∧
        out.m_submeshes = m0 ++ emitted ∧
        List.Forall₂ (HoldsFaces ex) emitted
          ((closedBlocks [] evs).filter (fun b => decide (b ≠ []))) ∧
        emitted.length = ((closedBlocks [] evs).filter (fun b => decide (b ≠ []))).length ∧
        ∀ pre2 ptr2 post2 evs2 tri2, lineStarts data = pre2 ++ ptr2 :: post2 →
          readLines strtof (splitBuffer data) pre2 false false = .ok evs2 →
          (∀ t neg, Event.face t neg ∈ evs2 → neg = false) →
          readLine strtof (splitBuffer data) (declares (splitBuffer data) .texcoord pre2)
            (declares (splitBuffer data) .normal pre2) ptr2 = .ok (.face tri2 true) →
          pre2 = pre ∧ ptr2 = ptr ∧ post2 = post ∧ evs2 = evs ∧ tri2 = tri := by
  obtain ⟨pre, ptr, post, evs, tri, added, hl, hev, hnn, hbad, hsub, hall, hn⟩ :=
    Parse_fail_first h hf
  refine ⟨hn, pre, ptr, post, evs, tri, added, hl, ?_, hev, hnn, hbad, hsub, hall,
    hall.length_eq, ?_⟩
  · have hk := readLine_kind hbad
    rw [← hk]
    rfl
  · intro pre2 ptr2 post2 evs2 tri2 hl2 hev2 hnn2 hbad2
    have hsplit : pre ++ ptr :: post = pre2 ++ ptr2 :: post2 := by rw [← hl, hl2]
    have hlen : pre2.length = pre.length := by
      rcases Nat.lt_trichotomy pre.length pre2.length with hlt | heq | hgt
      · have hm := badLine_unique hsplit hlt hbad hev2
        exact absurd (hnn2 tri true hm) (by decide)
      · exact heq.symm
      · have hm := badLine_unique hsplit.symm hgt hbad2 hev
        exact absurd (hnn tri2 true hm) (by decide)
    have hpre : pre2 = pre := by
      have := List.append_inj hsplit hlen.symm
      exact this.1.symm
    subst hpre
    have hrest : ptr :: post = ptr2 :: post2 := List.append_cancel_left hsplit
    simp only [List.cons.injEq] at hrest
    obtain ⟨hp, hq⟩ := hrest
    subst hp
    subst hq
    rw [hev] at hev2
    rw [hbad] at hbad2
    simp only [Except.ok.injEq, Event.face.injEq, and_true] at hev2 hbad2
    exact ⟨rfl, rfl, rfl, hev2.symm, hbad2.symm⟩

/-- C7, witness: the failed parse of `sampleNegativeAfterBlock`, whose bad
line is the seventh; the one run of faces closed before it is that of the
block `A`. -/
theorem Parse_failure_keeps_blocks_witness :
    Parse strtofInteger false [] sampleNegativeAfterBlock =
        .ok sampleNegativeAfterBlockResult ∧
      sampleNegativeAfterBlockResult.succ = false ∧
      lineStarts sampleNegativeAfterBlock = [0, 8, 15, 24, 33, 53] ++ 62 :: [] ∧
      (∃ evs : List (Event Int),
        readLines strtofInteger (splitBuffer sampleNegativeAfterBlock) [0, 8, 15, 24, 33, 53]
          false false = .ok evs ∧
        (closedBlocks [] evs).filter (fun b => decide (b ≠ [])) =
          [[tri9 1 1 1 1 1 1 1 1 1]]) ∧
      (sampleNegativeAfterBlockResult.names = [] ∧
        ∃ pre ptr post evs tri emitted,
          lineStarts sampleNegativeAfterBlock = pre ++ ptr :: post ∧
          kindAt (splitBuffer sampleNegativeAfterBlock) ptr = .face ∧
          readLines strtofInteger (splitBuffer sampleNegativeAfterBlock) pre false false =
            .ok evs ∧
          (∀ t neg, Event.face t neg ∈ evs → neg = false) ∧
          readLine strtofInteger (splitBuffer sampleNegativeAfterBlock)
            (declares (splitBuffer sampleNegativeAfterBlock) .texcoord pre)
            (declares (splitBuffer sampleNegativeAfterBlock) .normal pre) ptr =
            .ok (.face tri true) ∧
          sampleNegativeAfterBlockResult.m_submeshes = [] ++ emitted ∧
          List.Forall₂ (HoldsFaces false) emitted
            ((closedBlocks [] evs).filter (fun b => decide (b ≠ []))) ∧
          emitted.length =
            ((closedBlocks [] evs).filter (fun b => decide (b ≠ []))).length ∧
          ∀ pre2 ptr2 post2 evs2 tri2,
            lineStarts sampleNegativeAfterBlock = pre2 ++ ptr2 :: post2 →
            readLines strtofInteger (splitBuffer sampleNegativeAfterBlock) pre2 false false =
              .ok evs2 →
            (∀ t neg, Event.face t neg ∈ evs2 → neg = false) →
            readLine strtofInteger (splitBuffer sampleNegativeAfterBlock)
              (declares (splitBuffer sampleNegativeAfterBlock) .texcoord pre2)
              (declares (splitBuffer sampleNegativeAfterBlock) .normal pre2) ptr2 =
              .ok (.face tri2 true) →
            pre2 = pre ∧ ptr2 = ptr ∧ post2 = post ∧ evs2 = evs ∧ tri2 = tri) :=
  ⟨rfl, rfl, by decide, ⟨_, rfl, by decide⟩,
    Parse_failure_keeps_blocks strtofInteger false [] sampleNegativeAfterBlock
      sampleNegativeAfterBlockResult rfl rfl⟩

/-- C8, code defect.  The line `usemtl wood/oak` records the material name
`wood oak`: the first loop of `Parse` turns every slash of the buffer into a
blank, also outside face lines. -/
theorem Parse_slash_in_material_name :
    Parse strtofInteger false [] sampleSlashName =
        .ok { names := ["wood oak"], succ := true,
              m_submeshes := [{ m_vertex_count := 0, m_positions := some [],
                                m_texcoords := none, m_normals := none,
                                m_ori_positions := [], m_ori_triangles := [] }] } ∧
      sampleSlashName = "usemtl ".toList ++ "wood/oak".toList ++ ['\n'] ∧
      ("wood oak" : String) ≠ "wood/oak" :=
  ⟨rfl, rfl, by decide⟩

/-! # The program cache -/

theorem lookup_some_mem {α : Type} (map : List (String × α)) (key : String) (value : α)
    (h : map.lookup key = some value) : (key, value) ∈ map := by
  induction map with
  | nil => simp [List.lookup] at h
  | cons e rest ih =>
    obtain ⟨k, v⟩ := e
    simp only [List.lookup] at h
    split at h
    · rename_i heq
      have hk : key = k := by simpa using heq
      cases h
      rw [hk]
      exact List.mem_cons_self _ _
    · exact List.mem_cons_of_mem _ (ih h)

theorem lookup_filter_ne {α : Type} (map : List (String × α)) (key other : String)
    (hne : key ≠ other) :
    (map.filter (fun e => e.1 != other)).lookup key = map.lookup key := by
  induction map with
  | nil => rfl
  | cons e rest ih =>
    obtain ⟨k, v⟩ := e
    by_cases hk : k = other
    · subst hk
      have h1 : ((k, v) :: rest).filter (fun e => e.1 != k) =
          rest.filter (fun e => e.1 != k) := by
        simp
      have h2 : (key == k) = false := by simpa using hne
      rw [h1, ih]
      simp only [List.lookup, h2]
    · have h1 : ((k, v) :: rest).filter (fun e => e.1 != other) =
          (k, v) :: rest.filter (fun e => e.1 != other) := by
        simp [hk]
      rw [h1]
      simp only [List.lookup, ih]

theorem lookup_mapSet_self {α : Type} (map : List (String × α)) (key : String) (value : α) :
    (mapSet map key value).lookup key = some value := by
  simp [mapSet, List.lookup]

theorem lookup_mapSet_ne {α : Type} (map : List (String × α)) (key other : String)
    (value : α) (hne : key ≠ other) :
    (mapSet map other value).lookup key = map.lookup key := by
  have h2 : (key == other) = false := by simpa using hne
  simp only [mapSet, List.lookup, h2]
  exact lookup_filter_ne map key other hne

theorem program_key_ne (vert_file frag_file macros other : String) (h : macros ≠ other) :
    vert_file ++ frag_file ++ macros ≠ vert_file ++ frag_file ++ other := by
  intro heq
  apply h
  have hd := congrArg String.data heq
  simp only [String.data_append, List.append_cancel_left_eq] at hd
  exact String.ext hd

theorem LoadAndCompile_fails (driver : Driver) (n : Nat) (self : Program)
    (vert_file frag_file macros : String)
    (hfail : driver.glCreateProgram n = 0 ∨
      driver.compilesVertex n (fullSource driver macros vert_file) = false ∨
      driver.compilesFragment n (fullSource driver macros frag_file) = false ∨
      driver.linkStatus n (fullSource driver macros vert_file)
        (fullSource driver macros frag_file) = false) :
    (self.LoadAndCompile driver n vert_file frag_file macros).1 = false := by
  unfold Program.LoadAndCompile
  by_cases h0 : driver.glCreateProgram n = 0
  · simp [h0]
  · simp only [h0, if_false]
    cases hv : driver.compilesVertex n (fullSource driver macros vert_file) <;>
      cases hg : driver.compilesFragment n (fullSource driver macros frag_file) <;>
      cases hl : driver.linkStatus n (fullSource driver macros vert_file)
        (fullSource driver macros frag_file) <;>
      simp_all

theorem LoadProgram_miss_compiles (driver : Driver) (r : Renderer)
    (vert_file frag_file macros : String)
    (hmiss : r.m_program_cache.lookup (vert_file ++ frag_file ++ macros) = none) :
    (r.LoadProgram driver vert_file frag_file macros).2.compiles = r.compiles + 1 := by
  unfold Renderer.LoadProgram
  simp only [hmiss]
  split <;> rfl

theorem CacheLive_new : Renderer.new.CacheLive := by
  intro key program hmem
  cases hmem

theorem CacheLive_LoadProgram (driver : Driver) (r : Renderer)
    (vert_file frag_file macros : String) (hlive : r.CacheLive) :
    (r.LoadProgram driver vert_file frag_file macros).2.CacheLive := by
  unfold Renderer.LoadProgram
  simp only
  split
  · exact hlive
  · split
    · intro key program hmem
      simp only [mapSet, List.mem_cons, Prod.mk.injEq, List.mem_filter] at hmem
      simp only [List.length_append, List.length_cons, List.length_nil]
      rcases hmem with ⟨_, hp⟩ | ⟨hm, _⟩
      · omega
      · have := hlive key program hm
        omega
    · exact hlive

/-- C9.  When `LoadProgram` yields a Program for a triple, a second call with
the identical triple returns the same Program and changes nothing, so it does
not compile; a call with the same two paths and a macro string that differs and
was not loaded before misses the cache, compiles once more and, when that
compilation succeeds, returns a distinct Program while the first entry stays
in the cache. -/
theorem LoadProgram_cached_by_triple (driver : Driver) (r r1 : Renderer)
    (vert_file frag_file macros other : String) (p1 : Nat)
    (hlive : r.CacheLive)
    (h1 : r.LoadProgram driver vert_file frag_file macros = (some p1, r1))
    (hne : macros ≠ other)
    (hmiss : r.m_program_cache.lookup (vert_file ++ frag_file ++ other) = none)
    (hok : (Program.new.LoadAndCompile driver r1.compiles vert_file frag_file other).1 = true) :
    r1.LoadProgram driver vert_file frag_file macros = (some p1, r1) ∧
      (r.m_program_cache.lookup (vert_file ++ frag_file ++ macros) = none →
        r1.compiles = r.compiles + 1) ∧
      ∃ p3 r3, r1.LoadProgram driver vert_file frag_file other = (some p3, r3) ∧
        p3 ≠ p1 ∧ r3.compiles = r1.compiles + 1 ∧
        r3.m_program_cache.lookup (vert_file ++ frag_file ++ macros) = some p1 := by
  have hkey := program_key_ne vert_file frag_file macros other hne
  have hcached : r1.m_program_cache.lookup (vert_file ++ frag_file ++ macros) = some p1 ∧
      r1.m_program_cache.lookup (vert_file ++ frag_file ++ other) = none ∧
      p1 < r1.programs.length ∧
      (r.m_program_cache.lookup (vert_file ++ frag_file ++ macros) = none →
        r1.compiles = r.compiles + 1) := by
    unfold Renderer.LoadProgram at h1
    simp only at h1
    split at h1
    · rename_i p hp
      cases h1
      exact ⟨hp, hmiss, hlive _ _ (lookup_some_mem _ _ _ hp), fun hn => by rw [hn] at hp; cases hp⟩
    · rename_i hnone
      split at h1
      · cases h1
        refine ⟨lookup_mapSet_self _ _ _, ?_, by simp, fun _ => rfl⟩
        rw [lookup_mapSet_ne _ _ _ _ (Ne.symm hkey)]
        exact hmiss
      · cases h1
  obtain ⟨hc1, hc2, hlt, hfirst⟩ := hcached
  refine ⟨?_, hfirst, ?_⟩
  · unfold Renderer.LoadProgram
    simp only [hc1]
  · unfold Renderer.LoadProgram
    simp only [hc2]
    split
    · rename_i compiled hcomp
      refine ⟨_, _, rfl, ?_, rfl, ?_⟩
      · omega
      · simp only
        rw [lookup_mapSet_ne _ _ _ _ hkey]
        exact hc1
    · rename_i x hcomp
      rw [hcomp] at hok
      cases hok

/-- C9, witness: three calls on a fresh renderer with a driver that accepts
every shader. -/
theorem LoadProgram_cached_by_triple_witness :
    Renderer.new.CacheLive ∧
      Renderer.new.LoadProgram driverAccepting "a.vert" "a.frag" "#define A" =
        (some 0, rendererAfterFirstLoad) ∧
      "#define A" ≠ "#define B" ∧
      Renderer.new.m_program_cache.lookup ("a.vert" ++ "a.frag" ++ "#define B") = none ∧
      (Program.new.LoadAndCompile driverAccepting rendererAfterFirstLoad.compiles
        "a.vert" "a.frag" "#define B").1 = true ∧
      (rendererAfterFirstLoad.LoadProgram driverAccepting "a.vert" "a.frag" "#define A" =
          (some 0, rendererAfterFirstLoad) ∧
        (Renderer.new.m_program_cache.lookup ("a.vert" ++ "a.frag" ++ "#define A") = none →
          rendererAfterFirstLoad.compiles = Renderer.new.compiles + 1) ∧
        ∃ p3 r3,
          rendererAfterFirstLoad.LoadProgram driverAccepting "a.vert" "a.frag" "#define B" =
            (some p3, r3) ∧
          p3 ≠ 0 ∧ r3.compiles = rendererAfterFirstLoad.compiles + 1 ∧
          r3.m_program_cache.lookup ("a.vert" ++ "a.frag" ++ "#define A") = some 0) :=
  have hlive : Renderer.new.CacheLive := by
    intro key program hmem
    cases hmem
  ⟨hlive, rfl, by decide, rfl, rfl,
    LoadProgram_cached_by_triple driverAccepting Renderer.new rendererAfterFirstLoad
      "a.vert" "a.frag" "#define A" "#define B" 0 hlive rfl (by decide) rfl rfl⟩

/-- C10.  When the triple is not cached and the driver creates no program
object, or a shader does not compile, or the program does not link,
`LoadProgram` returns no Program and leaves the cache and the live Programs as
they were; a later call with the same triple calls `LoadAndCompile` again. -/
theorem LoadProgram_failure_not_cached (driver : Driver) (r : Renderer)
    (vert_file frag_file macros : String)
    (hmiss : r.m_program_cache.lookup (vert_file ++ frag_file ++ macros) = none)
    (hfail : driver.glCreateProgram r.compiles = 0 ∨
      driver.compilesVertex r.compiles (fullSource driver macros vert_file) = false ∨
      driver.compilesFragment r.compiles (fullSource driver macros frag_file) = false ∨
      driver.linkStatus r.compiles (fullSource driver macros vert_file)
        (fullSource driver macros frag_file) = false) :
    ∃ r1, r.LoadProgram driver vert_file frag_file macros = (none, r1) ∧
      r1.m_program_cache = r.m_program_cache ∧ r1.programs = r.programs ∧
      r1.compiles = r.compiles + 1 ∧
      (r1.LoadProgram driver vert_file frag_file macros).2.compiles = r1.compiles + 1 := by
  have hf := LoadAndCompile_fails driver r.compiles Program.new vert_file frag_file macros hfail
  have hcall : r.LoadProgram driver vert_file frag_file macros =
      (none, { r with compiles := r.compiles + 1 }) := by
    unfold Renderer.LoadProgram
    simp only [hmiss]
    split
    · rename_i compiled hcomp
      rw [hcomp] at hf
      cases hf
    · rfl
  refine ⟨_, hcall, rfl, rfl, rfl, ?_⟩
  exact LoadProgram_miss_compiles driver _ vert_file frag_file macros hmiss

/-- C10, witness: a driver on which no program links, on a fresh renderer. -/
theorem LoadProgram_failure_not_cached_witness :
    Renderer.new.m_program_cache.lookup ("a.vert" ++ "a.frag" ++ "") = none ∧
      (driverRejecting.glCreateProgram Renderer.new.compiles = 0 ∨
        driverRejecting.compilesVertex Renderer.new.compiles
          (fullSource driverRejecting "" "a.vert") = false ∨
        driverRejecting.compilesFragment Renderer.new.compiles
          (fullSource driverRejecting "" "a.frag") = false ∨
        driverRejecting.linkStatus Renderer.new.compiles
          (fullSource driverRejecting "" "a.vert")
          (fullSource driverRejecting "" "a.frag") = false) ∧
      ∃ r1, Renderer.new.LoadProgram driverRejecting "a.vert" "a.frag" "" = (none, r1) ∧
        r1.m_program_cache = Renderer.new.m_program_cache ∧
        r1.programs = Renderer.new.programs ∧
        r1.compiles = Renderer.new.compiles + 1 ∧
        (r1.LoadProgram driverRejecting "a.vert" "a.frag" "").2.compiles = r1.compiles + 1 :=
  ⟨rfl, Or.inr (Or.inr (Or.inr rfl)),
    LoadProgram_failure_not_cached driverRejecting Renderer.new "a.vert" "a.frag" "" rfl
      (Or.inr (Or.inr (Or.inr rfl)))⟩

/-! # The matrix cache -/

theorem Mesh.GetTransform_clears {M V Q S : Type} (alg : Linear M V Q S) (mesh : Mesh M V Q) :
    (mesh.GetTransform alg).2.m_transform_dirty = false ∧
      (mesh.GetTransform alg).2.m_transform = (mesh.GetTransform alg).1 ∧
      (mesh.GetTransform alg).2.m_position = mesh.m_position ∧
      (mesh.GetTransform alg).2.m_rotation = mesh.m_rotation ∧
      (mesh.GetTransform alg).2.m_scale = mesh.m_scale := by
  unfold Mesh.GetTransform
  cases h : mesh.m_transform_dirty <;> simp [h]

theorem Mesh.GetTransform_of_clean {M V Q S : Type} (alg : Linear M V Q S)
    (mesh : Mesh M V Q) (h : mesh.m_transform_dirty = false) :
    mesh.GetTransform alg = (mesh.m_transform, mesh) := by
  unfold Mesh.GetTransform
  simp [h]

/-- C17.  A second `GetTransform` with no mutation in between returns the same
matrix as the first and leaves the mesh exactly as the first call left it:
flag, cached matrix and recomputation counter included. -/
theorem Mesh.GetTransform_twice {M V Q S : Type} (alg : Linear M V Q S) (mesh : Mesh M V Q) :
    (mesh.GetTransform alg).2.GetTransform alg =
        ((mesh.GetTransform alg).1, (mesh.GetTransform alg).2) ∧
      ((mesh.GetTransform alg).2.GetTransform alg).2.recomputations =
        (mesh.GetTransform alg).2.recomputations := by
  have h := Mesh.GetTransform_clears alg mesh
  have h1 : (mesh.GetTransform alg).2.GetTransform alg =
      ((mesh.GetTransform alg).1, (mesh.GetTransform alg).2) := by
    rw [Mesh.GetTransform_of_clean alg _ h.1, h.2.1]
  exact ⟨h1, by rw [h1]⟩

/-- What the cached transform must be after a sequence whose last mutation is
`last`. -/
theorem Mesh.run_fresh {M V Q S : Type} (alg : Linear M V Q S) (ops : List (MeshOp M V Q)) :
    ∀ (mesh : Mesh M V Q) (seen : Option (MeshOp M V Q)),
      (∀ op, seen = some op →
        match op with
        | .setTransform m => mesh.m_transform_dirty = false ∧ mesh.m_transform = m
        | _ => mesh.m_transform_dirty = true ∨
            mesh.m_transform = alg.trs mesh.m_position mesh.m_rotation mesh.m_scale) →
      ∀ op, lastMutation seen ops = some op →
        match op with
        | .setTransform m =>
          (mesh.run alg ops).m_transform_dirty = false ∧ (mesh.run alg ops).m_transform = m
        | _ => (mesh.run alg ops).m_transform_dirty = true ∨
            (mesh.run alg ops).m_transform =
              alg.trs (mesh.run alg ops).m_position (mesh.run alg ops).m_rotation
                (mesh.run alg ops).m_scale := by
  induction ops with
  | nil =>
    intro mesh seen hinv op hlast
    simp only [lastMutation] at hlast
    exact hinv op hlast
  | cons o rest ih =>
    intro mesh seen hinv op hlast
    have hrun : mesh.run alg (o :: rest) = (mesh.step alg o).run alg rest := rfl
    rw [hrun]
    cases o with
    | getTransform =>
      simp only [lastMutation] at hlast
      refine ih (mesh.step alg .getTransform) seen ?_ op hlast
      intro op1 hseen
      have h0 := hinv op1 hseen
      have hc := Mesh.GetTransform_clears alg mesh
      cases op1 with
      | setTransform m =>
        simp only [Mesh.step]
        simp only at h0
        unfold Mesh.GetTransform
        simp [h0.1, h0.2]
      | setPosition p =>
        simp only [Mesh.step]
        simp only at h0
        right
        unfold Mesh.GetTransform
        cases hd : mesh.m_transform_dirty
        · simp only [hd] at h0
          simpa using h0
        · simp
      | setRotation p =>
        simp only [Mesh.step]
        simp only at h0
        right
        unfold Mesh.GetTransform
        cases hd : mesh.m_transform_dirty
        · simp only [hd] at h0
          simpa using h0
        · simp
      | setScale p =>
        simp only [Mesh.step]
        simp only at h0
        right
        unfold Mesh.GetTransform
        cases hd : mesh.m_transform_dirty
        · simp only [hd] at h0
          simpa using h0
        · simp
      | getTransform =>
        simp only [Mesh.step]
        simp only at h0
        right
        unfold Mesh.GetTransform
        cases hd : mesh.m_transform_dirty
        · simp only [hd] at h0
          simpa using h0
        · simp
    | setPosition p =>
      simp only [lastMutation] at hlast
      refine ih _ _ ?_ op hlast
      intro op1 hseen
      cases hseen
      simp [Mesh.step, Mesh.SetPosition]
    | setRotation p =>
      simp only [lastMutation] at hlast
      refine ih _ _ ?_ op hlast
      intro op1 hseen
      cases hseen
      simp [Mesh.step, Mesh.SetRotation]
    | setScale p =>
      simp only [lastMutation] at hlast
      refine ih _ _ ?_ op hlast
      intro op1 hseen
      cases hseen
      simp [Mesh.step, Mesh.SetScale]
    | setTransform m =>
      simp only [lastMutation] at hlast
      refine ih _ _ ?_ op hlast
      intro op1 hseen
      cases hseen
      simp [Mesh.step, Mesh.SetTransform]

/-- C18.  After any sequence of `SetPosition`, `SetRotation`, `SetScale`,
`SetTransform` (and reads), `GetTransform` returns the matrix given to
`SetTransform` when that was the last mutation, and translate x rotate x scale
of the current position, rotation and scale when the last mutation was one of
the three setters. -/
theorem Mesh.GetTransform_fresh {M V Q S : Type} (alg : Linear M V Q S) (mesh : Mesh M V Q)
    (ops : List (MeshOp M V Q)) :
    (∀ m, lastMutation none ops = some (.setTransform m) →
        ((mesh.run alg ops).GetTransform alg).1 = m) ∧
      (∀ op, lastMutation none ops = some op → (∀ m, op ≠ .setTransform m) →
        ((mesh.run alg ops).GetTransform alg).1 =
          alg.trs (mesh.run alg ops).m_position (mesh.run alg ops).m_rotation
            (mesh.run alg ops).m_scale) := by
  have hinv := Mesh.run_fresh alg ops mesh none (fun op h => by cases h)
  constructor
  · intro m hlast
    have h := hinv _ hlast
    simp only at h
    rw [Mesh.GetTransform_of_clean alg _ h.1]
    exact h.2
  · intro op hlast hne
    have h := hinv _ hlast
    have hval : (mesh.run alg ops).m_transform_dirty = true ∨
        (mesh.run alg ops).m_transform =
          alg.trs (mesh.run alg ops).m_position (mesh.run alg ops).m_rotation
            (mesh.run alg ops).m_scale := by
      cases op with
      | setTransform m => exact absurd rfl (hne m)
      | _ => exact h
    unfold Mesh.GetTransform
    cases hd : (mesh.run alg ops).m_transform_dirty
    · rcases hval with hv | hv
      · rw [hd] at hv
        cases hv
      · simpa using hv
    · simp

/-- C18, witness: a `SetTransform` after a setter, and a setter after a read. -/
theorem Mesh.GetTransform_fresh_witness :
    (lastMutation none sampleMeshOpsDirect = some (.setTransform 9) ∧
      ((sampleMesh.run sampleLinear sampleMeshOpsDirect).GetTransform sampleLinear).1 = 9) ∧
    (lastMutation none sampleMeshOpsComposed = some (.setScale 2) ∧
      (∀ m : Int, (MeshOp.setScale 2 : MeshOp Int Int Int) ≠ .setTransform m) ∧
      ((sampleMesh.run sampleLinear sampleMeshOpsComposed).GetTransform sampleLinear).1 =
        sampleLinear.trs (sampleMesh.run sampleLinear sampleMeshOpsComposed).m_position
          (sampleMesh.run sampleLinear sampleMeshOpsComposed).m_rotation
          (sampleMesh.run sampleLinear sampleMeshOpsComposed).m_scale ∧
      sampleLinear.trs (sampleMesh.run sampleLinear sampleMeshOpsComposed).m_position
          (sampleMesh.run sampleLinear sampleMeshOpsComposed).m_rotation
          (sampleMesh.run sampleLinear sampleMeshOpsComposed).m_scale = 5) :=
  ⟨⟨rfl, (Mesh.GetTransform_fresh sampleLinear sampleMesh sampleMeshOpsDirect).1 9 rfl⟩,
    ⟨rfl, (fun m h => by cases h),
      (Mesh.GetTransform_fresh sampleLinear sampleMesh sampleMeshOpsComposed).2 _ rfl
        (fun m h => by cases h), by decide⟩⟩

theorem Camera.GetViewMatrix_fields {M V Q S : Type} (alg : Linear M V Q S)
    (c : Camera M V Q) :
    (c.GetViewMatrix alg).2.m_view_matrix = (c.GetViewMatrix alg).1 ∧
      (c.GetViewMatrix alg).2.m_view_matrix_dirty = false ∧
      (c.GetViewMatrix alg).2.m_projection_matrix = c.m_projection_matrix ∧
      (c.GetViewMatrix alg).2.m_view_projection_matrix_dirty =
        c.m_view_projection_matrix_dirty ∧
      (c.GetViewMatrix alg).2.m_position = c.m_position ∧
      (c.GetViewMatrix alg).2.m_rotation = c.m_rotation ∧
      (c.GetViewMatrix alg).2.viewProjectionRecomputations =
        c.viewProjectionRecomputations := by
  unfold Camera.GetViewMatrix
  cases h : c.m_view_matrix_dirty <;> simp [h]

theorem Camera.GetViewProjectionMatrix_dirty {M V Q S : Type} (alg : Linear M V Q S)
    (c : Camera M V Q) (h : c.m_view_projection_matrix_dirty = true) :
    (c.GetViewProjectionMatrix alg).1 =
        alg.mul c.m_projection_matrix (c.GetViewMatrix alg).1 ∧
      (c.GetViewProjectionMatrix alg).2.m_view_projection_matrix_dirty = true ∧
      (c.GetViewProjectionMatrix alg).2.viewProjectionRecomputations =
        c.viewProjectionRecomputations + 1 := by
  obtain ⟨h1, _, h3, h4, _, _, h7⟩ := Camera.GetViewMatrix_fields alg c
  unfold Camera.GetViewProjectionMatrix
  simp only [h, Bool.not_true, Bool.false_eq_true, if_false]
  refine ⟨by rw [h3, h1], ?_, by rw [h7]⟩
  rw [h4, h]

theorem Camera.step_dirty {M V Q S : Type} (alg : Linear M V Q S) (c : Camera M V Q)
    (op : CameraOp M V Q S) (h : c.m_view_projection_matrix_dirty = true) :
    (c.step alg op).m_view_projection_matrix_dirty = true := by
  cases op with
  | getViewMatrix =>
    simp only [Camera.step]
    rw [(Camera.GetViewMatrix_fields alg c).2.2.2.1, h]
  | getViewProjectionMatrix =>
    simp only [Camera.step]
    exact (Camera.GetViewProjectionMatrix_dirty alg c h).2.1
  | _ => rfl

theorem Camera.run_dirty {M V Q S : Type} (alg : Linear M V Q S)
    (ops : List (CameraOp M V Q S)) :
    ∀ c : Camera M V Q, c.m_view_projection_matrix_dirty = true →
      (c.run alg ops).m_view_projection_matrix_dirty = true := by
  induction ops with
  | nil => intro c h; exact h
  | cons op rest ih =>
    intro c h
    exact ih (c.step alg op) (Camera.step_dirty alg c op h)

/-- C19.  For a camera whose view-projection flag is set, as the member
initialiser and the constructor leave it, after any sequence of setter, Make
and read calls `GetViewProjectionMatrix` returns the current projection matrix
times the matrix `GetViewMatrix` returns in that state; right after
`SetPosition(p)` that is projection x inverse(translate(p) x rotate(rotation)). -/
theorem Camera.GetViewProjectionMatrix_fresh {M V Q S : Type} (alg : Linear M V Q S)
    (c0 : Camera M V Q) (ops : List (CameraOp M V Q S))
    (h0 : c0.m_view_projection_matrix_dirty = true) :
    ((c0.run alg ops).GetViewProjectionMatrix alg).1 =
        alg.mul (c0.run alg ops).m_projection_matrix
          ((c0.run alg ops).GetViewMatrix alg).1 ∧
      ∀ p, (((c0.run alg ops).SetPosition p).GetViewProjectionMatrix alg).1 =
        alg.mul (c0.run alg ops).m_projection_matrix
          (alg.inverse (alg.tr p (c0.run alg ops).m_rotation)) := by
  have hd := Camera.run_dirty alg ops c0 h0
  refine ⟨(Camera.GetViewProjectionMatrix_dirty alg _ hd).1, ?_⟩
  intro p
  have h := (Camera.GetViewProjectionMatrix_dirty alg ((c0.run alg ops).SetPosition p) rfl).1
  rw [h]
  simp [Camera.SetPosition, Camera.GetViewMatrix]

/-- C19, witness: the sample camera after a projection change, a read and a
rotation. -/
theorem Camera.GetViewProjectionMatrix_fresh_witness :
    sampleCamera.m_view_projection_matrix_dirty = true ∧
      (((sampleCamera.run sampleLinear sampleCameraOps).GetViewProjectionMatrix
          sampleLinear).1 =
        sampleLinear.mul (sampleCamera.run sampleLinear sampleCameraOps).m_projection_matrix
          ((sampleCamera.run sampleLinear sampleCameraOps).GetViewMatrix sampleLinear).1 ∧
      ∀ p, (((sampleCamera.run sampleLinear sampleCameraOps).SetPosition
          p).GetViewProjectionMatrix sampleLinear).1 =
        sampleLinear.mul (sampleCamera.run sampleLinear sampleCameraOps).m_projection_matrix
          (sampleLinear.inverse (sampleLinear.tr p
            (sampleCamera.run sampleLinear sampleCameraOps).m_rotation))) :=
  ⟨rfl, Camera.GetViewProjectionMatrix_fresh sampleLinear sampleCamera sampleCameraOps rfl⟩

/-- C20, code defect.  `GetViewProjectionMatrix` never clears its dirty flag:
after `SetPosition` the first read leaves the flag set, and the second read,
with no mutation in between, recomputes the product again, so the counter of
recomputations advances by two. -/
theorem Camera.GetViewProjectionMatrix_recomputes {M V Q S : Type} (alg : Linear M V Q S)
    (c : Camera M V Q) (p : V) :
    ((c.SetPosition p).GetViewProjectionMatrix alg).2.m_view_projection_matrix_dirty = true ∧
      (((c.SetPosition p).GetViewProjectionMatrix alg).2.GetViewProjectionMatrix
          alg).2.viewProjectionRecomputations =
        c.viewProjectionRecomputations + 2 := by
  have h1 := Camera.GetViewProjectionMatrix_dirty alg (c.SetPosition p) rfl
  have h2 := Camera.GetViewProjectionMatrix_dirty alg _ h1.2.1
  refine ⟨h1.2.1, ?_⟩
  rw [h2.2.2, h1.2.2]
  rfl

/-! # The texture cache -/

theorem ImageFrame.scanAlpha_iff (image : ImageFrame) :
    image.scanAlpha = true ↔
      ∃ row col, row < image.Height ∧ col < image.Width ∧
        0 < image.alpha row col ∧ image.alpha row col < 255 := by
  unfold ImageFrame.scanAlpha
  simp only [List.any_eq_true, List.mem_range, Bool.and_eq_true, decide_eq_true_eq]
  constructor
  · rintro ⟨row, hr, col, hc, h1, h2⟩
    exact ⟨row, col, hr, hc, h1, h2⟩
  · rintro ⟨row, col, hr, hc, h1, h2⟩
    exact ⟨row, hr, col, hc, h1, h2⟩

/-- When the call that fills the cache passes a flag output, the flag it
reports and caches is the outcome of the alpha scan. -/
theorem LoadTexture_miss_with_flag (images : Images) (r : Renderer) (texture_file : String)
    (b generate_mipmap : Bool) (image : ImageFrame)
    (hmiss : r.m_texture_cache.lookup texture_file = none)
    (himage : images.getImageFrameFromPath texture_file = some image) :
    (r.LoadTexture images texture_file (some b) generate_mipmap).2.1 =
        some (image.hasAlphaFormat && image.scanAlpha) ∧
      (r.LoadTexture images texture_file (some b)
          generate_mipmap).2.2.m_texture_cache.lookup texture_file =
        some { texture := r.textures.length,
               translucent := image.hasAlphaFormat && image.scanAlpha } := by
  unfold Renderer.LoadTexture
  simp only [hmiss, himage, Option.map_some', Option.getD_some]
  exact ⟨trivial, lookup_mapSet_self _ _ _⟩

/-- C11, code defect.  The image `glass.png` has a pixel of alpha 128.  Loaded
first without a flag output, it is cached with the flag false, and a later
call that passes a flag holding true gets false reported on the cache hit. -/
theorem LoadTexture_flag_lost :
    sampleImages.getImageFrameFromPath "glass.png" = some sampleHalfAlpha ∧
      (0 < sampleHalfAlpha.alpha 0 0 ∧ sampleHalfAlpha.alpha 0 0 < 255) ∧
      sampleHalfAlpha.hasAlphaFormat = true ∧
      sampleHalfAlpha.scanAlpha = true ∧
      Renderer.new.LoadTexture sampleImages "glass.png" none true =
        (some 0, none, rendererAfterGlass) ∧
      rendererAfterGlass.m_texture_cache.lookup "glass.png" =
        some { texture := 0, translucent := false } ∧
      rendererAfterGlass.LoadTexture sampleImages "glass.png" (some true) true =
        (some 0, some false, rendererAfterGlass) := by
  refine ⟨rfl, by decide, rfl, by decide, rfl, rfl, rfl⟩

theorem Owns_releaseAssociated (r : Renderer) (path other : String) (ti : TextureInfo)
    (h : r.Owns path ti) (hne : path ≠ other) : (r.releaseAssociated other).Owns path ti := by
  obtain ⟨hl, hlive, hrel, huniq⟩ := h
  unfold Renderer.releaseAssociated
  split
  · rename_i tj hj
    refine ⟨?_, hlive, ?_, ?_⟩
    · simp only
      rw [lookup_filter_ne _ _ _ hne]
      exact hl
    · simp only [List.mem_append, List.mem_singleton, not_or]
      refine ⟨hrel, ?_⟩
      intro heq
      exact hne.symm (huniq other tj (lookup_some_mem _ _ _ hj) heq.symm)
    · intro key t hmem heq
      simp only [List.mem_filter] at hmem
      exact huniq key t hmem.1 heq
  · exact ⟨hl, hlive, hrel, huniq⟩

theorem Owns_destroyMesh (paths : List String) :
    ∀ (r : Renderer) (path : String) (ti : TextureInfo), r.Owns path ti → path ∉ paths →
      (r.destroyMesh paths).Owns path ti := by
  induction paths with
  | nil => intro r path ti h _; exact h
  | cons p rest ih =>
    intro r path ti h hnot
    simp only [List.mem_cons, not_or] at hnot
    exact ih _ path ti (Owns_releaseAssociated r path p ti h hnot.1) hnot.2

theorem Owns_LoadTexture (images : Images) (r : Renderer) (path : String) (ti : TextureInfo)
    (file : String) (flag : Option Bool) (mip : Bool) (h : r.Owns path ti) :
    (r.LoadTexture images file flag mip).2.2.Owns path ti := by
  obtain ⟨hl, hlive, hrel, huniq⟩ := h
  unfold Renderer.LoadTexture
  split
  · exact ⟨hl, hlive, hrel, huniq⟩
  · rename_i hmiss
    split
    · exact ⟨hl, hlive, hrel, huniq⟩
    · have hne : path ≠ file := by
        intro he
        rw [he, hmiss] at hl
        cases hl
      refine ⟨?_, ?_, hrel, ?_⟩
      · simp only
        rw [lookup_mapSet_ne _ _ _ _ hne]
        exact hl
      · simp only [List.length_append, List.length_cons, List.length_nil]
        omega
      · intro key t hmem heq
        simp only [mapSet, List.mem_cons, Prod.mk.injEq, List.mem_filter] at hmem
        rcases hmem with ⟨_, ht⟩ | ⟨hm, _⟩
        · rw [ht] at heq
          simp only at heq
          omega
        · exact huniq key t hm heq

theorem Owns_LoadProgram (driver : Driver) (r : Renderer) (path : String) (ti : TextureInfo)
    (v f m : String) (h : r.Owns path ti) : (r.LoadProgram driver v f m).2.Owns path ti := by
  unfold Renderer.LoadProgram
  simp only
  split
  · exact h
  · split <;> exact h

theorem Owns_step (driver : Driver) (images : Images) (r : Renderer) (path : String)
    (ti : TextureInfo) (op : RendererOp) (h : r.Owns path ti)
    (hop : op.releases path = false) : (r.step driver images op).Owns path ti := by
  cases op with
  | loadTexture file flag mip => exact Owns_LoadTexture images r path ti file flag mip h
  | loadProgram v f m => exact Owns_LoadProgram driver r path ti v f m h
  | addMesh mesh =>
    simp only [Renderer.step, Renderer.AddMesh]
    split
    · exact h
    · split <;> exact h
  | removeMesh mesh =>
    simp only [Renderer.step, Renderer.RemoveMesh]
    split <;> exact h
  | destroyMesh paths =>
    simp only [RendererOp.releases, decide_eq_false_iff_not] at hop
    exact Owns_destroyMesh paths r path ti h hop

/-- C12, counterexample.  The cached entry of `glass.png` is owned by the
cache, and destroying a mesh that lists the path among its associated textures
deletes the texture and erases the entry while the renderer lives on. -/
theorem destroyMesh_releases_cached_texture :
    rendererAfterGlass.Owns "glass.png" { texture := 0, translucent := false } ∧
      (rendererAfterGlass.run driverAccepting sampleImages
        [.destroyMesh ["glass.png"]]).m_texture_cache.lookup "glass.png" = none ∧
      0 ∈ (rendererAfterGlass.run driverAccepting sampleImages
        [.destroyMesh ["glass.png"]]).released := by
  refine ⟨⟨rfl, by decide, by decide, ?_⟩, rfl, by decide⟩
  intro key other hmem _
  simp only [rendererAfterGlass, List.mem_singleton, Prod.mk.injEq] at hmem
  exact hmem.1

/-- C12, amended.  A texture entry that the cache owns stays in the texture
cache, with its texture not deleted, under every sequence of `LoadTexture`,
`LoadProgram`, `AddMesh`, `RemoveMesh` and mesh destructions in which no
destroyed mesh lists the path among its associated textures. -/
theorem Renderer.run_keeps_texture (driver : Driver) (images : Images) (path : String)
    (ti : TextureInfo) (ops : List RendererOp) :
    ∀ r : Renderer, r.Owns path ti → (∀ op ∈ ops, op.releases path = false) →
      (r.run driver images ops).Owns path ti := by
  induction ops with
  | nil => intro r h _; exact h
  | cons op rest ih =>
    intro r h hops
    exact ih (r.step driver images op)
      (Owns_step driver images r path ti op h (hops op (List.mem_cons_self _ _)))
      (fun o ho => hops o (List.mem_cons_of_mem _ ho))

/-- C12, witness: loads, registrations and the destruction of a mesh with
other textures leave the entry of `glass.png` in place. -/
theorem Renderer.run_keeps_texture_witness :
    rendererAfterGlass.Owns "glass.png" { texture := 0, translucent := false } ∧
      (∀ op ∈ sampleRendererOps, op.releases "glass.png" = false) ∧
      (rendererAfterGlass.run driverAccepting sampleImages sampleRendererOps).Owns
        "glass.png" { texture := 0, translucent := false } :=
  have hown : rendererAfterGlass.Owns "glass.png" { texture := 0, translucent := false } := by
    refine ⟨rfl, by decide, by decide, ?_⟩
    intro key other hmem _
    simp only [rendererAfterGlass, List.mem_singleton, Prod.mk.injEq] at hmem
    exact hmem.1
  have hops : ∀ op ∈ sampleRendererOps, op.releases "glass.png" = false := by decide
  ⟨hown, hops,
    Renderer.run_keeps_texture driverAccepting sampleImages "glass.png"
      { texture := 0, translucent := false } sampleRendererOps rendererAfterGlass hown hops⟩

/-! # The material system -/

theorem lookup_mapInsert_self {α : Type} (map : List (String × α)) (key : String) (value : α)
    (h : map.lookup key = none) : (mapInsert map key value).lookup key = some value := by
  induction map with
  | nil => simp [mapInsert, List.lookup]
  | cons e rest ih =>
    obtain ⟨k, v⟩ := e
    simp only [List.lookup] at h
    split at h
    · cases h
    · rename_i hne
      simp only [mapInsert]
      split
      · simp [List.lookup]
      · simp only [List.lookup, hne]
        exact ih h

theorem lookup_mapInsert_ne {α : Type} (map : List (String × α)) (key other : String)
    (value : α) (hne : other ≠ key) :
    (mapInsert map key value).lookup other = map.lookup other := by
  have hb : (other == key) = false := by simpa using hne
  induction map with
  | nil => simp [mapInsert, List.lookup, hb]
  | cons e rest ih =>
    obtain ⟨k, v⟩ := e
    simp only [mapInsert]
    split
    · simp only [List.lookup, hb]
    · simp only [List.lookup, ih]

theorem length_mapInsert {α : Type} (map : List (String × α)) (key : String) (value : α) :
    (mapInsert map key value).length = map.length + 1 := by
  induction map with
  | nil => rfl
  | cons e rest ih =>
    obtain ⟨k, v⟩ := e
    simp only [mapInsert]
    split
    · rfl
    · simp [ih]

theorem lookup_mapReplace_self {α : Type} (map : List (String × α)) (key : String)
    (value stored : α) (h : map.lookup key = some stored) :
    (mapReplace map key value).lookup key = some value := by
  induction map with
  | nil => simp [List.lookup] at h
  | cons e rest ih =>
    obtain ⟨k, v⟩ := e
    simp only [List.lookup] at h
    simp only [mapReplace]
    split at h
    · rename_i heq
      have hk : k = key := by
        have : key = k := by simpa using heq
        exact this.symm
      simp only [hk, if_true, List.lookup, beq_self_eq_true]
    · rename_i hne
      have hk : ¬ k = key := by
        intro he
        rw [he] at hne
        simp at hne
      simp only [hk, if_false, List.lookup, hne]
      exact ih h

theorem lookup_mapReplace_ne {α : Type} (map : List (String × α)) (key other : String)
    (value : α) (hne : other ≠ key) :
    (mapReplace map key value).lookup other = map.lookup other := by
  induction map with
  | nil => rfl
  | cons e rest ih =>
    obtain ⟨k, v⟩ := e
    simp only [mapReplace]
    by_cases hk : k = key
    · subst hk
      have hb : (other == k) = false := by simpa using hne
      simp only [if_true, List.lookup, hb]
      exact ih
    · simp only [hk, if_false, List.lookup, ih]

theorem keys_mapReplace {α : Type} (map : List (String × α)) (key : String) (value : α) :
    (mapReplace map key value).map (fun e => e.1) = map.map (fun e => e.1) := by
  induction map with
  | nil => rfl
  | cons e rest ih =>
    obtain ⟨k, v⟩ := e
    simp only [mapReplace]
    split <;> simp [ih]

theorem length_mapReplace {α : Type} (map : List (String × α)) (key : String) (value : α) :
    (mapReplace map key value).length = map.length := by
  have h := congrArg List.length (keys_mapReplace map key value)
  simpa using h

theorem mapReplace_idem {α : Type} (map : List (String × α)) (key : String) (value : α) :
    mapReplace (mapReplace map key value) key value = mapReplace map key value := by
  induction map with
  | nil => rfl
  | cons e rest ih =>
    obtain ⟨k, v⟩ := e
    simp only [mapReplace]
    by_cases hk : k = key
    · simp only [hk, if_true, mapReplace, ih]
    · simp only [hk, if_false, mapReplace, ih]

theorem mapReplace_absent {α : Type} (map : List (String × α)) (key : String) (value : α)
    (h : map.lookup key = none) : mapReplace map key value = map := by
  induction map with
  | nil => rfl
  | cons e rest ih =>
    obtain ⟨k, v⟩ := e
    simp only [List.lookup] at h
    split at h
    · cases h
    · rename_i hne
      have hk : ¬ k = key := by
        intro he
        rw [he] at hne
        simp at hne
      simp only [mapReplace, hk, if_false, ih h]

theorem mapReplace_mapInsert {α : Type} (map : List (String × α)) (key : String) (value : α)
    (h : map.lookup key = none) :
    mapReplace (mapInsert map key value) key value = mapInsert map key value := by
  induction map with
  | nil => simp [mapInsert, mapReplace]
  | cons e rest ih =>
    obtain ⟨k, v⟩ := e
    have hall := h
    simp only [List.lookup] at h
    split at h
    · cases h
    · rename_i hne
      have hk : ¬ k = key := by
        intro he
        rw [he] at hne
        simp at hne
      simp only [mapInsert]
      split
      · simp only [mapReplace, if_true, hk, if_false, mapReplace_absent rest key value h]
      · simp only [mapReplace, hk, if_false, ih h]

/-- C13.  The three setters are the one `setParam` at their parameter class.
Setting a name that is not stored adds exactly one entry and leaves every other
entry as it was; setting a name stored with the same class replaces its value
in place, with the same keys in the same order; and setting the same name and
value a second time changes nothing. -/
theorem Material.setParam_by_name {M S : Type} (mat : Material M S) (name : String)
    (value : MaterialParam M S) :
    ((∀ v, mat.SetFloatParam name v = mat.setParam name (.float v)) ∧
      (∀ m, mat.SetMatrix4fParam name m = mat.setParam name (.matrix m)) ∧
      (∀ t, mat.SetTextureParam name t = mat.setParam name (.texture t))) ∧
    (mat.m_params.lookup name = none →
      ∃ m1, mat.setParam name value = .ok m1 ∧
        m1.m_params.length = mat.m_params.length + 1 ∧
        m1.m_params.lookup name = some value ∧
        ∀ other, other ≠ name → m1.m_params.lookup other = mat.m_params.lookup other) ∧
    (∀ stored, mat.m_params.lookup name = some stored → stored.sameKind value = true →
      ∃ m1, mat.setParam name value = .ok m1 ∧
        m1.m_params.length = mat.m_params.length ∧
        m1.m_params.map (fun e => e.1) = mat.m_params.map (fun e => e.1) ∧
        m1.m_params.lookup name = some value ∧
        ∀ other, other ≠ name → m1.m_params.lookup other = mat.m_params.lookup other) ∧
    (∀ m1, mat.setParam name value = .ok m1 → m1.setParam name value = .ok m1) := by
  refine ⟨⟨fun _ => rfl, fun _ => rfl, fun _ => rfl⟩, ?_, ?_, ?_⟩
  · intro hnone
    refine ⟨{ mat with m_params := mapInsert mat.m_params name value }, ?_,
      length_mapInsert _ _ _, lookup_mapInsert_self _ _ _ hnone,
      fun other ho => lookup_mapInsert_ne _ _ _ _ ho⟩
    unfold Material.setParam
    simp only [hnone]
  · intro stored hsome hkind
    refine ⟨{ mat with m_params := mapReplace mat.m_params name value }, ?_, ?_,
      keys_mapReplace _ _ _, lookup_mapReplace_self _ _ _ _ hsome,
      fun other ho => lookup_mapReplace_ne _ _ _ _ ho⟩
    · unfold Material.setParam
      simp only [hsome, hkind, if_true]
    · exact length_mapReplace _ _ _
  · intro m1 h
    have hself : value.sameKind value = true := by cases value <;> rfl
    unfold Material.setParam at h
    split at h
    · rename_i stored hsome
      split at h
      · cases h
        unfold Material.setParam
        simp only [lookup_mapReplace_self _ _ _ _ hsome, hself, if_true, mapReplace_idem]
      · cases h
    · rename_i hnone
      cases h
      unfold Material.setParam
      simp only [lookup_mapInsert_self _ _ _ hnone, hself, if_true,
        mapReplace_mapInsert _ _ _ hnone]

theorem activeUnits_append {M S : Type} (a b : List (GLCall M S)) :
    activeUnits (a ++ b) = activeUnits a ++ activeUnits b := by
  induction a with
  | nil => rfl
  | cons c rest ih => cases c <;> simp [activeUnits, ih]

theorem samplerUploads_append {M S : Type} (a b : List (GLCall M S)) :
    samplerUploads (a ++ b) = samplerUploads a ++ samplerUploads b := by
  induction a with
  | nil => rfl
  | cons c rest ih => cases c <;> simp [samplerUploads, ih]

theorem boundTextures_cons {M S : Type} (name : String) (param : MaterialParam M S)
    (rest : List (String × MaterialParam M S)) :
    boundTextures ((name, param) :: rest) =
      if param.isBound then name :: boundTextures rest else boundTextures rest := by
  unfold boundTextures
  by_cases hb : param.isBound = true
  · simp [List.filter, hb]
  · simp [List.filter, hb]

theorem applyParam_units {M S : Type} (program : Program) (r : Renderer) (unit : Nat)
    (name : String) (param : MaterialParam M S) (unit1 : Nat) (calls : List (GLCall M S))
    (h : applyParam program r unit name param = .ok (unit1, calls)) :
    (param.isBound = false ∧ unit1 = unit ∧ activeUnits calls = [] ∧
        samplerUploads calls = []) ∨
      (param.isBound = true ∧ unit1 = unit + 1 ∧ activeUnits calls = [unit] ∧
        samplerUploads calls = [(program.GetUniformLocation name, unit)]) := by
  cases param with
  | float v =>
    simp only [applyParam] at h
    cases h
    exact Or.inl ⟨rfl, rfl, rfl, rfl⟩
  | matrix m =>
    simp only [applyParam] at h
    cases h
    exact Or.inl ⟨rfl, rfl, rfl, rfl⟩
  | texture t =>
    cases t with
    | none =>
      simp only [applyParam] at h
      cases h
      exact Or.inl ⟨rfl, rfl, rfl, rfl⟩
    | some ptr =>
      simp only [applyParam] at h
      cases htex : r.texture ptr with
      | error e =>
        rw [htex] at h
        cases h
      | ok tex =>
        rw [htex] at h
        cases h
        exact Or.inr ⟨rfl, rfl, rfl, rfl⟩

theorem applyParams_units {M S : Type} (program : Program) (r : Renderer)
    (params : List (String × MaterialParam M S)) :
    ∀ (unit unit1 : Nat) (calls : List (GLCall M S)),
      applyParams program r params unit = .ok (unit1, calls) →
      unit1 = unit + (boundTextures params).length ∧
      activeUnits calls = List.range' unit (boundTextures params).length ∧
      samplerUploads calls =
        List.zipWith (fun name u => (program.GetUniformLocation name, u))
          (boundTextures params) (List.range' unit (boundTextures params).length) := by
  induction params with
  | nil =>
    intro unit unit1 calls h
    simp only [applyParams] at h
    cases h
    simp [boundTextures, activeUnits, samplerUploads]
  | cons e rest ih =>
    intro unit unit1 calls h
    obtain ⟨name, param⟩ := e
    simp only [applyParams] at h
    cases hone : applyParam program r unit name param with
    | error e =>
      rw [hone] at h
      cases h
    | ok res =>
      obtain ⟨u1, c1⟩ := res
      rw [hone] at h
      simp only at h
      cases hrest : applyParams program r rest u1 with
      | error e =>
        rw [hrest] at h
        cases h
      | ok res2 =>
        obtain ⟨u2, c2⟩ := res2
        rw [hrest] at h
        simp only [Except.ok.injEq, Prod.mk.injEq] at h
        obtain ⟨hunit, hcalls⟩ := h
        rw [← hunit, ← hcalls]
        obtain ⟨hu, ha, hs⟩ := ih u1 u2 c2 hrest
        rw [activeUnits_append, samplerUploads_append, boundTextures_cons]
        rcases applyParam_units program r unit name param u1 c1 hone with
          ⟨hb, h1, h2, h3⟩ | ⟨hb, h1, h2, h3⟩
        · subst h1
          rw [hb, h2, h3]
          simpa using ⟨hu, ha, hs⟩
        · subst h1
          rw [hb, h2, h3]
          simp only [if_true, List.length_cons, List.range'_succ, List.zipWith_cons_cons,
            List.cons_append, List.nil_append, ha, hs]
          refine ⟨by omega, trivial, trivial⟩

theorem setParam_fields {M S : Type} {mat m1 : Material M S} {name : String}
    {value : MaterialParam M S} (h : mat.setParam name value = .ok m1) :
    m1.m_program = mat.m_program ∧ m1.m_idle_texture_unit = mat.m_idle_texture_unit ∧
      m1.m_translucent = mat.m_translucent := by
  unfold Material.setParam at h
  split at h
  · split at h
    · cases h
      exact ⟨rfl, rfl, rfl⟩
    · cases h
  · cases h
    exact ⟨rfl, rfl, rfl⟩

theorem updateBuiltin_fields {M V Q S : Type} {alg : Linear M V Q S} {images : Images}
    {state next : Scene M V Q × Material M S} {name : String}
    (h : updateBuiltin alg images state name = .ok next) :
    next.2.m_program = state.2.m_program ∧
      next.2.m_idle_texture_unit = state.2.m_idle_texture_unit ∧
      next.2.m_translucent = state.2.m_translucent := by
  unfold updateBuiltin at h
  split at h
  · cases h
  · cases h
    exact ⟨rfl, rfl, rfl⟩
  · split at h
    · cases h
    · rename_i material hset
      cases h
      exact setParam_fields hset

theorem UpdateBuiltinUniforms_fields {M V Q S : Type} {alg : Linear M V Q S}
    {images : Images} (names : List String) :
    ∀ {state next : Scene M V Q × Material M S},
      UpdateBuiltinUniforms alg images names state = .ok next →
      next.2.m_program = state.2.m_program ∧
        next.2.m_idle_texture_unit = state.2.m_idle_texture_unit ∧
        next.2.m_translucent = state.2.m_translucent := by
  induction names with
  | nil =>
    intro state next h
    simp only [UpdateBuiltinUniforms] at h
    cases h
    exact ⟨rfl, rfl, rfl⟩
  | cons name rest ih =>
    intro state next h
    simp only [UpdateBuiltinUniforms] at h
    split at h
    · cases h
    · rename_i mid hmid
      obtain ⟨a, b, c⟩ := updateBuiltin_fields hmid
      obtain ⟨a1, b1, c1⟩ := ih h
      exact ⟨a1.trans a, b1.trans b, c1.trans c⟩

theorem lookup_none_not_mem {α : Type} (map : List (String × α)) (key : String)
    (h : map.lookup key = none) : ∀ e ∈ map, e.1 ≠ key := by
  induction map with
  | nil => intro e he; cases he
  | cons x rest ih =>
    obtain ⟨k, v⟩ := x
    simp only [List.lookup] at h
    split at h
    · cases h
    · rename_i hne
      intro e he
      rcases List.mem_cons.1 he with he | he
      · subst he
        intro hk
        simp only at hk
        rw [hk] at hne
        simp at hne
      · exact ih h e he

theorem mem_mapInsert {α : Type} (map : List (String × α)) (key : String) (value : α)
    (e : String × α) : e ∈ mapInsert map key value ↔ e = (key, value) ∨ e ∈ map := by
  induction map with
  | nil => simp [mapInsert]
  | cons x rest ih =>
    obtain ⟨k, v⟩ := x
    simp only [mapInsert]
    split
    · simp
    · simp only [List.mem_cons, ih]
      tauto

theorem KeysSorted_mapInsert {α : Type} (map : List (String × α)) (key : String) (value : α)
    (hs : KeysSorted map) (h : map.lookup key = none) : KeysSorted (mapInsert map key value) := by
  induction map with
  | nil => simp [mapInsert, KeysSorted]
  | cons x rest ih =>
    obtain ⟨k, v⟩ := x
    have hne := lookup_none_not_mem _ _ h
    unfold KeysSorted at hs ih ⊢
    rw [List.pairwise_cons] at hs
    simp only [mapInsert]
    split
    · rename_i hlt
      rw [List.pairwise_cons]
      refine ⟨?_, List.pairwise_cons.2 hs⟩
      intro e he
      rcases List.mem_cons.1 he with he | he
      · subst he
        exact hlt
      · exact String.lt_iff_toList_lt.1
          (lt_trans (String.lt_iff_toList_lt.2 hlt) (String.lt_iff_toList_lt.2 (hs.1 e he)))
    · rename_i hnlt
      have hk : k ≠ key := hne (k, v) (List.mem_cons_self _ _)
      have hlt : k.toList < key.toList := by
        rcases lt_trichotomy k key with h1 | h1 | h1
        · exact String.lt_iff_toList_lt.1 h1
        · exact absurd h1 hk
        · exact absurd (String.lt_iff_toList_lt.1 h1) hnlt
      have hrest : rest.lookup key = none := by
        have hb : (key == k) = false := by
          simpa using fun he : key = k => hk he.symm
        simpa [List.lookup, hb] using h
      rw [List.pairwise_cons]
      refine ⟨?_, ih hs.2 hrest⟩
      intro e he
      rcases (mem_mapInsert rest key value e).1 he with he | he
      · subst he
        exact hlt
      · exact hs.1 e he

theorem KeysSorted_of_keys {α β : Type} (a : List (String × α)) (b : List (String × β))
    (h : a.map (fun e => e.1) = b.map (fun e => e.1)) (hs : KeysSorted b) : KeysSorted a := by
  unfold KeysSorted at hs ⊢
  have hb : (b.map (fun e => e.1)).Pairwise (fun x y => x.toList < y.toList) := by
    rw [List.pairwise_map]
    exact hs
  rw [← h, List.pairwise_map] at hb
  exact hb

theorem KeysSorted_setParam {M S : Type} {mat m1 : Material M S} {name : String}
    {value : MaterialParam M S} (h : mat.setParam name value = .ok m1)
    (hs : KeysSorted mat.m_params) : KeysSorted m1.m_params := by
  unfold Material.setParam at h
  split at h
  · split at h
    · cases h
      exact KeysSorted_of_keys _ _ (keys_mapReplace _ _ _) hs
    · cases h
  · rename_i hnone
    cases h
    exact KeysSorted_mapInsert _ _ _ hs hnone

theorem KeysSorted_UpdateBuiltinUniforms {M V Q S : Type} {alg : Linear M V Q S}
    {images : Images} (names : List String) :
    ∀ {state next : Scene M V Q × Material M S},
      UpdateBuiltinUniforms alg images names state = .ok next →
      KeysSorted state.2.m_params → KeysSorted next.2.m_params := by
  induction names with
  | nil =>
    intro state next h hs
    simp only [UpdateBuiltinUniforms] at h
    cases h
    exact hs
  | cons name rest ih =>
    intro state next h hs
    simp only [UpdateBuiltinUniforms] at h
    split at h
    · cases h
    · rename_i mid hmid
      refine ih h ?_
      unfold updateBuiltin at hmid
      split at hmid
      · cases hmid
      · cases hmid
        exact hs
      · split at hmid
        · cases hmid
        · rename_i material hset
          cases hmid
          exact KeysSorted_setParam hset hs

theorem boundTextures_sorted {M S : Type} (params : List (String × MaterialParam M S))
    (hs : KeysSorted params) :
    (boundTextures params).Pairwise (fun a b => a.toList < b.toList) := by
  unfold KeysSorted at hs
  unfold boundTextures
  rw [List.pairwise_map]
  exact hs.sublist (List.filter_sublist _)

/-- What `Apply` returns, in terms of its three stages. -/
theorem Material.Apply_ok {M V Q S : Type} {alg : Linear M V Q S} {images : Images}
    {sc sc1 : Scene M V Q} {mat mat1 : Material M S} {calls : List (GLCall M S)}
    (h : mat.Apply alg images sc = .ok (sc1, mat1, calls)) :
    ∃ program updated unit rest, mat.m_program = some program ∧
      UpdateBuiltinUniforms alg images program.m_builtin_uniforms
        (sc, { mat with m_idle_texture_unit := 0 }) = .ok (sc1, updated) ∧
      applyParams program sc1.renderer updated.m_params 0 = .ok (unit, rest) ∧
      mat1 = { updated with m_idle_texture_unit := unit } ∧
      calls = .glUseProgram program.m_gl_program :: rest := by
  unfold Material.Apply at h
  split at h
  · cases h
  · rename_i program hprog
    split at h
    · cases h
    · rename_i sc2 updated hupd
      have hidle := (UpdateBuiltinUniforms_fields _ hupd).2.1
      simp only at hidle
      rw [hidle] at h
      split at h
      · cases h
      · rename_i unit rest happ
        cases h
        exact ⟨program, updated, unit, rest, hprog, hupd, happ, rfl, rfl⟩

/-- C14.  In every `Apply` that returns, texture-unit allocation starts at 0
whatever the counter held before: the `k` texture parameters with a non-null
texture, taken in the order of the parameter map (name order), are given the
units `0 .. k-1`, each uploaded to the location of its name, and the counter
ends at `k`.  A second `Apply` on the material as the first one left it, with
the same bound textures, selects and uploads the very same units. -/
theorem Material.Apply_units {M V Q S : Type} (alg : Linear M V Q S) (images : Images)
    (sc sc1 : Scene M V Q) (mat mat1 : Material M S) (calls : List (GLCall M S))
    (h : mat.Apply alg images sc = .ok (sc1, mat1, calls)) :
    activeUnits calls = List.range (boundTextures mat1.m_params).length ∧
      (∃ program, mat.m_program = some program ∧
        samplerUploads calls =
          List.zipWith (fun name u => (program.GetUniformLocation name, u))
            (boundTextures mat1.m_params)
            (List.range (boundTextures mat1.m_params).length)) ∧
      mat1.m_idle_texture_unit = (boundTextures mat1.m_params).length ∧
      (KeysSorted mat.m_params →
        (boundTextures mat1.m_params).Pairwise (fun a b => a.toList < b.toList)) ∧
      (∀ sc2 mat2 calls2, mat1.Apply alg images sc1 = .ok (sc2, mat2, calls2) →
        boundTextures mat2.m_params = boundTextures mat1.m_params →
        activeUnits calls2 = activeUnits calls ∧
          samplerUploads calls2 = samplerUploads calls) := by
  obtain ⟨program, updated, unit, rest, hprog, hupd, happ, hm1, hcalls⟩ :=
    Material.Apply_ok h
  obtain ⟨hu, ha, hs⟩ := applyParams_units program sc1.renderer updated.m_params 0 unit rest happ
  have hfields := UpdateBuiltinUniforms_fields _ hupd
  have hp1 : mat1.m_params = updated.m_params := by rw [hm1]
  have hprog1 : mat1.m_program = some program := by
    rw [hm1]
    simp only
    rw [hfields.1]
    exact hprog
  rw [← hp1] at hu ha hs
  simp only [Nat.zero_add] at hu
  rw [← List.range_eq_range'] at ha hs
  have hA : activeUnits calls = List.range (boundTextures mat1.m_params).length := by
    rw [hcalls]
    simpa [activeUnits] using ha
  have hS : samplerUploads calls =
      List.zipWith (fun name u => (program.GetUniformLocation name, u))
        (boundTextures mat1.m_params) (List.range (boundTextures mat1.m_params).length) := by
    rw [hcalls]
    simpa [samplerUploads] using hs
  refine ⟨hA, ⟨program, hprog, hS⟩, ?_, ?_, ?_⟩
  · rw [hm1]
    simp only
    rw [hu, hp1]
  · intro hsorted
    rw [hp1]
    exact boundTextures_sorted _ (KeysSorted_UpdateBuiltinUniforms _ hupd hsorted)
  · intro sc2 mat2 calls2 h2 hsame
    obtain ⟨program2, updated2, unit2, rest2, hprog2, hupd2, happ2, hm2, hcalls2⟩ :=
      Material.Apply_ok h2
    rw [hprog1] at hprog2
    cases hprog2
    obtain ⟨_, ha2, hs2⟩ :=
      applyParams_units program sc2.renderer updated2.m_params 0 unit2 rest2 happ2
    have hp2 : mat2.m_params = updated2.m_params := by rw [hm2]
    rw [← hp2, hsame, ← List.range_eq_range'] at ha2 hs2
    constructor
    · rw [hA, hcalls2]
      simpa [activeUnits] using ha2
    · rw [hS, hcalls2]
      simpa [samplerUploads] using hs2

/-- C13, witness: a new name and a stored name on the sample material. -/
theorem Material.setParam_by_name_witness :
    sampleMaterial.m_params.lookup "roughness" = none ∧
      (∃ m1, sampleMaterial.setParam "roughness" (.float 3) = .ok m1 ∧
        m1.m_params.length = sampleMaterial.m_params.length + 1 ∧
        m1.m_params.lookup "roughness" = some (.float 3) ∧
        ∀ other, other ≠ "roughness" →
          m1.m_params.lookup other = sampleMaterial.m_params.lookup other) ∧
      sampleMaterial.m_params.lookup "baseMap" = some (.texture (some 0)) ∧
      (MaterialParam.texture (some 0) : MaterialParam Int Int).sameKind (.texture none) = true ∧
      (∃ m1, sampleMaterial.setParam "baseMap" (.texture none) = .ok m1 ∧
        m1.m_params.length = sampleMaterial.m_params.length ∧
        m1.m_params.map (fun e => e.1) = sampleMaterial.m_params.map (fun e => e.1) ∧
        m1.m_params.lookup "baseMap" = some (.texture none) ∧
        ∀ other, other ≠ "baseMap" →
          m1.m_params.lookup other = sampleMaterial.m_params.lookup other) :=
  ⟨rfl, (Material.setParam_by_name sampleMaterial "roughness" (.float 3)).2.1 rfl, rfl, rfl,
    (Material.setParam_by_name sampleMaterial "baseMap" (.texture none)).2.2.1
      (.texture (some 0)) rfl rfl⟩

/-- C14, witness: the sample material, whose counter held 5, applied twice;
its two textures take the units 0 and 1 both times. -/
theorem Material.Apply_units_witness :
    sampleMaterial.Apply sampleLinear sampleImages sampleScene =
        .ok (sampleSceneApplied, sampleMaterialApplied, sampleCalls) ∧
      KeysSorted sampleMaterial.m_params ∧
      sampleMaterialApplied.Apply sampleLinear sampleImages sampleSceneApplied =
        .ok (sampleSceneApplied, sampleMaterialApplied, sampleCalls) ∧
      activeUnits sampleCalls = List.range (boundTextures sampleMaterialApplied.m_params).length ∧
      sampleMaterialApplied.m_idle_texture_unit =
        (boundTextures sampleMaterialApplied.m_params).length ∧
      (boundTextures sampleMaterialApplied.m_params).Pairwise
        (fun a b => a.toList < b.toList) ∧
      activeUnits sampleCalls = activeUnits sampleCalls ∧
      samplerUploads sampleCalls = samplerUploads sampleCalls :=
  ⟨rfl, by unfold KeysSorted sampleMaterial; decide, rfl,
    (Material.Apply_units sampleLinear sampleImages sampleScene sampleSceneApplied
      sampleMaterial sampleMaterialApplied sampleCalls rfl).1,
    (Material.Apply_units sampleLinear sampleImages sampleScene sampleSceneApplied
      sampleMaterial sampleMaterialApplied sampleCalls rfl).2.2.1,
    (Material.Apply_units sampleLinear sampleImages sampleScene sampleSceneApplied
      sampleMaterial sampleMaterialApplied sampleCalls rfl).2.2.2.1
      (by unfold KeysSorted sampleMaterial; decide),
    (Material.Apply_units sampleLinear sampleImages sampleScene sampleSceneApplied
      sampleMaterial sampleMaterialApplied sampleCalls rfl).2.2.2.2
      sampleSceneApplied sampleMaterialApplied sampleCalls rfl rfl⟩

theorem mapErase_cons {α : Type} (k : String) (v : α) (rest : List (String × α))
    (name : String) :
    mapErase ((k, v) :: rest) name =
      if k = name then mapErase rest name else (k, v) :: mapErase rest name := by
  unfold mapErase
  by_cases hk : k = name
  · simp [List.filter, hk]
  · have hb : (k != name) = true := by simpa using hk
    simp [List.filter, hk, hb]

theorem mem_mapErase {α : Type} (map : List (String × α)) (name : String) (e : String × α) :
    e ∈ mapErase map name ↔ e ∈ map ∧ e.1 ≠ name := by
  unfold mapErase
  simp [List.mem_filter]

theorem lookup_mapErase_ne {α : Type} (map : List (String × α)) (name key : String)
    (h : key ≠ name) : (mapErase map name).lookup key = map.lookup key := by
  induction map with
  | nil => rfl
  | cons x rest ih =>
    obtain ⟨k, v⟩ := x
    rw [mapErase_cons]
    by_cases hk : k = name
    · have hb : (key == k) = false := by
        simpa using fun he : key = k => h (he.trans hk)
      simp only [hk, if_true, List.lookup]
      rw [← hk, hb]
      simpa [hk] using ih
    · simp only [hk, if_false, List.lookup]
      rw [ih]

theorem mapErase_mapReplace {α : Type} (map : List (String × α)) (name key : String)
    (value : α) :
    mapErase (mapReplace map key value) name = mapReplace (mapErase map name) key value := by
  induction map with
  | nil => rfl
  | cons x rest ih =>
    obtain ⟨k, v⟩ := x
    by_cases hk : k = key
    · by_cases hn : k = name
      · rw [mapReplace, if_pos hk, mapErase_cons, if_pos hn, mapErase_cons, if_pos hn]
        exact ih
      · rw [mapReplace, if_pos hk, mapErase_cons, if_neg hn, mapErase_cons, if_neg hn,
          mapReplace, if_pos hk, ih]
    · by_cases hn : k = name
      · rw [mapReplace, if_neg hk, mapErase_cons, if_pos hn, mapErase_cons, if_pos hn]
        exact ih
      · rw [mapReplace, if_neg hk, mapErase_cons, if_neg hn, mapErase_cons, if_neg hn,
          mapReplace, if_neg hk, ih]

theorem mapInsert_below {α : Type} (map : List (String × α)) (key : String) (value : α)
    (h : ∀ e ∈ map, key.toList < e.1.toList) : mapInsert map key value = (key, value) :: map := by
  cases map with
  | nil => rfl
  | cons x rest =>
    obtain ⟨k, v⟩ := x
    have hk : key.toList < k.toList := h (k, v) (List.mem_cons_self _ _)
    simp only [mapInsert, hk, if_true]

theorem mapErase_mapInsert {α : Type} (map : List (String × α)) (name key : String)
    (value : α) (hne : key ≠ name) (hs : KeysSorted map) :
    mapErase (mapInsert map key value) name = mapInsert (mapErase map name) key value := by
  induction map with
  | nil =>
    simp only [mapInsert, mapErase_cons, hne, if_false]
    rfl
  | cons x rest ih =>
    obtain ⟨k, v⟩ := x
    unfold KeysSorted at hs ih
    rw [List.pairwise_cons] at hs
    simp only [mapInsert]
    by_cases hlt : key.toList < k.toList
    · simp only [hlt, if_true]
      rw [mapErase_cons, if_neg hne, mapErase_cons]
      by_cases hn : k = name
      · simp only [hn, if_true]
        rw [mapInsert_below]
        intro e he
        have hmem := ((mem_mapErase rest name e).1 he).1
        exact String.lt_iff_toList_lt.1
          (lt_trans (String.lt_iff_toList_lt.2 hlt) (String.lt_iff_toList_lt.2 (hs.1 e hmem)))
      · simp only [hn, if_false, mapInsert, hlt, if_true]
    · simp only [hlt, if_false]
      rw [mapErase_cons, mapErase_cons]
      by_cases hn : k = name
      · simp only [hn, if_true]
        exact ih hs.2
      · simp only [hn, if_false, mapInsert, hlt]
        rw [ih hs.2]

theorem setParam_without {M S : Type} (mat : Material M S) (name key : String)
    (value : MaterialParam M S) (hne : key ≠ name) (hs : KeysSorted mat.m_params) :
    (mat.without name).setParam key value =
      match mat.setParam key value with
      | .ok m1 => .ok (m1.without name)
      | .error e => .error e := by
  unfold Material.setParam Material.without
  simp only [lookup_mapErase_ne _ _ _ hne]
  cases hl : mat.m_params.lookup key with
  | none =>
    simp only
    rw [mapErase_mapInsert _ _ _ _ hne hs]
  | some stored =>
    simp only
    by_cases hk : stored.sameKind value = true
    · simp only [hk, if_true]
      rw [mapErase_mapReplace]
    · simp only [hk]
      rfl

theorem UpdateBuiltinUniforms_without {M V Q S : Type} (alg : Linear M V Q S)
    (images : Images) (name : String) (names : List String) (hnames : name ∉ names) :
    ∀ (sc : Scene M V Q) (mat : Material M S), KeysSorted mat.m_params →
      UpdateBuiltinUniforms alg images names (sc, mat.without name) =
        match UpdateBuiltinUniforms alg images names (sc, mat) with
        | .ok (sc1, m1) => .ok (sc1, m1.without name)
        | .error e => .error e := by
  induction names with
  | nil =>
    intro sc mat _
    rfl
  | cons b rest ih =>
    intro sc mat hs
    have hb : b ≠ name := fun h => hnames (h ▸ List.mem_cons_self _ _)
    have hrest : name ∉ rest := fun h => hnames (List.mem_cons_of_mem _ h)
    simp only [UpdateBuiltinUniforms, updateBuiltin]
    cases hv : builtinValue alg images sc b with
    | error e => rfl
    | ok res =>
      obtain ⟨value, sc1⟩ := res
      cases value with
      | none =>
        simp only
        exact ih hrest sc1 mat hs
      | some v =>
        simp only
        rw [setParam_without mat name b v hb hs]
        cases hset : mat.setParam b v with
        | error e => rfl
        | ok m1 =>
          simp only
          exact ih hrest sc1 m1 (KeysSorted_setParam hset hs)

theorem setParam_lookup_other {M S : Type} {mat m1 : Material M S} {key : String}
    {value : MaterialParam M S} (h : mat.setParam key value = .ok m1) (name : String)
    (hne : name ≠ key) : m1.m_params.lookup name = mat.m_params.lookup name := by
  unfold Material.setParam at h
  split at h
  · split at h
    · cases h
      exact lookup_mapReplace_ne _ _ _ _ hne
    · cases h
  · cases h
    exact lookup_mapInsert_ne _ _ _ _ hne

theorem UpdateBuiltinUniforms_lookup_other {M V Q S : Type} {alg : Linear M V Q S}
    {images : Images} (name : String) (names : List String) (hnames : name ∉ names) :
    ∀ {state next : Scene M V Q × Material M S},
      UpdateBuiltinUniforms alg images names state = .ok next →
      next.2.m_params.lookup name = state.2.m_params.lookup name := by
  induction names with
  | nil =>
    intro state next h
    simp only [UpdateBuiltinUniforms] at h
    cases h
    rfl
  | cons b rest ih =>
    intro state next h
    have hb : name ≠ b := fun h => hnames (h ▸ List.mem_cons_self _ _)
    have hrest : name ∉ rest := fun h => hnames (List.mem_cons_of_mem _ h)
    simp only [UpdateBuiltinUniforms] at h
    split at h
    · cases h
    · rename_i mid hmid
      rw [ih hrest h]
      unfold updateBuiltin at hmid
      split at hmid
      · cases hmid
      · cases hmid
        rfl
      · split at hmid
        · cases hmid
        · rename_i material hset
          cases hmid
          exact setParam_lookup_other hset name hb

theorem KeysSorted_mem_lookup {α : Type} (map : List (String × α)) (hs : KeysSorted map)
    (k : String) (v : α) (h : (k, v) ∈ map) : map.lookup k = some v := by
  induction map with
  | nil => cases h
  | cons x rest ih =>
    obtain ⟨k0, v0⟩ := x
    unfold KeysSorted at hs ih
    rw [List.pairwise_cons] at hs
    rcases List.mem_cons.1 h with he | he
    · cases he
      simp [List.lookup]
    · have hlt := hs.1 (k, v) he
      have hne : k ≠ k0 := by
        intro hk
        rw [hk] at hlt
        exact lt_irrefl _ (String.lt_iff_toList_lt.2 hlt)
      have hb : (k == k0) = false := by simpa using hne
      simp only [List.lookup, hb]
      exact ih hs.2 he

theorem filter_isEffective_append {M S : Type} (a b : List (GLCall M S)) :
    (a ++ b).filter GLCall.isEffective =
      a.filter GLCall.isEffective ++ b.filter GLCall.isEffective :=
  List.filter_append _ _

theorem applyParams_without {M S : Type} (program : Program) (r : Renderer) (name : String)
    (hloc : program.GetUniformLocation name = -1)
    (params : List (String × MaterialParam M S))
    (hunbound : ∀ e ∈ params, e.1 = name → e.2.isBound = false) :
    ∀ (unit : Nat),
      (∀ e, applyParams program r params unit = .error e →
        applyParams program r (mapErase params name) unit = .error e) ∧
      (∀ unit1 calls, applyParams program r params unit = .ok (unit1, calls) →
        ∃ calls2, applyParams program r (mapErase params name) unit = .ok (unit1, calls2) ∧
          calls2.filter GLCall.isEffective = calls.filter GLCall.isEffective ∧
          activeUnits calls2 = activeUnits calls ∧
          samplerUploads calls2 = samplerUploads calls) := by
  induction params with
  | nil =>
    intro unit
    constructor
    · intro e h
      exact h
    · intro unit1 calls h
      exact ⟨calls, h, rfl, rfl, rfl⟩
  | cons x rest ih =>
    obtain ⟨k, param⟩ := x
    intro unit
    have hrest : ∀ e ∈ rest, e.1 = name → e.2.isBound = false :=
      fun e he => hunbound e (List.mem_cons_of_mem _ he)
    rw [mapErase_cons]
    by_cases hk : k = name
    · have hb : param.isBound = false := hunbound (k, param) (List.mem_cons_self _ _) hk
      simp only [hk, if_true]
      have hone : ∃ c1 : List (GLCall M S),
          applyParam program r unit name param = .ok (unit, c1) ∧
          c1.filter GLCall.isEffective = [] ∧ activeUnits c1 = [] ∧ samplerUploads c1 = [] := by
        cases param with
        | float v =>
          exact ⟨_, rfl, by simp [GLCall.isEffective, hloc], rfl, rfl⟩
        | matrix m =>
          exact ⟨_, rfl, by simp [GLCall.isEffective, hloc], rfl, rfl⟩
        | texture t =>
          cases t with
          | none => exact ⟨_, rfl, rfl, rfl, rfl⟩
          | some ptr => cases hb
      obtain ⟨c1, hc1, he1, ha1, hs1⟩ := hone
      simp only [applyParams, hc1]
      constructor
      · intro e h
        cases hr : applyParams program r rest unit with
        | error e2 =>
          rw [hr] at h
          have he : e2 = e := Except.error.inj h
          rw [← he]
          exact (ih hrest unit).1 e2 hr
        | ok res =>
          obtain ⟨u2, c2⟩ := res
          rw [hr] at h
          cases h
      · intro unit1 calls h
        cases hr : applyParams program r rest unit with
        | error e2 =>
          rw [hr] at h
          cases h
        | ok res =>
          obtain ⟨u2, c2⟩ := res
          rw [hr] at h
          simp only [Except.ok.injEq, Prod.mk.injEq] at h
          obtain ⟨hu, hc⟩ := h
          obtain ⟨calls2, h2, hf, ha, hs⟩ := (ih hrest unit).2 u2 c2 hr
          refine ⟨calls2, by rw [h2, hu], ?_, ?_, ?_⟩
          · rw [← hc, filter_isEffective_append, he1, hf]
            rfl
          · rw [← hc, activeUnits_append, ha1, ha]
            rfl
          · rw [← hc, samplerUploads_append, hs1, hs]
            rfl
    · simp only [hk, if_false, applyParams]
      cases hone : applyParam program r unit k param with
      | error e1 =>
        constructor
        · intro e h
          exact h
        · intro unit1 calls h
          cases h
      | ok res1 =>
        obtain ⟨u1, c1⟩ := res1
        simp only
        constructor
        · intro e h
          cases hr : applyParams program r rest u1 with
          | error e2 =>
            rw [hr] at h
            have he : e2 = e := Except.error.inj h
            rw [← he, (ih hrest u1).1 e2 hr]
          | ok res =>
            obtain ⟨u2, c2⟩ := res
            rw [hr] at h
            cases h
        · intro unit1 calls h
          cases hr : applyParams program r rest u1 with
          | error e2 =>
            rw [hr] at h
            cases h
          | ok res =>
            obtain ⟨u2, c2⟩ := res
            rw [hr] at h
            simp only [Except.ok.injEq, Prod.mk.injEq] at h
            obtain ⟨hu, hc⟩ := h
            obtain ⟨calls2, h2, hf, ha, hs⟩ := (ih hrest u1).2 u2 c2 hr
            refine ⟨c1 ++ calls2, by rw [h2, hu], ?_, ?_, ?_⟩
            · rw [← hc, filter_isEffective_append, filter_isEffective_append, hf]
            · rw [← hc, activeUnits_append, activeUnits_append, ha]
            · rw [← hc, samplerUploads_append, samplerUploads_append, hs]

/-- C15, counterexample.  The name `ghostMap` is not a uniform of the sample
program, yet the non-null texture stored under it takes the unit 1 on `Apply`:
`rmaMap` is uploaded the unit 2 and the counter ends at 3, where without the
parameter `rmaMap` is uploaded the unit 1 and the counter ends at 2. -/
theorem Material.Apply_stray_texture_takes_unit :
    sampleProgram.m_uniforms.lookup "ghostMap" = none ∧
      sampleMaterialStray.m_program = some sampleProgram ∧
      sampleMaterialStray.m_params.lookup "ghostMap" = some (.texture (some 1)) ∧
      (∃ sc1 mat1 calls1 sc2 mat2 calls2,
        sampleMaterialStray.Apply sampleLinear sampleImages sampleScene =
          .ok (sc1, mat1, calls1) ∧
        (sampleMaterialStray.without "ghostMap").Apply sampleLinear sampleImages sampleScene =
          .ok (sc2, mat2, calls2) ∧
        samplerUploads calls1 = [(1, 0), (-1, 1), (2, 2)] ∧
        samplerUploads calls2 = [(1, 0), (2, 1)] ∧
        activeUnits calls1 = [0, 1, 2] ∧ activeUnits calls2 = [0, 1] ∧
        mat1.m_idle_texture_unit = 3 ∧ mat2.m_idle_texture_unit = 2) :=
  ⟨rfl, rfl, rfl, _, _, _, _, _, _, rfl, rfl, rfl, rfl, rfl, rfl, rfl, rfl⟩

/-- C15, amended.  A float, a matrix or a null texture stored under a name that
is not a uniform of the program is a no-op on `Apply`: on a material whose
parameter map is in key order and whose program lists only active uniforms as
builtins, `Apply` faults exactly when `Apply` on the material without the
parameter faults, and when it returns, the calls that have an effect, the
texture units selected, the sampler uploads, the scene afterwards and the
final unit counter are the same. -/
theorem Material.Apply_unknown_uniform {M V Q S : Type} (alg : Linear M V Q S)
    (images : Images) (sc : Scene M V Q) (mat : Material M S) (program : Program)
    (name : String) (param : MaterialParam M S)
    (hprog : mat.m_program = some program)
    (hsorted : KeysSorted mat.m_params)
    (hactive : ∀ b ∈ program.m_builtin_uniforms, program.m_uniforms.lookup b ≠ none)
    (hmiss : program.m_uniforms.lookup name = none)
    (hstored : mat.m_params.lookup name = some param)
    (hunbound : param.isBound = false) :
    (∀ e, mat.Apply alg images sc = .error e →
        (mat.without name).Apply alg images sc = .error e) ∧
      (∀ sc1 mat1 calls, mat.Apply alg images sc = .ok (sc1, mat1, calls) →
        ∃ calls2,
          (mat.without name).Apply alg images sc = .ok (sc1, mat1.without name, calls2) ∧
          calls2.filter GLCall.isEffective = calls.filter GLCall.isEffective ∧
          activeUnits calls2 = activeUnits calls ∧
          samplerUploads calls2 = samplerUploads calls ∧
          (mat1.without name).m_idle_texture_unit = mat1.m_idle_texture_unit) := by
  have hnames : name ∉ program.m_builtin_uniforms := fun h => hactive name h hmiss
  have hloc : program.GetUniformLocation name = -1 := by
    unfold Program.GetUniformLocation
    rw [hmiss]
  have hs0 : KeysSorted ({ mat with m_idle_texture_unit := 0 } : Material M S).m_params :=
    hsorted
  have hupd := UpdateBuiltinUniforms_without alg images name program.m_builtin_uniforms
    hnames sc { mat with m_idle_texture_unit := 0 } hs0
  have hw : ({ mat.without name with m_idle_texture_unit := 0 } : Material M S) =
      ({ mat with m_idle_texture_unit := 0 } : Material M S).without name := rfl
  have hprogw : (mat.without name).m_program = some program := hprog
  have key : ∀ (sc1 : Scene M V Q) (updated : Material M S),
      UpdateBuiltinUniforms alg images program.m_builtin_uniforms
        (sc, { mat with m_idle_texture_unit := 0 }) = .ok (sc1, updated) →
      updated.m_idle_texture_unit = 0 ∧
        ∀ e ∈ updated.m_params, e.1 = name → e.2.isBound = false := by
    intro sc1 updated hu
    refine ⟨(UpdateBuiltinUniforms_fields _ hu).2.1, ?_⟩
    intro e he hname
    have hsu := KeysSorted_UpdateBuiltinUniforms _ hu hs0
    have hl := UpdateBuiltinUniforms_lookup_other name _ hnames hu
    have hm := KeysSorted_mem_lookup _ hsu e.1 e.2 he
    rw [hname, hl] at hm
    simp only at hm
    rw [hstored] at hm
    cases hm
    exact hunbound
  have hA : ∀ m : Material M S, m.m_program = some program →
      m.Apply alg images sc =
        match UpdateBuiltinUniforms alg images program.m_builtin_uniforms
            (sc, { m with m_idle_texture_unit := 0 }) with
        | .error e => .error e
        | .ok (sc1, updated) =>
          match applyParams program sc1.renderer updated.m_params
              updated.m_idle_texture_unit with
          | .error e => .error e
          | .ok (unit, calls) =>
            .ok (sc1, { updated with m_idle_texture_unit := unit },
              .glUseProgram program.m_gl_program :: calls) := by
    intro m hm
    obtain ⟨p, ps, t, i⟩ := m
    simp only at hm
    subst hm
    rfl
  rw [hA mat hprog, hA (mat.without name) hprogw, hw, hupd]
  cases hu : UpdateBuiltinUniforms alg images program.m_builtin_uniforms
      (sc, { mat with m_idle_texture_unit := 0 }) with
  | error e0 =>
    constructor
    · intro e h
      exact h
    · intro sc1 mat1 calls h
      cases h
  | ok res =>
    obtain ⟨sc1, updated⟩ := res
    obtain ⟨hidle, hunb⟩ := key sc1 updated hu
    have happ := applyParams_without program sc1.renderer name hloc updated.m_params hunb 0
    simp only [Material.without, hidle]
    cases ha : applyParams program sc1.renderer updated.m_params 0 with
    | error e1 =>
      rw [happ.1 e1 ha]
      constructor
      · intro e h
        exact h
      · intro sc2 mat1 calls h
        cases h
    | ok res1 =>
      obtain ⟨unit, calls⟩ := res1
      obtain ⟨calls2, h2, hf, hau, hsu⟩ := happ.2 unit calls ha
      rw [h2]
      constructor
      · intro e h
        cases h
      · intro sc2 mat1 calls0 h
        simp only [Except.ok.injEq, Prod.mk.injEq] at h
        obtain ⟨hsc, hmat, hcalls⟩ := h
        refine ⟨.glUseProgram program.m_gl_program :: calls2, ?_, ?_, ?_, ?_, ?_⟩
        · rw [← hsc, ← hmat]
        · rw [← hcalls]
          simp [List.filter, GLCall.isEffective, hf]
        · rw [← hcalls]
          simpa [activeUnits] using hau
        · rw [← hcalls]
          simpa [samplerUploads] using hsu
        · trivial

/-- C15, witness: the float `ghost` of the sample material, a name that is not
a uniform of the sample program. -/
theorem Material.Apply_unknown_uniform_witness :
    sampleMaterialGhost.m_program = some sampleProgram ∧
      KeysSorted sampleMaterialGhost.m_params ∧
      (∀ b ∈ sampleProgram.m_builtin_uniforms, sampleProgram.m_uniforms.lookup b ≠ none) ∧
      sampleProgram.m_uniforms.lookup "ghost" = none ∧
      sampleMaterialGhost.m_params.lookup "ghost" = some (.float 3) ∧
      (MaterialParam.float 3 : MaterialParam Int Int).isBound = false ∧
      (∃ sc1 mat1 calls,
        sampleMaterialGhost.Apply sampleLinear sampleImages sampleScene =
          .ok (sc1, mat1, calls) ∧
        ∃ calls2,
          (sampleMaterialGhost.without "ghost").Apply sampleLinear sampleImages sampleScene =
            .ok (sc1, mat1.without "ghost", calls2) ∧
          calls2.filter GLCall.isEffective = calls.filter GLCall.isEffective ∧
          activeUnits calls2 = activeUnits calls ∧
          samplerUploads calls2 = samplerUploads calls ∧
          (mat1.without "ghost").m_idle_texture_unit = mat1.m_idle_texture_unit) :=
  ⟨rfl, by unfold KeysSorted sampleMaterialGhost; decide, by decide, rfl, rfl, rfl,
    _, _, _, rfl,
    (Material.Apply_unknown_uniform sampleLinear sampleImages sampleScene sampleMaterialGhost
      sampleProgram "ghost" (.float 3) rfl (by unfold KeysSorted sampleMaterialGhost; decide)
      (by decide) rfl rfl rfl).2 _ _ _ rfl⟩

theorem Camera.getters_stable {M V Q S : Type} (alg : Linear M V Q S) (c : Camera M V Q) :
    (((c.GetViewMatrix alg).2.GetViewMatrix alg).1 = (c.GetViewMatrix alg).1 ∧
      (c.GetViewMatrix alg).2.m_projection_matrix = c.m_projection_matrix ∧
      ((c.GetViewMatrix alg).2.GetViewProjectionMatrix alg).1 =
        (c.GetViewProjectionMatrix alg).1) ∧
    (((c.GetViewProjectionMatrix alg).2.GetViewMatrix alg).1 = (c.GetViewMatrix alg).1 ∧
      (c.GetViewProjectionMatrix alg).2.m_projection_matrix = c.m_projection_matrix ∧
      ((c.GetViewProjectionMatrix alg).2.GetViewProjectionMatrix alg).1 =
        (c.GetViewProjectionMatrix alg).1) := by
  unfold Camera.GetViewProjectionMatrix Camera.GetViewMatrix
  cases h1 : c.m_view_matrix_dirty <;> cases h2 : c.m_view_projection_matrix_dirty <;>
    simp [h1, h2]

theorem Mesh.GetTransform_stable {M V Q S : Type} (alg : Linear M V Q S) (mesh : Mesh M V Q) :
    ((mesh.GetTransform alg).2.GetTransform alg).1 = (mesh.GetTransform alg).1 := by
  unfold Mesh.GetTransform
  cases h : mesh.m_transform_dirty <;> simp [h]

theorem LoadTexture_members (images : Images) (r : Renderer) (texture_file : String)
    (flag : Option Bool) (generate_mipmap : Bool) :
    (r.LoadTexture images texture_file flag generate_mipmap).2.2.m_diffuse_env_texture =
        r.m_diffuse_env_texture ∧
      (r.LoadTexture images texture_file flag generate_mipmap).2.2.m_specular_env_texture =
        r.m_specular_env_texture ∧
      (r.LoadTexture images texture_file flag generate_mipmap).2.2.m_ibl_brdf_lut_texture =
        r.m_ibl_brdf_lut_texture ∧
      (r.LoadTexture images texture_file flag generate_mipmap).2.2.m_ibl_diffuse_env_texture =
        r.m_ibl_diffuse_env_texture ∧
      (r.LoadTexture images texture_file flag generate_mipmap).2.2.m_ibl_specular_env_texture =
        r.m_ibl_specular_env_texture := by
  unfold Renderer.LoadTexture
  split
  · exact ⟨rfl, rfl, rfl, rfl, rfl⟩
  · split
    · exact ⟨rfl, rfl, rfl, rfl, rfl⟩
    · exact ⟨rfl, rfl, rfl, rfl, rfl⟩

theorem LoadCubeTexture_members (images : Images) (r r1 : Renderer) (file : String)
    (chain : Bool) (t : Option Nat) (h : r.LoadCubeTexture images file chain = .ok (t, r1)) :
    r1.m_diffuse_env_texture = r.m_diffuse_env_texture ∧
      r1.m_specular_env_texture = r.m_specular_env_texture ∧
      r1.m_ibl_brdf_lut_texture = r.m_ibl_brdf_lut_texture ∧
      r1.m_ibl_diffuse_env_texture = r.m_ibl_diffuse_env_texture ∧
      r1.m_ibl_specular_env_texture = r.m_ibl_specular_env_texture := by
  unfold Renderer.LoadCubeTexture at h
  split at h
  · cases h
    exact ⟨rfl, rfl, rfl, rfl, rfl⟩
  · split at h
    · cases h
    · cases h
      exact ⟨rfl, rfl, rfl, rfl, rfl⟩

theorem GetDiffuseEnvTexture_members (images : Images) (r : Renderer) :
    (r.GetDiffuseEnvTexture images).2.m_diffuse_env_texture =
        (r.GetDiffuseEnvTexture images).1 ∧
      (r.GetDiffuseEnvTexture images).2.m_specular_env_texture = r.m_specular_env_texture ∧
      (r.GetDiffuseEnvTexture images).2.m_ibl_brdf_lut_texture = r.m_ibl_brdf_lut_texture ∧
      (r.GetDiffuseEnvTexture images).2.m_ibl_diffuse_env_texture =
        r.m_ibl_diffuse_env_texture ∧
      (r.GetDiffuseEnvTexture images).2.m_ibl_specular_env_texture =
        r.m_ibl_specular_env_texture := by
  unfold Renderer.GetDiffuseEnvTexture
  split
  · rename_i t ht
    exact ⟨ht, rfl, rfl, rfl, rfl⟩
  · obtain ⟨_, h2, h3, h4, h5⟩ := LoadTexture_members images r
      (images.CONCAT_RESOURCE_PATH r.m_resource_dir "/textures/diffuse.png") none false
    exact ⟨rfl, h2, h3, h4, h5⟩

theorem GetSpecularEnvTexture_members (images : Images) (r : Renderer) :
    (r.GetSpecularEnvTexture images).2.m_diffuse_env_texture = r.m_diffuse_env_texture ∧
      (r.GetSpecularEnvTexture images).2.m_specular_env_texture =
        (r.GetSpecularEnvTexture images).1 ∧
      (r.GetSpecularEnvTexture images).2.m_ibl_brdf_lut_texture = r.m_ibl_brdf_lut_texture ∧
      (r.GetSpecularEnvTexture images).2.m_ibl_diffuse_env_texture =
        r.m_ibl_diffuse_env_texture ∧
      (r.GetSpecularEnvTexture images).2.m_ibl_specular_env_texture =
        r.m_ibl_specular_env_texture := by
  unfold Renderer.GetSpecularEnvTexture
  split
  · rename_i t ht
    exact ⟨rfl, ht, rfl, rfl, rfl⟩
  · obtain ⟨h1, _, h3, h4, h5⟩ := LoadTexture_members images r
      (images.CONCAT_RESOURCE_PATH r.m_resource_dir "/textures/environment.png") none true
    exact ⟨h1, rfl, h3, h4, h5⟩

theorem GetIblBrdfLutTexture_members (images : Images) (r : Renderer) :
    (r.GetIblBrdfLutTexture images).2.m_diffuse_env_texture = r.m_diffuse_env_texture ∧
      (r.GetIblBrdfLutTexture images).2.m_specular_env_texture = r.m_specular_env_texture ∧
      (r.GetIblBrdfLutTexture images).2.m_ibl_brdf_lut_texture =
        (r.GetIblBrdfLutTexture images).1 ∧
      (r.GetIblBrdfLutTexture images).2.m_ibl_diffuse_env_texture =
        r.m_ibl_diffuse_env_texture ∧
      (r.GetIblBrdfLutTexture images).2.m_ibl_specular_env_texture =
        r.m_ibl_specular_env_texture := by
  unfold Renderer.GetIblBrdfLutTexture
  split
  · rename_i t ht
    exact ⟨rfl, rfl, ht, rfl, rfl⟩
  · obtain ⟨h1, h2, _, h4, h5⟩ := LoadTexture_members images r
      (images.CONCAT_RESOURCE_PATH r.m_resource_dir "/textures/brdfLUT.png") none false
    exact ⟨h1, h2, rfl, h4, h5⟩

theorem GetIblDiffuseEnvTexture_members (images : Images) (r r1 : Renderer) (t : Option Nat)
    (h : r.GetIblDiffuseEnvTexture images = .ok (t, r1)) :
    r1.m_diffuse_env_texture = r.m_diffuse_env_texture ∧
      r1.m_specular_env_texture = r.m_specular_env_texture ∧
      r1.m_ibl_brdf_lut_texture = r.m_ibl_brdf_lut_texture ∧
      r1.m_ibl_diffuse_env_texture = t ∧
      r1.m_ibl_specular_env_texture = r.m_ibl_specular_env_texture := by
  unfold Renderer.GetIblDiffuseEnvTexture at h
  split at h
  · rename_i t0 ht
    cases h
    exact ⟨rfl, rfl, rfl, ht, rfl⟩
  · split at h
    · cases h
    · rename_i t1 r2 hload
      cases h
      obtain ⟨h1, h2, h3, _, h5⟩ := LoadCubeTexture_members images r r2 _ _ _ hload
      exact ⟨h1, h2, h3, rfl, h5⟩

theorem GetIblSpecularEnvTexture_members (images : Images) (r r1 : Renderer) (t : Option Nat)
    (h : r.GetIblSpecularEnvTexture images = .ok (t, r1)) :
    r1.m_diffuse_env_texture = r.m_diffuse_env_texture ∧
      r1.m_specular_env_texture = r.m_specular_env_texture ∧
      r1.m_ibl_brdf_lut_texture = r.m_ibl_brdf_lut_texture ∧
      r1.m_ibl_diffuse_env_texture = r.m_ibl_diffuse_env_texture ∧
      r1.m_ibl_specular_env_texture = t := by
  unfold Renderer.GetIblSpecularEnvTexture at h
  split at h
  · rename_i t0 ht
    cases h
    exact ⟨rfl, rfl, rfl, rfl, ht⟩
  · split at h
    · cases h
    · rename_i t1 r2 hload
      cases h
      obtain ⟨h1, h2, h3, h4, _⟩ := LoadCubeTexture_members images r r2 _ _ _ hload
      exact ⟨h1, h2, h3, h4, rfl⟩

theorem SameMatrices_same {M V Q S : Type} (alg : Linear M V Q S) (a : Scene M V Q) :
    SameMatrices alg a a := ⟨rfl, rfl, rfl, rfl⟩

theorem SameMatrices_chain {M V Q S : Type} {alg : Linear M V Q S} {a b c : Scene M V Q}
    (h1 : SameMatrices alg a b) (h2 : SameMatrices alg b c) : SameMatrices alg a c :=
  ⟨h2.1.trans h1.1, h2.2.1.trans h1.2.1, h2.2.2.1.trans h1.2.2.1, h2.2.2.2.trans h1.2.2.2⟩

theorem EnvFrame_same (changed : String → Prop) (a : Renderer) : EnvFrame changed a a :=
  ⟨fun _ => rfl, fun _ => rfl, fun _ => rfl, fun _ => rfl, fun _ => rfl⟩

theorem EnvFrame_chain {p q s : String → Prop} {a b c : Renderer}
    (h1 : EnvFrame p a b) (h2 : EnvFrame q b c) (hp : ∀ x, p x → s x) (hq : ∀ x, q x → s x) :
    EnvFrame s a c :=
  ⟨fun h => (h2.1 (fun hx => h (hq _ hx))).trans (h1.1 (fun hx => h (hp _ hx))),
    fun h => (h2.2.1 (fun hx => h (hq _ hx))).trans (h1.2.1 (fun hx => h (hp _ hx))),
    fun h => (h2.2.2.1 (fun hx => h (hq _ hx))).trans (h1.2.2.1 (fun hx => h (hp _ hx))),
    fun h => (h2.2.2.2.1 (fun hx => h (hq _ hx))).trans (h1.2.2.2.1 (fun hx => h (hp _ hx))),
    fun h => (h2.2.2.2.2 (fun hx => h (hq _ hx))).trans (h1.2.2.2.2 (fun hx => h (hp _ hx)))⟩

theorem builtinSpec_congr {M V Q S : Type} (alg : Linear M V Q S) (a b after : Scene M V Q)
    (h : SameMatrices alg a b) (name : String) :
    (builtinSpec alg b after name : Option (MaterialParam M S)) =
      builtinSpec alg a after name := by
  obtain ⟨h1, h2, h3, h4⟩ := h
  unfold builtinSpec
  rw [h1, h2, h3, h4]

theorem builtinSpec_frame {M V Q S : Type} (alg : Linear M V Q S)
    (before a b : Scene M V Q) (name : String)
    (h : EnvFrame (fun x => x ≠ name) a.renderer b.renderer) :
    (builtinSpec alg before b name : Option (MaterialParam M S)) =
      builtinSpec alg before a name := by
  obtain ⟨h1, h2, h3, h4, h5⟩ := h
  unfold builtinSpec
  by_cases k1 : name = "matWorld"
  · simp only [if_pos k1]
  · simp only [if_neg k1]
    by_cases k2 : name = "matView"
    · simp only [if_pos k2]
    · simp only [if_neg k2]
      by_cases k3 : name = "matProjection"
      · simp only [if_pos k3]
      · simp only [if_neg k3]
        by_cases k4 : name = "matWorldView"
        · simp only [if_pos k4]
        · simp only [if_neg k4]
          by_cases k5 : name = "matViewProjection"
          · simp only [if_pos k5]
          · simp only [if_neg k5]
            by_cases k6 : name = "matWVP"
            · simp only [if_pos k6]
            · simp only [if_neg k6]
              by_cases k7 : name = "diffuseEnvMap"
              · simp only [if_pos k7]
                rw [h1 (fun hx => hx k7.symm)]
              · simp only [if_neg k7]
                by_cases k8 : name = "specularEnvMap"
                · simp only [if_pos k8]
                  rw [h2 (fun hx => hx k8.symm)]
                · simp only [if_neg k8]
                  by_cases k9 : name = "iblBrdfLutMap"
                  · simp only [if_pos k9]
                    rw [h3 (fun hx => hx k9.symm)]
                  · simp only [if_neg k9]
                    by_cases k10 : name = "iblDiffuseEnvMap"
                    · simp only [if_pos k10]
                      rw [h4 (fun hx => hx k10.symm)]
                    · simp only [if_neg k10]
                      by_cases k11 : name = "iblSpecularEnvMap"
                      · simp only [if_pos k11]
                        rw [h5 (fun hx => hx k11.symm)]
                      · simp only [if_neg k11]

theorem builtinValue_step {M V Q S : Type} (alg : Linear M V Q S) (images : Images)
    (sc sc1 : Scene M V Q) (name : String) (value : Option (MaterialParam M S))
    (h : builtinValue alg images sc name = .ok (value, sc1)) :
    SameMatrices alg sc sc1 ∧ EnvFrame (fun x => x = name) sc.renderer sc1.renderer ∧
      value = builtinSpec alg sc sc1 name := by
  obtain ⟨⟨v1, v2, v3⟩, ⟨p1, p2, p3⟩⟩ := Camera.getters_stable alg sc.camera
  have w1 := Mesh.GetTransform_stable alg sc.mesh
  unfold builtinValue at h
  unfold builtinSpec
  by_cases k1 : name = "matWorld"
  · rw [if_pos k1] at h
    rw [if_pos k1]
    simp only [Except.ok.injEq, Prod.mk.injEq] at h
    obtain ⟨hv, hs⟩ := h
    rw [← hs, ← hv]
    exact ⟨⟨w1, rfl, rfl, rfl⟩, EnvFrame_same _ _, rfl⟩
  · rw [if_neg k1] at h
    rw [if_neg k1]
    by_cases k2 : name = "matView"
    · rw [if_pos k2] at h
      rw [if_pos k2]
      simp only [Except.ok.injEq, Prod.mk.injEq] at h
      obtain ⟨hv, hs⟩ := h
      rw [← hs, ← hv]
      exact ⟨⟨rfl, v1, v2, v3⟩, EnvFrame_same _ _, rfl⟩
    · rw [if_neg k2] at h
      rw [if_neg k2]
      by_cases k3 : name = "matProjection"
      · rw [if_pos k3] at h
        rw [if_pos k3]
        simp only [Except.ok.injEq, Prod.mk.injEq] at h
        obtain ⟨hv, hs⟩ := h
        rw [← hs, ← hv]
        exact ⟨⟨rfl, rfl, rfl, rfl⟩, EnvFrame_same _ _, rfl⟩
      · rw [if_neg k3] at h
        rw [if_neg k3]
        by_cases k4 : name = "matWorldView"
        · rw [if_pos k4] at h
          rw [if_pos k4]
          simp only [Except.ok.injEq, Prod.mk.injEq] at h
          obtain ⟨hv, hs⟩ := h
          rw [← hs, ← hv]
          exact ⟨⟨w1, v1, v2, v3⟩, EnvFrame_same _ _, rfl⟩
        · rw [if_neg k4] at h
          rw [if_neg k4]
          by_cases k5 : name = "matViewProjection"
          · rw [if_pos k5] at h
            rw [if_pos k5]
            simp only [Except.ok.injEq, Prod.mk.injEq] at h
            obtain ⟨hv, hs⟩ := h
            rw [← hs, ← hv]
            exact ⟨⟨rfl, p1, p2, p3⟩, EnvFrame_same _ _, rfl⟩
          · rw [if_neg k5] at h
            rw [if_neg k5]
            by_cases k6 : name = "matWVP"
            · rw [if_pos k6] at h
              rw [if_pos k6]
              simp only [Except.ok.injEq, Prod.mk.injEq] at h
              obtain ⟨hv, hs⟩ := h
              rw [← hs, ← hv]
              exact ⟨⟨w1, p1, p2, p3⟩, EnvFrame_same _ _, rfl⟩
            · rw [if_neg k6] at h
              rw [if_neg k6]
              by_cases k7 : name = "diffuseEnvMap"
              · rw [if_pos k7] at h
                rw [if_pos k7]
                simp only [Except.ok.injEq, Prod.mk.injEq] at h
                obtain ⟨hv, hs⟩ := h
                obtain ⟨g1, g2, g3, g4, g5⟩ := GetDiffuseEnvTexture_members images sc.renderer
                rw [← hs, ← hv]
                refine ⟨⟨rfl, rfl, rfl, rfl⟩, ⟨fun hx => absurd k7.symm hx, fun _ => g2, fun _ => g3, fun _ => g4, fun _ => g5⟩, ?_⟩
                simp only [g1]
              · rw [if_neg k7] at h
                rw [if_neg k7]
                by_cases k8 : name = "specularEnvMap"
                · rw [if_pos k8] at h
                  rw [if_pos k8]
                  simp only [Except.ok.injEq, Prod.mk.injEq] at h
                  obtain ⟨hv, hs⟩ := h
                  obtain ⟨g1, g2, g3, g4, g5⟩ := GetSpecularEnvTexture_members images sc.renderer
                  rw [← hs, ← hv]
                  refine ⟨⟨rfl, rfl, rfl, rfl⟩, ⟨fun _ => g1, fun hx => absurd k8.symm hx, fun _ => g3, fun _ => g4, fun _ => g5⟩, ?_⟩
                  simp only [g2]
                · rw [if_neg k8] at h
                  rw [if_neg k8]
                  by_cases k9 : name = "iblBrdfLutMap"
                  · rw [if_pos k9] at h
                    rw [if_pos k9]
                    simp only [Except.ok.injEq, Prod.mk.injEq] at h
                    obtain ⟨hv, hs⟩ := h
                    obtain ⟨g1, g2, g3, g4, g5⟩ := GetIblBrdfLutTexture_members images sc.renderer
                    rw [← hs, ← hv]
                    refine ⟨⟨rfl, rfl, rfl, rfl⟩, ⟨fun _ => g1, fun _ => g2, fun hx => absurd k9.symm hx, fun _ => g4, fun _ => g5⟩, ?_⟩
                    simp only [g3]
                  · rw [if_neg k9] at h
                    rw [if_neg k9]
                    by_cases k10 : name = "iblDiffuseEnvMap"
                    · rw [if_pos k10] at h
                      rw [if_pos k10]
                      cases hget : sc.renderer.GetIblDiffuseEnvTexture images with
                      | error e =>
                        rw [hget] at h
                        cases h
                      | ok res =>
                        obtain ⟨t, r1⟩ := res
                        rw [hget] at h
                        simp only [Except.ok.injEq, Prod.mk.injEq] at h
                        obtain ⟨hv, hs⟩ := h
                        obtain ⟨g1, g2, g3, g4, g5⟩ := GetIblDiffuseEnvTexture_members images sc.renderer r1 t hget
                        rw [← hs, ← hv]
                        refine ⟨⟨rfl, rfl, rfl, rfl⟩, ⟨fun _ => g1, fun _ => g2, fun _ => g3, fun hx => absurd k10.symm hx, fun _ => g5⟩, ?_⟩
                        simp only [g4]
                    · rw [if_neg k10] at h
                      rw [if_neg k10]
                      by_cases k11 : name = "iblSpecularEnvMap"
                      · rw [if_pos k11] at h
                        rw [if_pos k11]
                        cases hget : sc.renderer.GetIblSpecularEnvTexture images with
                        | error e =>
                          rw [hget] at h
                          cases h
                        | ok res =>
                          obtain ⟨t, r1⟩ := res
                          rw [hget] at h
                          simp only [Except.ok.injEq, Prod.mk.injEq] at h
                          obtain ⟨hv, hs⟩ := h
                          obtain ⟨g1, g2, g3, g4, g5⟩ := GetIblSpecularEnvTexture_members images sc.renderer r1 t hget
                          rw [← hs, ← hv]
                          refine ⟨⟨rfl, rfl, rfl, rfl⟩, ⟨fun _ => g1, fun _ => g2, fun _ => g3, fun _ => g4, fun hx => absurd k11.symm hx⟩, ?_⟩
                          simp only [g5]
                      · rw [if_neg k11] at h
                        rw [if_neg k11]
                        simp only [Except.ok.injEq, Prod.mk.injEq] at h
                        obtain ⟨hv, hs⟩ := h
                        rw [← hs, ← hv]
                        exact ⟨SameMatrices_same _ _, EnvFrame_same _ _, rfl⟩

theorem setParam_lookup_self {M S : Type} {mat m1 : Material M S} {name : String}
    {value : MaterialParam M S} (h : mat.setParam name value = .ok m1) :
    m1.m_params.lookup name = some value := by
  unfold Material.setParam at h
  split at h
  · rename_i stored hstored
    split at h
    · cases h
      exact lookup_mapReplace_self _ _ _ _ hstored
    · cases h
  · rename_i hnone
    cases h
    exact lookup_mapInsert_self _ _ _ hnone

theorem lookup_mem {α : Type} (map : List (String × α)) (key : String) (value : α)
    (h : map.lookup key = some value) : (key, value) ∈ map := by
  induction map with
  | nil => simp [List.lookup] at h
  | cons x rest ih =>
    obtain ⟨k, v⟩ := x
    simp only [List.lookup] at h
    split at h
    · rename_i heq
      have hk : key = k := by simpa using heq
      cases h
      rw [hk]
      exact List.mem_cons_self _ _
    · exact List.mem_cons_of_mem _ (ih h)

theorem Uploaded_append_left {M S : Type} (program : Program) (r : Renderer)
    (calls more : List (GLCall M S)) (name : String) (param : MaterialParam M S)
    (h : Uploaded program r calls name param) : Uploaded program r (calls ++ more) name param := by
  cases param with
  | float v => exact List.mem_append_left _ h
  | matrix m => exact List.mem_append_left _ h
  | texture t =>
    cases t with
    | none => trivial
    | some ptr =>
      obtain ⟨tex, unit, before, after, htex, hcalls⟩ := h
      exact ⟨tex, unit, before, after ++ more, htex, by rw [hcalls]; simp⟩

theorem Uploaded_append_right {M S : Type} (program : Program) (r : Renderer)
    (calls more : List (GLCall M S)) (name : String) (param : MaterialParam M S)
    (h : Uploaded program r calls name param) : Uploaded program r (more ++ calls) name param := by
  cases param with
  | float v => exact List.mem_append_right _ h
  | matrix m => exact List.mem_append_right _ h
  | texture t =>
    cases t with
    | none => trivial
    | some ptr =>
      obtain ⟨tex, unit, before, after, htex, hcalls⟩ := h
      exact ⟨tex, unit, more ++ before, after, htex, by rw [hcalls]; simp⟩

theorem applyParam_uploaded {M S : Type} (program : Program) (r : Renderer) (unit : Nat)
    (name : String) (param : MaterialParam M S) (unit1 : Nat) (calls : List (GLCall M S))
    (h : applyParam program r unit name param = .ok (unit1, calls)) :
    Uploaded program r calls name param := by
  cases param with
  | float v =>
    simp only [applyParam, Except.ok.injEq, Prod.mk.injEq] at h
    rw [← h.2]
    exact List.mem_singleton.2 rfl
  | matrix m =>
    simp only [applyParam, Except.ok.injEq, Prod.mk.injEq] at h
    rw [← h.2]
    exact List.mem_singleton.2 rfl
  | texture t =>
    cases t with
    | none => trivial
    | some ptr =>
      simp only [applyParam] at h
      cases htex : r.texture ptr with
      | error e =>
        rw [htex] at h
        cases h
      | ok tex =>
        rw [htex] at h
        simp only [Except.ok.injEq, Prod.mk.injEq] at h
        exact ⟨tex, unit, [], [], htex, by rw [← h.2]; rfl⟩

theorem applyParams_uploaded {M S : Type} (program : Program) (r : Renderer)
    (params : List (String × MaterialParam M S)) :
    ∀ (unit unit1 : Nat) (calls : List (GLCall M S)),
      applyParams program r params unit = .ok (unit1, calls) →
      ∀ name param, (name, param) ∈ params → Uploaded program r calls name param := by
  induction params with
  | nil =>
    intro unit unit1 calls _ name param hmem
    cases hmem
  | cons e rest ih =>
    intro unit unit1 calls h name param hmem
    obtain ⟨k, p⟩ := e
    simp only [applyParams] at h
    cases hone : applyParam program r unit k p with
    | error e =>
      rw [hone] at h
      cases h
    | ok res =>
      obtain ⟨u1, c1⟩ := res
      rw [hone] at h
      simp only at h
      cases hrest : applyParams program r rest u1 with
      | error e =>
        rw [hrest] at h
        cases h
      | ok res2 =>
        obtain ⟨u2, c2⟩ := res2
        rw [hrest] at h
        simp only [Except.ok.injEq, Prod.mk.injEq] at h
        rw [← h.2]
        rcases List.mem_cons.1 hmem with heq | hin
        · cases heq
          exact Uploaded_append_left _ _ _ _ _ _ (applyParam_uploaded _ _ _ _ _ _ _ hone)
        · exact Uploaded_append_right _ _ _ _ _ _ (ih u1 u2 c2 hrest name param hin)

theorem updateBuiltin_step {M V Q S : Type} {alg : Linear M V Q S} {images : Images}
    {state next : Scene M V Q × Material M S} {name : String}
    (h : updateBuiltin alg images state name = .ok next) :
    SameMatrices alg state.1 next.1 ∧
      EnvFrame (fun x => x = name) state.1.renderer next.1.renderer ∧
      (∀ value, (builtinSpec alg state.1 next.1 name : Option (MaterialParam M S)) =
          some value → next.2.m_params.lookup name = some value) ∧
      ∀ other, other ≠ name →
        next.2.m_params.lookup other = state.2.m_params.lookup other := by
  unfold updateBuiltin at h
  cases hv : builtinValue alg images state.1 name with
  | error e =>
    rw [hv] at h
    cases h
  | ok res =>
    obtain ⟨value, sc⟩ := res
    rw [hv] at h
    obtain ⟨hm, hf, hval⟩ := builtinValue_step alg images state.1 sc name value hv
    cases value with
    | none =>
      simp only [Except.ok.injEq] at h
      rw [← h]
      refine ⟨hm, hf, ?_, fun _ _ => rfl⟩
      intro v hspec
      simp only at hspec
      rw [← hval] at hspec
      cases hspec
    | some v0 =>
      simp only at h
      cases hset : state.2.setParam name v0 with
      | error e =>
        rw [hset] at h
        cases h
      | ok material =>
        rw [hset] at h
        simp only [Except.ok.injEq] at h
        rw [← h]
        refine ⟨hm, hf, ?_, fun other hne => setParam_lookup_other hset other hne⟩
        intro v hspec
        simp only at hspec
        rw [← hval] at hspec
        cases hspec
        exact setParam_lookup_self hset

theorem UpdateBuiltinUniforms_spec {M V Q S : Type} {alg : Linear M V Q S} {images : Images}
    (names : List String) :
    ∀ {state next : Scene M V Q × Material M S},
      UpdateBuiltinUniforms alg images names state = .ok next →
      SameMatrices alg state.1 next.1 ∧
        EnvFrame (fun x => x ∈ names) state.1.renderer next.1.renderer ∧
        ∀ b ∈ names, ∀ value,
          (builtinSpec alg state.1 next.1 b : Option (MaterialParam M S)) = some value →
          next.2.m_params.lookup b = some value := by
  induction names with
  | nil =>
    intro state next h
    simp only [UpdateBuiltinUniforms, Except.ok.injEq] at h
    rw [← h]
    exact ⟨SameMatrices_same _ _, EnvFrame_same _ _, fun b hb => by cases hb⟩
  | cons n rest ih =>
    intro state next h
    simp only [UpdateBuiltinUniforms] at h
    cases hmid : updateBuiltin alg images state n with
    | error e =>
      rw [hmid] at h
      cases h
    | ok mid =>
      rw [hmid] at h
      simp only at h
      obtain ⟨hm1, hf1, hself, hother⟩ := updateBuiltin_step hmid
      obtain ⟨hm2, hf2, hrest⟩ := ih h
      refine ⟨SameMatrices_chain hm1 hm2, ?_, ?_⟩
      · exact EnvFrame_chain hf1 hf2
          (fun x hx => by rw [hx]; exact List.mem_cons_self _ _)
          (fun x hx => List.mem_cons_of_mem _ hx)
      · intro b hb value hspec
        by_cases hin : b ∈ rest
        · apply hrest b hin value
          rw [builtinSpec_congr alg state.1 mid.1 next.1 hm1 b]
          exact hspec
        · have hbn : b = n := by
            rcases List.mem_cons.1 hb with h1 | h1
            · exact h1
            · exact absurd h1 hin
          rw [UpdateBuiltinUniforms_lookup_other b rest hin h, hbn]
          apply hself value
          rw [← hbn, ← hspec]
          symm
          apply builtinSpec_frame alg state.1 mid.1 next.1 b
          exact EnvFrame_chain (EnvFrame_same (fun _ => False) _) hf2
            (fun x hx => absurd hx id)
            (fun x hx hxb => hin (hxb ▸ hx))

theorem builtinSpec_registry {M V Q S : Type} (alg : Linear M V Q S)
    (before after : Scene M V Q) (name : String) (h : name ∈ GetAvailableBuiltinUniforms) :
    ∃ value : MaterialParam M S, builtinSpec alg before after name = some value := by
  unfold GetAvailableBuiltinUniforms at h
  simp only [List.mem_cons, List.mem_singleton, List.not_mem_nil, or_false] at h
  rcases h with h | h | h | h | h | h | h | h | h | h | h <;> subst h <;> exact ⟨_, rfl⟩

theorem collectUniforms_builtins (uniforms : List Uniform) :
    ∀ program : Program,
      (collectUniforms uniforms program).m_builtin_uniforms =
        program.m_builtin_uniforms ++
          (uniforms.map (fun u => u.name)).filter
            (fun name => decide (name ∈ GetAvailableBuiltinUniforms)) := by
  induction uniforms with
  | nil =>
    intro program
    simp [collectUniforms]
  | cons u rest ih =>
    intro program
    have hstep : collectUniforms (u :: rest) program =
        collectUniforms rest
          { program with
            m_uniforms := mapSet program.m_uniforms u.name u
            m_builtin_uniforms :=
              if u.name ∈ GetAvailableBuiltinUniforms then program.m_builtin_uniforms ++ [u.name]
              else program.m_builtin_uniforms } := rfl
    rw [hstep, ih]
    by_cases hu : u.name ∈ GetAvailableBuiltinUniforms
    · simp [List.filter, hu]
    · simp [List.filter, hu]

theorem Program.LoadAndCompile_builtins (driver : Driver) (n : Nat)
    (vert_file frag_file macros : String) (compiled : Program)
    (h : Program.new.LoadAndCompile driver n vert_file frag_file macros = (true, compiled))
    (b : String) :
    b ∈ compiled.m_builtin_uniforms ↔
      b ∈ GetAvailableBuiltinUniforms ∧
        ∃ u ∈ driver.activeUniforms n (fullSource driver macros vert_file)
          (fullSource driver macros frag_file), u.name = b := by
  unfold Program.LoadAndCompile at h
  split at h
  · cases h
  · simp only at h
    split at h
    · cases h
    · split at h
      · cases h
      · simp only [Prod.mk.injEq, true_and] at h
        rw [← h]
        simp only [collectUniforms_builtins, Program.new, List.nil_append, List.mem_filter,
          List.mem_map, decide_eq_true_eq]
        constructor
        · rintro ⟨⟨u, hu, rfl⟩, hb⟩
          exact ⟨hb, u, hu, rfl⟩
        · rintro ⟨hb, u, hu, rfl⟩
          exact ⟨⟨u, hu, rfl⟩, hb⟩

/-- C16.  In every `Apply` that returns, the builtins are refreshed before the
parameters are uploaded: the calls after `glUseProgram` are those of the loop
over the parameter store as the refresh left it, and for every name that the
program lists as a builtin and the registry holds, the store holds the value
of the specification (the matrices as the mesh and the camera reported them
when the `Apply` began, the environment textures as the renderer holds them
afterwards), whatever was stored under the name before, and the calls hold
the upload of that value.  The builtins that a compiled program lists are the
names of its active uniforms that the registry holds. -/
theorem Material.Apply_refreshes_builtins {M V Q S : Type} (alg : Linear M V Q S)
    (images : Images) (sc sc1 : Scene M V Q) (mat mat1 : Material M S)
    (calls : List (GLCall M S))
    (h : mat.Apply alg images sc = .ok (sc1, mat1, calls)) :
    (∃ program unit rest, mat.m_program = some program ∧
      calls = .glUseProgram program.m_gl_program :: rest ∧
      applyParams program sc1.renderer mat1.m_params 0 = .ok (unit, rest) ∧
      ∀ b ∈ program.m_builtin_uniforms, b ∈ GetAvailableBuiltinUniforms →
        ∃ value, builtinSpec alg sc sc1 b = some value ∧
          mat1.m_params.lookup b = some value ∧
          Uploaded program sc1.renderer calls b value) ∧
      ∀ (driver : Driver) (n : Nat) (vert_file frag_file macros : String)
        (compiled : Program),
        Program.new.LoadAndCompile driver n vert_file frag_file macros = (true, compiled) →
        ∀ b, b ∈ compiled.m_builtin_uniforms ↔
          b ∈ GetAvailableBuiltinUniforms ∧
            ∃ u ∈ driver.activeUniforms n (fullSource driver macros vert_file)
              (fullSource driver macros frag_file), u.name = b := by
  refine ⟨?_, fun driver n vert_file frag_file macros compiled hc b =>
    Program.LoadAndCompile_builtins driver n vert_file frag_file macros compiled hc b⟩
  obtain ⟨program, updated, unit, rest, hprog, hupd, happ, hm1, hcalls⟩ :=
    Material.Apply_ok h
  have hp1 : mat1.m_params = updated.m_params := by rw [hm1]
  obtain ⟨_, _, hspec⟩ := UpdateBuiltinUniforms_spec _ hupd
  refine ⟨program, unit, rest, hprog, hcalls, by rw [hp1]; exact happ, ?_⟩
  intro b hb hreg
  obtain ⟨value, hvalue⟩ := builtinSpec_registry alg sc sc1 b hreg
  have hlookup : updated.m_params.lookup b = some value := hspec b hb value hvalue
  refine ⟨value, hvalue, by rw [hp1]; exact hlookup, ?_⟩
  rw [hcalls]
  exact Uploaded_append_right program sc1.renderer rest [.glUseProgram program.m_gl_program]
    b value
    (applyParams_uploaded program sc1.renderer updated.m_params 0 unit rest happ b value
      (lookup_mem _ _ _ hlookup))

/-- C16, witness: the sample material, whose program lists `matWorld`; the
transform of the sample mesh, not yet computed, is stored and uploaded. -/
theorem Material.Apply_refreshes_builtins_witness :
    sampleMaterial.Apply sampleLinear sampleImages sampleScene =
        .ok (sampleSceneApplied, sampleMaterialApplied, sampleCalls) ∧
      Program.new.LoadAndCompile sampleDriver 0 "pbr.vert" "pbr.frag" "" =
        (true, sampleProgram) ∧
      (builtinSpec sampleLinear sampleScene sampleSceneApplied "matWorld" :
        Option (MaterialParam Int Int)) = some (.matrix 1) ∧
      ∃ program unit rest, sampleMaterial.m_program = some program ∧
        sampleCalls = .glUseProgram program.m_gl_program :: rest ∧
        applyParams program sampleSceneApplied.renderer sampleMaterialApplied.m_params 0 =
          .ok (unit, rest) ∧
        ∀ b ∈ program.m_builtin_uniforms, b ∈ GetAvailableBuiltinUniforms →
          ∃ value, builtinSpec sampleLinear sampleScene sampleSceneApplied b = some value ∧
            sampleMaterialApplied.m_params.lookup b = some value ∧
            Uploaded program sampleSceneApplied.renderer sampleCalls b value :=
  ⟨rfl, rfl, rfl,
    (Material.Apply_refreshes_builtins sampleLinear sampleImages sampleScene
      sampleSceneApplied sampleMaterial sampleMaterialApplied sampleCalls rfl).1⟩

/-! # The camera projection, the render list and the program key -/

theorem Camera.ProjectionOnly_view {M V Q S : Type} (alg : Linear M V Q S)
    (before after : Camera M V Q) (h : Camera.ProjectionOnly before after) :
    (after.GetViewMatrix alg).1 = (before.GetViewMatrix alg).1 := by
  obtain ⟨_, h2, h3, h4, h5, _⟩ := h
  unfold Camera.GetViewMatrix
  rw [h2, h3, h4, h5]
  cases before.m_view_matrix_dirty <;> rfl

/-- C21.  `SetProjectionMatrix`, `MakeOrthographic`, `MakePerspective` and
`MakePNPProjection` store the new projection matrix and set the view-projection
flag; the view flag, the cached view matrix, the position and the rotation
(and every other member) are unchanged, so the next `GetViewMatrix` returns
what it would have returned before, while `GetViewProjectionMatrix` is
recomputed from the new projection. -/
theorem Camera.projection_setters_frame {M V Q S : Type} (alg : Linear M V Q S)
    (c : Camera M V Q) (matrix : M) (a b d e f g : S) :
    ((c.SetProjectionMatrix matrix).m_projection_matrix = matrix ∧
        Camera.ProjectionOnly c (c.SetProjectionMatrix matrix)) ∧
      ((c.MakeOrthographic alg a b d e f).m_projection_matrix =
          alg.orthographic c.m_flip_y a b d e f ∧
        Camera.ProjectionOnly c (c.MakeOrthographic alg a b d e f)) ∧
      ((c.MakePerspective alg a b d e).m_projection_matrix =
          alg.perspective c.m_flip_y a b d e ∧
        Camera.ProjectionOnly c (c.MakePerspective alg a b d e)) ∧
      ((c.MakePNPProjection alg a b d e f g).m_projection_matrix =
          alg.pnpProjection c.m_flip_y a b d e f g ∧
        Camera.ProjectionOnly c (c.MakePNPProjection alg a b d e f g)) ∧
      ((c.SetProjectionMatrix matrix).GetViewMatrix alg).1 = (c.GetViewMatrix alg).1 ∧
      ((c.SetProjectionMatrix matrix).GetViewProjectionMatrix alg).1 =
        alg.mul matrix (c.GetViewMatrix alg).1 := by
  have h1 : Camera.ProjectionOnly c (c.SetProjectionMatrix matrix) :=
    ⟨rfl, rfl, rfl, rfl, rfl, rfl, rfl, rfl, rfl⟩
  refine ⟨⟨rfl, h1⟩, ⟨rfl, rfl, rfl, rfl, rfl, rfl, rfl, rfl, rfl, rfl⟩,
    ⟨rfl, rfl, rfl, rfl, rfl, rfl, rfl, rfl, rfl, rfl⟩,
    ⟨rfl, rfl, rfl, rfl, rfl, rfl, rfl, rfl, rfl, rfl⟩,
    Camera.ProjectionOnly_view alg _ _ h1, ?_⟩
  rw [(Camera.GetViewProjectionMatrix_dirty alg (c.SetProjectionMatrix matrix) rfl).1,
    Camera.ProjectionOnly_view alg _ _ h1]
  rfl

theorem LoadTexture_mesh_list (images : Images) (r : Renderer) (texture_file : String)
    (flag : Option Bool) (generate_mipmap : Bool) :
    (r.LoadTexture images texture_file flag generate_mipmap).2.2.m_mesh_list =
      r.m_mesh_list := by
  unfold Renderer.LoadTexture
  split
  · rfl
  · split <;> rfl

theorem LoadProgram_mesh_list (driver : Driver) (r : Renderer) (v f m : String) :
    (r.LoadProgram driver v f m).2.m_mesh_list = r.m_mesh_list := by
  unfold Renderer.LoadProgram
  simp only
  split
  · rfl
  · split <;> rfl

theorem releaseAssociated_mesh_list (r : Renderer) (path : String) :
    (r.releaseAssociated path).m_mesh_list = r.m_mesh_list := by
  unfold Renderer.releaseAssociated
  split <;> rfl

theorem destroyMesh_mesh_list (paths : List String) :
    ∀ r : Renderer, (r.destroyMesh paths).m_mesh_list = r.m_mesh_list := by
  induction paths with
  | nil => intro r; rfl
  | cons p rest ih =>
    intro r
    have h : r.destroyMesh (p :: rest) = (r.releaseAssociated p).destroyMesh rest := rfl
    rw [h, ih, releaseAssociated_mesh_list]

theorem AddMesh_nodup (r : Renderer) (mesh : Option Nat) (h : r.m_mesh_list.Nodup) :
    (r.AddMesh mesh).m_mesh_list.Nodup := by
  unfold Renderer.AddMesh
  cases mesh with
  | none => exact h
  | some m =>
    simp only
    split
    · exact h
    · rename_i hm
      exact List.Nodup.append h (List.nodup_singleton m)
        (by
          intro x hx hx1
          rw [List.mem_singleton] at hx1
          exact hm (hx1 ▸ hx))

theorem RemoveMesh_nodup (r : Renderer) (mesh : Option Nat) (h : r.m_mesh_list.Nodup) :
    (r.RemoveMesh mesh).m_mesh_list.Nodup := by
  unfold Renderer.RemoveMesh
  cases mesh with
  | none => exact h
  | some m => exact h.erase m

theorem step_mesh_list_nodup (driver : Driver) (images : Images) (r : Renderer)
    (op : RendererOp) (h : r.m_mesh_list.Nodup) :
    (r.step driver images op).m_mesh_list.Nodup := by
  cases op with
  | loadTexture file flag mip =>
    simp only [Renderer.step, LoadTexture_mesh_list]
    exact h
  | loadProgram v f m =>
    simp only [Renderer.step, LoadProgram_mesh_list]
    exact h
  | addMesh mesh => exact AddMesh_nodup r mesh h
  | removeMesh mesh => exact RemoveMesh_nodup r mesh h
  | destroyMesh paths =>
    simp only [Renderer.step, destroyMesh_mesh_list]
    exact h

theorem run_mesh_list_nodup (driver : Driver) (images : Images) (ops : List RendererOp) :
    ∀ r : Renderer, r.m_mesh_list.Nodup → (r.run driver images ops).m_mesh_list.Nodup := by
  induction ops with
  | nil => intro r h; exact h
  | cons op rest ih =>
    intro r h
    exact ih (r.step driver images op) (step_mesh_list_nodup driver images r op h)

/-- C22.  `AddMesh` of a null mesh or of a registered mesh leaves the render
list as it is, and `AddMesh` of a new mesh appends it at the end;
`RemoveMesh` of a null or unregistered mesh changes nothing.  The list of a
fresh renderer has no duplicate, and no call on the renderer introduces one;
on a list without duplicates `RemoveMesh` leaves the other meshes in their
order and the removed mesh is no longer in the list. -/
theorem Renderer.mesh_list_ordered (driver : Driver) (images : Images) (r : Renderer)
    (m : Nat) :
    (r.AddMesh none).m_mesh_list = r.m_mesh_list ∧
      (m ∈ r.m_mesh_list → (r.AddMesh (some m)).m_mesh_list = r.m_mesh_list) ∧
      (m ∉ r.m_mesh_list → (r.AddMesh (some m)).m_mesh_list = r.m_mesh_list ++ [m]) ∧
      (r.RemoveMesh none).m_mesh_list = r.m_mesh_list ∧
      (m ∉ r.m_mesh_list → (r.RemoveMesh (some m)).m_mesh_list = r.m_mesh_list) ∧
      (r.m_mesh_list.Nodup →
        (r.RemoveMesh (some m)).m_mesh_list = r.m_mesh_list.filter (fun x => x != m) ∧
        m ∉ (r.RemoveMesh (some m)).m_mesh_list) ∧
      Renderer.new.m_mesh_list.Nodup ∧
      (r.m_mesh_list.Nodup → ∀ ops, (r.run driver images ops).m_mesh_list.Nodup) := by
  refine ⟨rfl, ?_, ?_, rfl, ?_, ?_, List.nodup_nil, ?_⟩
  · intro hm
    simp [Renderer.AddMesh, hm]
  · intro hm
    simp [Renderer.AddMesh, hm]
  · intro hm
    simp only [Renderer.RemoveMesh]
    exact List.erase_of_not_mem hm
  · intro hnd
    have hfilter : r.m_mesh_list.erase m = r.m_mesh_list.filter (fun x => x != m) := by
      rw [hnd.erase_eq_filter]
    refine ⟨hfilter, ?_⟩
    simp only [Renderer.RemoveMesh]
    exact hnd.not_mem_erase
  · intro hnd ops
    exact run_mesh_list_nodup driver images ops r hnd

/-- C22, witness: on the list 4, 2, 7 the mesh 2 is rejected by `AddMesh`, the
mesh 9 is appended, and `RemoveMesh` of 2 leaves 4, 7. -/
theorem Renderer.mesh_list_ordered_witness :
    2 ∈ rendererThreeMeshes.m_mesh_list ∧
      (rendererThreeMeshes.AddMesh (some 2)).m_mesh_list = rendererThreeMeshes.m_mesh_list ∧
      9 ∉ rendererThreeMeshes.m_mesh_list ∧
      (rendererThreeMeshes.AddMesh (some 9)).m_mesh_list = [4, 2, 7] ++ [9] ∧
      rendererThreeMeshes.m_mesh_list.Nodup ∧
      ((rendererThreeMeshes.RemoveMesh (some 2)).m_mesh_list =
          rendererThreeMeshes.m_mesh_list.filter (fun x => x != 2) ∧
        2 ∉ (rendererThreeMeshes.RemoveMesh (some 2)).m_mesh_list) ∧
      (rendererThreeMeshes.RemoveMesh (some 2)).m_mesh_list = [4, 7] :=
  ⟨by decide,
    (Renderer.mesh_list_ordered driverAccepting sampleImages rendererThreeMeshes 2).2.1
      (by decide),
    by decide,
    (Renderer.mesh_list_ordered driverAccepting sampleImages rendererThreeMeshes 9).2.2.1
      (by decide),
    by decide,
    (Renderer.mesh_list_ordered driverAccepting sampleImages rendererThreeMeshes
      2).2.2.2.2.2.1 (by decide),
    rfl⟩

/-- C29.  The cache key is `vert_file + frag_file + macros` with no separator:
whenever two triples have the same concatenation and `LoadProgram` of the
first yielded a `Program`, `LoadProgram` of the second hits the cache: it
returns that same `Program` and leaves the renderer as it was, the count of
compilations included. -/
theorem LoadProgram_key_collision (driver : Driver) (r r1 : Renderer)
    (v1 f1 m1 v2 f2 m2 : String) (p : Nat)
    (hkey : v1 ++ f1 ++ m1 = v2 ++ f2 ++ m2)
    (hfirst : r.LoadProgram driver v1 f1 m1 = (some p, r1)) :
    r1.LoadProgram driver v2 f2 m2 = (some p, r1) := by
  have hcached : r1.m_program_cache.lookup (v1 ++ f1 ++ m1) = some p := by
    unfold Renderer.LoadProgram at hfirst
    simp only at hfirst
    split at hfirst
    · rename_i q hq
      simp only [Prod.mk.injEq, Option.some.injEq] at hfirst
      rw [← hfirst.2, ← hfirst.1]
      exact hq
    · split at hfirst
      · simp only [Prod.mk.injEq, Option.some.injEq] at hfirst
        rw [← hfirst.2, ← hfirst.1]
        exact lookup_mapSet_self _ _ _
      · simp at hfirst
  unfold Renderer.LoadProgram
  simp only
  rw [← hkey, hcached]

/-- C29, witness: the distinct triples ("ab", "c", "") and ("a", "bc", "")
share the key "abc"; the second load returns the program 0 compiled for the
first, and the count of compilations stays 1. -/
theorem LoadProgram_key_collision_witness :
    (("ab", "c", "") : String × String × String) ≠ ("a", "bc", "") ∧
      "ab" ++ "c" ++ "" = "a" ++ "bc" ++ "" ∧
      Renderer.new.LoadProgram driverAccepting "ab" "c" "" =
        (some 0, rendererAfterCollidingLoad) ∧
      rendererAfterCollidingLoad.compiles = 1 ∧
      rendererAfterCollidingLoad.LoadProgram driverAccepting "a" "bc" "" =
        (some 0, rendererAfterCollidingLoad) :=
  ⟨by decide, by decide, rfl, rfl,
    LoadProgram_key_collision driverAccepting Renderer.new rendererAfterCollidingLoad
      "ab" "c" "" "a" "bc" "" 0 (by decide) rfl⟩

/-! # What the refresh of the builtins leaves alone -/

theorem builtinValue_unregistered {M V Q S : Type} (alg : Linear M V Q S) (images : Images)
    (sc : Scene M V Q) (name : String) (h : name ∉ GetAvailableBuiltinUniforms) :
    (builtinValue alg images sc name : Except Fault (Option (MaterialParam M S) × Scene M V Q)) =
      .ok (none, sc) := by
  unfold GetAvailableBuiltinUniforms at h
  simp only [List.mem_cons, List.mem_singleton, List.not_mem_nil, or_false, not_or] at h
  obtain ⟨k1, k2, k3, k4, k5, k6, k7, k8, k9, k10, k11⟩ := h
  unfold builtinValue
  rw [if_neg k1, if_neg k2, if_neg k3, if_neg k4, if_neg k5, if_neg k6, if_neg k7, if_neg k8,
    if_neg k9, if_neg k10, if_neg k11]

theorem mem_mapReplace_ne {α : Type} (map : List (String × α)) (key : String) (value : α)
    (e : String × α) (hne : e.1 ≠ key) : e ∈ mapReplace map key value ↔ e ∈ map := by
  induction map with
  | nil => simp [mapReplace]
  | cons x rest ih =>
    obtain ⟨k, v⟩ := x
    simp only [mapReplace]
    by_cases hk : k = key
    · rw [if_pos hk]
      simp only [List.mem_cons, ih]
      constructor
      · rintro (h | h)
        · exact absurd (by rw [h]; exact hk) hne
        · exact Or.inr h
      · rintro (h | h)
        · exact absurd (by rw [h]; exact hk) hne
        · exact Or.inr h
    · rw [if_neg hk]
      simp only [List.mem_cons, ih]

theorem setParam_entries_other {M S : Type} {mat m1 : Material M S} {key : String}
    {value : MaterialParam M S} (h : mat.setParam key value = .ok m1)
    (e : String × MaterialParam M S) (hne : e.1 ≠ key) :
    e ∈ m1.m_params ↔ e ∈ mat.m_params := by
  unfold Material.setParam at h
  split at h
  · split at h
    · cases h
      exact mem_mapReplace_ne _ _ _ e hne
    · cases h
  · cases h
    simp only
    rw [mem_mapInsert]
    constructor
    · rintro (h1 | h1)
      · exact absurd (by rw [h1]) hne
      · exact h1
    · exact Or.inr

theorem updateBuiltin_entries {M V Q S : Type} {alg : Linear M V Q S} {images : Images}
    {state next : Scene M V Q × Material M S} {name : String}
    (h : updateBuiltin alg images state name = .ok next)
    (e : String × MaterialParam M S)
    (hother : e.1 ≠ name ∨ e.1 ∉ GetAvailableBuiltinUniforms) :
    (e ∈ next.2.m_params ↔ e ∈ state.2.m_params) ∧
      next.2.m_params.lookup e.1 = state.2.m_params.lookup e.1 := by
  by_cases hne : e.1 = name
  · have hreg : name ∉ GetAvailableBuiltinUniforms := by
      rcases hother with h1 | h1
      · exact absurd hne h1
      · rw [← hne]
        exact h1
    unfold updateBuiltin at h
    rw [builtinValue_unregistered alg images state.1 name hreg] at h
    simp only [Except.ok.injEq] at h
    rw [← h]
    exact ⟨Iff.rfl, rfl⟩
  · unfold updateBuiltin at h
    split at h
    · cases h
    · cases h
      exact ⟨Iff.rfl, rfl⟩
    · split at h
      · cases h
      · rename_i material hset
        cases h
        exact ⟨setParam_entries_other hset e hne, setParam_lookup_other hset e.1 hne⟩

theorem UpdateBuiltinUniforms_entries {M V Q S : Type} {alg : Linear M V Q S}
    {images : Images} (names : List String) (e : String × MaterialParam M S)
    (hother : e.1 ∉ names ∨ e.1 ∉ GetAvailableBuiltinUniforms) :
    ∀ {state next : Scene M V Q × Material M S},
      UpdateBuiltinUniforms alg images names state = .ok next →
      (e ∈ next.2.m_params ↔ e ∈ state.2.m_params) ∧
        next.2.m_params.lookup e.1 = state.2.m_params.lookup e.1 := by
  induction names with
  | nil =>
    intro state next h
    simp only [UpdateBuiltinUniforms, Except.ok.injEq] at h
    rw [← h]
    exact ⟨Iff.rfl, rfl⟩
  | cons n rest ih =>
    intro state next h
    have hn : e.1 ≠ n ∨ e.1 ∉ GetAvailableBuiltinUniforms := by
      rcases hother with h1 | h1
      · exact Or.inl (fun hx => h1 (hx ▸ List.mem_cons_self _ _))
      · exact Or.inr h1
    have hrest : e.1 ∉ rest ∨ e.1 ∉ GetAvailableBuiltinUniforms := by
      rcases hother with h1 | h1
      · exact Or.inl (fun hx => h1 (List.mem_cons_of_mem _ hx))
      · exact Or.inr h1
    simp only [UpdateBuiltinUniforms] at h
    cases hmid : updateBuiltin alg images state n with
    | error err =>
      rw [hmid] at h
      cases h
    | ok mid =>
      rw [hmid] at h
      simp only at h
      obtain ⟨a1, a2⟩ := updateBuiltin_entries hmid e hn
      obtain ⟨b1, b2⟩ := ih hrest h
      exact ⟨b1.trans a1, b2.trans a2⟩

/-- C27.  When `UpdateBuiltinUniforms` returns, every stored parameter whose
name is not both in the builtin list of the program and in the registry is
what it was (the same entries, the same lookup), and the translucency flag, the
texture-unit counter and the program of the material are unchanged.  The
builtin list that `LoadAndCompile` collects holds only active uniforms of the
registry. -/
theorem UpdateBuiltinUniforms_frame {M V Q S : Type} (alg : Linear M V Q S)
    (images : Images) (names : List String) (sc sc1 : Scene M V Q) (mat mat1 : Material M S)
    (h : UpdateBuiltinUniforms alg images names (sc, mat) = .ok (sc1, mat1)) :
    (∀ name, name ∉ names ∨ name ∉ GetAvailableBuiltinUniforms →
        mat1.m_params.lookup name = mat.m_params.lookup name ∧
        ∀ value, (name, value) ∈ mat1.m_params ↔ (name, value) ∈ mat.m_params) ∧
      mat1.m_translucent = mat.m_translucent ∧
      mat1.m_idle_texture_unit = mat.m_idle_texture_unit ∧
      mat1.m_program = mat.m_program ∧
      ∀ (driver : Driver) (n : Nat) (vert_file frag_file macros : String)
        (compiled : Program),
        Program.new.LoadAndCompile driver n vert_file frag_file macros = (true, compiled) →
        ∀ b ∈ compiled.m_builtin_uniforms,
          b ∈ GetAvailableBuiltinUniforms ∧
            ∃ u ∈ driver.activeUniforms n (fullSource driver macros vert_file)
              (fullSource driver macros frag_file), u.name = b := by
  obtain ⟨f1, f2, f3⟩ := UpdateBuiltinUniforms_fields names h
  refine ⟨?_, f3, f2, f1, ?_⟩
  · intro name hname
    refine ⟨(UpdateBuiltinUniforms_entries names (name, MaterialParam.texture none)
      hname h).2, ?_⟩
    intro value
    exact (UpdateBuiltinUniforms_entries names (name, value) hname h).1
  · intro driver n vert_file frag_file macros compiled hc b hb
    exact (Program.LoadAndCompile_builtins driver n vert_file frag_file macros compiled hc b).1
      hb

/-- C27, witness: the refresh of `matWorld` on the sample material leaves
`baseMap`, `rmaMap`, the flag and the counter alone. -/
theorem UpdateBuiltinUniforms_frame_witness :
    UpdateBuiltinUniforms sampleLinear sampleImages ["matWorld"]
        (sampleScene, sampleMaterial) =
        .ok (sampleSceneApplied, { sampleMaterialApplied with m_idle_texture_unit := 5 }) ∧
      ("baseMap" ∉ ["matWorld"] ∨ "baseMap" ∉ GetAvailableBuiltinUniforms) ∧
      (({ sampleMaterialApplied with m_idle_texture_unit := 5 } :
          Material Int Int).m_params.lookup "baseMap" =
          sampleMaterial.m_params.lookup "baseMap" ∧
        ∀ value,
          ("baseMap", value) ∈ ({ sampleMaterialApplied with m_idle_texture_unit := 5 } :
            Material Int Int).m_params ↔ ("baseMap", value) ∈ sampleMaterial.m_params) :=
  ⟨rfl, Or.inl (by decide),
    (UpdateBuiltinUniforms_frame sampleLinear sampleImages ["matWorld"] sampleScene
      sampleSceneApplied sampleMaterial { sampleMaterialApplied with m_idle_texture_unit := 5 }
      rfl).1 "baseMap" (Or.inl (by decide))⟩

/-! # Flattening without texture coordinates or normals -/

theorem storeNext_empty {α : Type} (array : Option (List α)) (i : Option Int) :
    ∃ e, storeNext array ([] : List α) i = .error e := by
  unfold storeNext vectorAt
  cases i with
  | none => exact ⟨_, rfl⟩
  | some k =>
    by_cases hk : 0 ≤ k
    · simp [hk]
    · simp [hk]

theorem storeCorners_empty {α : Type} (array : Option (List α)) (i0 i1 i2 : Option Int) :
    ∃ e, storeCorners array ([] : List α) i0 i1 i2 = .error e := by
  obtain ⟨e, he⟩ := storeNext_empty array i0
  exact ⟨e, by unfold storeCorners; rw [he]⟩

theorem flattenTriangle_empty {F : Type} (positions : List (Vector3f F))
    (texcoords : List (Vector2f F)) (normals : List (Vector3f F)) (submesh : SubMesh F)
    (tri : ObjTri) (h : texcoords = [] ∨ normals = []) :
    ∃ e, flattenTriangle positions texcoords normals submesh tri = .error e := by
  unfold flattenTriangle
  cases hp : storeCorners submesh.m_positions positions tri.v0 tri.v1 tri.v2 with
  | error e => exact ⟨e, rfl⟩
  | ok ps =>
    simp only
    cases ht : storeCorners submesh.m_texcoords texcoords tri.t0 tri.t1 tri.t2 with
    | error e => exact ⟨e, rfl⟩
    | ok ts =>
      simp only
      rcases h with h | h
      · subst h
        obtain ⟨e, he⟩ := storeCorners_empty submesh.m_texcoords tri.t0 tri.t1 tri.t2
        rw [he] at ht
        cases ht
      · subst h
        obtain ⟨e, he⟩ := storeCorners_empty submesh.m_normals tri.n0 tri.n1 tri.n2
        rw [he]
        exact ⟨e, rfl⟩

/-- C28, code defect.  `GenerateSubMesh` returns no submesh for any face list
that is not empty when `texcoords` or `normals` is empty, whatever the indices
are: the statements of the flattening loop on `m_texcoords` and `m_normals`
are not guarded, so they index the empty list and store through the array that
was not allocated. -/
theorem GenerateSubMesh_needs_both_lists {F : Type} (m_export_triangles : Bool)
    (positions : List (Vector3f F)) (texcoords : List (Vector2f F))
    (normals : List (Vector3f F)) (triangles : List ObjTri)
    (hfaces : triangles ≠ []) (hmissing : texcoords = [] ∨ normals = []) :
    ∃ e, GenerateSubMesh m_export_triangles positions texcoords normals triangles =
      .error e := by
  unfold GenerateSubMesh
  cases triangles with
  | nil => exact absurd rfl hfaces
  | cons tri rest =>
    simp only [List.map_cons, flattenLoop]
    obtain ⟨e, he⟩ := flattenTriangle_empty positions texcoords normals
      { m_vertex_count := (tri :: rest).length * 3
        m_positions := some []
        m_texcoords := if texcoords.length > 0 then some [] else none
        m_normals := if normals.length > 0 then some [] else none
        m_ori_positions := if m_export_triangles then positions else []
        m_ori_triangles := if m_export_triangles then tri :: rest else [] }
      tri.decrement hmissing
    rw [he]
    exact ⟨e, rfl⟩

/-- C28, witness: a text with texture coordinates and no normals whose face
carries the indices 1/1 2/1 3/1, all within the three positions and the one
texture coordinate declared before it. -/
theorem GenerateSubMesh_needs_both_lists_witness :
    textEvents strtofInteger sampleNoNormals =
        .ok [.position (vec3 0 0 0), .position (vec3 1 0 0), .position (vec3 0 1 0),
          .texcoord (vec2 0 0), .face sampleNoNormalsFace false] ∧
      [sampleNoNormalsFace] ≠ [] ∧
      (([vec2 0 0] : List (Vector2f Int)) = [] ∨ ([] : List (Vector3f Int)) = []) ∧
      (∃ e, GenerateSubMesh false [vec3 0 0 0, vec3 1 0 0, vec3 0 1 0] [vec2 0 0] []
        [sampleNoNormalsFace] = .error e) ∧
      Parse strtofInteger false [] sampleNoNormals = .error .uninitialised :=
  ⟨rfl, by decide, Or.inr rfl,
    GenerateSubMesh_needs_both_lists false [vec3 0 0 0, vec3 1 0 0, vec3 0 1 0] [vec2 0 0] []
      [sampleNoNormalsFace] (by decide) (Or.inr rfl),
    rfl⟩

/-! # Line endings -/

/-- C30, code defect.  The material name is read at `ptr + 7` with no test of
the length of the line.  On a `usemtl` line that carries no name this is the
first character after the line terminator: with `'\n'` line endings the name
returned is the next line, `"A"`, and with `"\r\n"` line endings it is the
empty string, for every float conversion, export flag and mesh. -/
theorem Parse_crlf_changes_name {F : Type} (strtof : List Char → Option (F × List Char))
    (ex : Bool) (m0 : List (SubMesh F)) :
    crlf sampleBareUsemtl = "usemtl\r\nA\r\n".toList ∧
      Parse strtof ex m0 sampleBareUsemtl =
        .ok { names := ["A"], succ := true, m_submeshes := m0 ++ [emptySubMesh F] } ∧
      Parse strtof ex m0 (crlf sampleBareUsemtl) =
        .ok { names := [""], succ := true, m_submeshes := m0 ++ [emptySubMesh F] } := by
  refine ⟨by decide, ?_, ?_⟩ <;> cases ex <;> rfl

/-! # The render pass -/

theorem LoadCubeTexture_mesh_list (images : Images) (r r1 : Renderer) (file : String)
    (chain : Bool) (t : Option Nat) (h : r.LoadCubeTexture images file chain = .ok (t, r1)) :
    r1.m_mesh_list = r.m_mesh_list := by
  unfold Renderer.LoadCubeTexture at h
  split at h
  · cases h
    rfl
  · split at h
    · cases h
    · cases h
      rfl

theorem GetDiffuseEnvTexture_mesh_list (images : Images) (r : Renderer) :
    (r.GetDiffuseEnvTexture images).2.m_mesh_list = r.m_mesh_list := by
  unfold Renderer.GetDiffuseEnvTexture
  split
  · rfl
  · exact LoadTexture_mesh_list images r _ _ _

theorem GetSpecularEnvTexture_mesh_list (images : Images) (r : Renderer) :
    (r.GetSpecularEnvTexture images).2.m_mesh_list = r.m_mesh_list := by
  unfold Renderer.GetSpecularEnvTexture
  split
  · rfl
  · exact LoadTexture_mesh_list images r _ _ _

theorem GetIblBrdfLutTexture_mesh_list (images : Images) (r : Renderer) :
    (r.GetIblBrdfLutTexture images).2.m_mesh_list = r.m_mesh_list := by
  unfold Renderer.GetIblBrdfLutTexture
  split
  · rfl
  · exact LoadTexture_mesh_list images r _ _ _

theorem GetIblDiffuseEnvTexture_mesh_list (images : Images) (r r1 : Renderer) (t : Option Nat)
    (h : r.GetIblDiffuseEnvTexture images = .ok (t, r1)) :
    r1.m_mesh_list = r.m_mesh_list := by
  unfold Renderer.GetIblDiffuseEnvTexture at h
  split at h
  · cases h
    rfl
  · split at h
    · cases h
    · rename_i t1 r2 hload
      cases h
      exact LoadCubeTexture_mesh_list images r r2 _ _ _ hload

theorem GetIblSpecularEnvTexture_mesh_list (images : Images) (r r1 : Renderer) (t : Option Nat)
    (h : r.GetIblSpecularEnvTexture images = .ok (t, r1)) :
    r1.m_mesh_list = r.m_mesh_list := by
  unfold Renderer.GetIblSpecularEnvTexture at h
  split at h
  · cases h
    rfl
  · split at h
    · cases h
    · rename_i t1 r2 hload
      cases h
      exact LoadCubeTexture_mesh_list images r r2 _ _ _ hload

theorem builtinValue_mesh_list {M V Q S : Type} (alg : Linear M V Q S) (images : Images)
    (sc sc1 : Scene M V Q) (name : String) (value : Option (MaterialParam M S))
    (h : builtinValue alg images sc name = .ok (value, sc1)) :
    sc1.renderer.m_mesh_list = sc.renderer.m_mesh_list := by
  unfold builtinValue at h
  by_cases k1 : name = "matWorld"
  · rw [if_pos k1] at h
    simp only [Except.ok.injEq, Prod.mk.injEq] at h
    rw [← h.2]
  · rw [if_neg k1] at h
    by_cases k2 : name = "matView"
    · rw [if_pos k2] at h
      simp only [Except.ok.injEq, Prod.mk.injEq] at h
      rw [← h.2]
    · rw [if_neg k2] at h
      by_cases k3 : name = "matProjection"
      · rw [if_pos k3] at h
        simp only [Except.ok.injEq, Prod.mk.injEq] at h
        rw [← h.2]
      · rw [if_neg k3] at h
        by_cases k4 : name = "matWorldView"
        · rw [if_pos k4] at h
          simp only [Except.ok.injEq, Prod.mk.injEq] at h
          rw [← h.2]
        · rw [if_neg k4] at h
          by_cases k5 : name = "matViewProjection"
          · rw [if_pos k5] at h
            simp only [Except.ok.injEq, Prod.mk.injEq] at h
            rw [← h.2]
          · rw [if_neg k5] at h
            by_cases k6 : name = "matWVP"
            · rw [if_pos k6] at h
              simp only [Except.ok.injEq, Prod.mk.injEq] at h
              rw [← h.2]
            · rw [if_neg k6] at h
              by_cases k7 : name = "diffuseEnvMap"
              · rw [if_pos k7] at h
                simp only [Except.ok.injEq, Prod.mk.injEq] at h
                rw [← h.2]
                exact GetDiffuseEnvTexture_mesh_list images sc.renderer
              · rw [if_neg k7] at h
                by_cases k8 : name = "specularEnvMap"
                · rw [if_pos k8] at h
                  simp only [Except.ok.injEq, Prod.mk.injEq] at h
                  rw [← h.2]
                  exact GetSpecularEnvTexture_mesh_list images sc.renderer
                · rw [if_neg k8] at h
                  by_cases k9 : name = "iblBrdfLutMap"
                  · rw [if_pos k9] at h
                    simp only [Except.ok.injEq, Prod.mk.injEq] at h
                    rw [← h.2]
                    exact GetIblBrdfLutTexture_mesh_list images sc.renderer
                  · rw [if_neg k9] at h
                    by_cases k10 : name = "iblDiffuseEnvMap"
                    · rw [if_pos k10] at h
                      cases hget : sc.renderer.GetIblDiffuseEnvTexture images with
                      | error e =>
                        rw [hget] at h
                        cases h
                      | ok res =>
                        obtain ⟨t, r1⟩ := res
                        rw [hget] at h
                        simp only [Except.ok.injEq, Prod.mk.injEq] at h
                        rw [← h.2]
                        exact GetIblDiffuseEnvTexture_mesh_list images sc.renderer r1 t hget
                    · rw [if_neg k10] at h
                      by_cases k11 : name = "iblSpecularEnvMap"
                      · rw [if_pos k11] at h
                        cases hget : sc.renderer.GetIblSpecularEnvTexture images with
                        | error e =>
                          rw [hget] at h
                          cases h
                        | ok res =>
                          obtain ⟨t, r1⟩ := res
                          rw [hget] at h
                          simp only [Except.ok.injEq, Prod.mk.injEq] at h
                          rw [← h.2]
                          exact GetIblSpecularEnvTexture_mesh_list images sc.renderer r1 t hget
                      · rw [if_neg k11] at h
                        simp only [Except.ok.injEq, Prod.mk.injEq] at h
                        rw [← h.2]

theorem UpdateBuiltinUniforms_mesh_list {M V Q S : Type} {alg : Linear M V Q S}
    {images : Images} (names : List String) :
    ∀ {state next : Scene M V Q × Material M S},
      UpdateBuiltinUniforms alg images names state = .ok next →
      next.1.renderer.m_mesh_list = state.1.renderer.m_mesh_list := by
  induction names with
  | nil =>
    intro state next h
    simp only [UpdateBuiltinUniforms, Except.ok.injEq] at h
    rw [← h]
  | cons n rest ih =>
    intro state next h
    simp only [UpdateBuiltinUniforms] at h
    cases hmid : updateBuiltin alg images state n with
    | error e =>
      rw [hmid] at h
      cases h
    | ok mid =>
      rw [hmid] at h
      simp only at h
      rw [ih h]
      unfold updateBuiltin at hmid
      cases hv : builtinValue alg images state.1 n with
      | error e =>
        rw [hv] at hmid
        cases hmid
      | ok res =>
        obtain ⟨value, sc⟩ := res
        rw [hv] at hmid
        have hlist := builtinValue_mesh_list alg images state.1 sc n value hv
        cases value with
        | none =>
          simp only [Except.ok.injEq] at hmid
          rw [← hmid]
          exact hlist
        | some v =>
          simp only at hmid
          cases hset : state.2.setParam n v with
          | error e =>
            rw [hset] at hmid
            cases hmid
          | ok material =>
            rw [hset] at hmid
            simp only [Except.ok.injEq] at hmid
            rw [← hmid]
            exact hlist

theorem Material.Apply_frame {M V Q S : Type} {alg : Linear M V Q S} {images : Images}
    {sc sc1 : Scene M V Q} {mat mat1 : Material M S} {calls : List (GLCall M S)}
    (h : mat.Apply alg images sc = .ok (sc1, mat1, calls)) :
    mat1.m_translucent = mat.m_translucent ∧
      sc1.renderer.m_mesh_list = sc.renderer.m_mesh_list := by
  obtain ⟨program, updated, unit, rest, hprog, hupd, happ, hm1, hcalls⟩ :=
    Material.Apply_ok h
  have hf := (UpdateBuiltinUniforms_fields _ hupd).2.2
  have hl := UpdateBuiltinUniforms_mesh_list _ hupd
  refine ⟨?_, hl⟩
  rw [hm1]
  exact hf

theorem GLState.run_append {M S : Type} (s : GLState) (a b : List (FrameCall M S)) :
    s.run (a ++ b) = (s.run a).run b := by
  unfold GLState.run
  rw [List.foldl_append]

theorem drawStates_append {M S : Type} (a b : List (FrameCall M S)) :
    ∀ s : GLState, drawStates s (a ++ b) = drawStates s a ++ drawStates (s.run a) b := by
  induction a with
  | nil => intro s; rfl
  | cons c rest ih =>
    intro s
    cases c <;> simp [drawStates, GLState.run, List.foldl, GLState.after, ih]

theorem draws_append {M S : Type} (a b : List (FrameCall M S)) :
    draws (a ++ b) = draws a ++ draws b := by
  induction a with
  | nil => rfl
  | cons c rest ih => cases c <;> simp [draws, ih]

theorem draws_eq_drawStates {M S : Type} (calls : List (FrameCall M S)) :
    ∀ s : GLState, draws calls = (drawStates s calls).map Prod.fst := by
  induction calls with
  | nil => intro s; rfl
  | cons c rest ih =>
    intro s
    cases c <;> simp [draws, drawStates, ← ih]

theorem material_calls_inert {M S : Type} (calls : List (GLCall M S)) (s : GLState) :
    drawStates s (calls.map FrameCall.material) = [] ∧
      s.run (calls.map FrameCall.material) = s := by
  induction calls with
  | nil => exact ⟨rfl, rfl⟩
  | cons c rest ih =>
    obtain ⟨h1, h2⟩ := ih
    constructor
    · simpa [drawStates, GLState.after] using h1
    · simpa [GLState.run, List.foldl, GLState.after] using h2

theorem SubMeshObject.Render_spec {F M V Q S : Type} (alg : Linear M V Q S) (images : Images)
    (mesh submesh : Nat) (sc sc1 : Scene M V Q) (sm sm1 : SubMeshObject F M S)
    (calls : List (FrameCall M S))
    (h : sm.Render alg images mesh submesh sc = .ok (sc1, sm1, calls)) :
    sm1.m_material.map (fun material => material.m_translucent) =
        sm.m_material.map (fun material => material.m_translucent) ∧
      sc1.renderer.m_mesh_list = sc.renderer.m_mesh_list ∧
      ∀ s : GLState,
        drawStates s calls = (if sm.m_material.isSome then [((mesh, submesh), s)] else []) ∧
        s.run calls = s := by
  unfold SubMeshObject.Render at h
  cases hm : sm.m_material with
  | none =>
    rw [hm] at h
    simp only [Except.ok.injEq, Prod.mk.injEq] at h
    obtain ⟨h1, h2, h3⟩ := h
    rw [← h1, ← h2, ← h3, hm]
    exact ⟨rfl, rfl, fun s => ⟨rfl, rfl⟩⟩
  | some material =>
    rw [hm] at h
    simp only at h
    cases ha : material.Apply alg images sc with
    | error e =>
      rw [ha] at h
      cases h
    | ok res =>
      obtain ⟨sc2, applied, glcalls⟩ := res
      rw [ha] at h
      simp only [Except.ok.injEq, Prod.mk.injEq] at h
      obtain ⟨h1, h2, h3⟩ := h
      obtain ⟨ht, hl⟩ := Material.Apply_frame ha
      rw [← h1, ← h2, ← h3]
      refine ⟨by simp [ht], hl, ?_⟩
      intro s
      obtain ⟨i1, i2⟩ := material_calls_inert glcalls s
      rw [drawStates_append, GLState.run_append, i1, i2]
      exact ⟨rfl, rfl⟩

theorem renderSubMeshes_spec {F M V Q S : Type} (alg : Linear M V Q S) (images : Images)
    (translucent : Bool) (mesh : Nat) (submeshes : List (SubMeshObject F M S)) :
    ∀ (submesh : Nat) (sc sc1 : Scene M V Q) (after : List (SubMeshObject F M S))
      (calls : List (FrameCall M S)),
      renderSubMeshes alg images translucent mesh submesh submeshes sc =
        .ok (sc1, after, calls) →
      after.map (fun sm => sm.m_material.map (fun material => material.m_translucent)) =
          submeshes.map
            (fun sm => sm.m_material.map (fun material => material.m_translucent)) ∧
        sc1.renderer.m_mesh_list = sc.renderer.m_mesh_list ∧
        ∀ s : GLState,
          drawStates s calls =
              (passDraws translucent mesh submesh
                (submeshes.map (fun sm =>
                  sm.m_material.map (fun material => material.m_translucent)))).map
                (fun d => (d, s)) ∧
            s.run calls = s := by
  induction submeshes with
  | nil =>
    intro submesh sc sc1 after calls h
    simp only [renderSubMeshes, Except.ok.injEq, Prod.mk.injEq] at h
    obtain ⟨h1, h2, h3⟩ := h
    rw [← h1, ← h2, ← h3]
    exact ⟨rfl, rfl, fun s => ⟨rfl, rfl⟩⟩
  | cons sm rest ih =>
    intro submesh sc sc1 after calls h
    simp only [renderSubMeshes] at h
    cases hm : sm.m_material with
    | none =>
      rw [hm] at h
      simp only at h
      cases hr : renderSubMeshes alg images translucent mesh (submesh + 1) rest sc with
      | error e =>
        rw [hr] at h
        cases h
      | ok res =>
        obtain ⟨sc2, rest2, calls2⟩ := res
        rw [hr] at h
        simp only [Except.ok.injEq, Prod.mk.injEq] at h
        obtain ⟨h1, h2, h3⟩ := h
        obtain ⟨e1, e2, e3⟩ := ih (submesh + 1) sc sc2 rest2 calls2 hr
        rw [← h1, ← h2, ← h3]
        refine ⟨by simp [e1], e2, ?_⟩
        intro s
        simp only [List.map_cons, hm, Option.map_none', passDraws]
        simpa using e3 s
    | some material =>
      rw [hm] at h
      simp only at h
      by_cases ht : material.m_translucent = translucent
      · rw [if_pos ht] at h
        cases hone : sm.Render alg images mesh submesh sc with
        | error e =>
          rw [hone] at h
          cases h
        | ok res1 =>
          obtain ⟨sc2, sm1, calls1⟩ := res1
          rw [hone] at h
          simp only at h
          cases hr : renderSubMeshes alg images translucent mesh (submesh + 1) rest sc2 with
          | error e =>
            rw [hr] at h
            cases h
          | ok res =>
            obtain ⟨sc3, rest2, calls2⟩ := res
            rw [hr] at h
            simp only [Except.ok.injEq, Prod.mk.injEq] at h
            obtain ⟨h1, h2, h3⟩ := h
            obtain ⟨r1, r2, r3⟩ :=
              SubMeshObject.Render_spec alg images mesh submesh sc sc2 sm sm1 calls1 hone
            obtain ⟨e1, e2, e3⟩ := ih (submesh + 1) sc2 sc3 rest2 calls2 hr
            rw [← h1, ← h2, ← h3]
            refine ⟨by simp [e1, r1], e2.trans r2, ?_⟩
            intro s
            obtain ⟨d1, d2⟩ := r3 s
            obtain ⟨d3, d4⟩ := e3 s
            rw [drawStates_append, GLState.run_append, d1, d2, d3, d4]
            simp [hm, ht, passDraws]
      · rw [if_neg ht] at h
        cases hr : renderSubMeshes alg images translucent mesh (submesh + 1) rest sc with
        | error e =>
          rw [hr] at h
          cases h
        | ok res =>
          obtain ⟨sc2, rest2, calls2⟩ := res
          rw [hr] at h
          simp only [Except.ok.injEq, Prod.mk.injEq] at h
          obtain ⟨h1, h2, h3⟩ := h
          obtain ⟨e1, e2, e3⟩ := ih (submesh + 1) sc sc2 rest2 calls2 hr
          rw [← h1, ← h2, ← h3]
          refine ⟨by simp [e1], e2, ?_⟩
          intro s
          simp only [List.map_cons, hm, Option.map_some', passDraws, Option.some.injEq, ht,
            if_false]
          simpa using e3 s

theorem map_set_same {α β : Type} (f : α → β) (l : List α) (i : Nat) (a b : α)
    (h : l[i]? = some a) (hf : f b = f a) : (l.set i b).map f = l.map f := by
  apply List.ext_getElem?
  intro n
  simp only [List.getElem?_map, List.getElem?_set]
  by_cases hn : i = n
  · subst hn
    have hlt : i < l.length := by
      rcases Nat.lt_or_ge i l.length with h1 | h1
      · exact h1
      · rw [List.getElem?_eq_none h1] at h
        cases h
    simp [hlt, h, hf]
  · simp [hn]

theorem World.passDraws_eq {F M V Q S : Type} (translucent : Bool) (w : World F M V Q S) :
    w.passDraws translucent = listDraws translucent w.flags w.renderer.m_mesh_list := by
  unfold World.passDraws listDraws World.flags
  congr 1
  funext mesh
  rw [List.getElem?_map]
  cases w.meshes[mesh]? <;> rfl

theorem listDraws_cons (translucent : Bool) (flags : List (List (Option Bool))) (mesh : Nat)
    (rest : List Nat) :
    listDraws translucent flags (mesh :: rest) =
      listDraws translucent flags [mesh] ++ listDraws translucent flags rest := by
  simp [listDraws]

theorem World.renderMesh_spec {F M V Q S : Type} (alg : Linear M V Q S) (images : Images)
    (translucent : Bool) (w w1 : World F M V Q S) (mesh : Nat) (calls : List (FrameCall M S))
    (h : w.renderMesh alg images translucent mesh = .ok (w1, calls)) :
    w1.flags = w.flags ∧ w1.renderer.m_mesh_list = w.renderer.m_mesh_list ∧
      ∀ s : GLState,
        drawStates s calls =
            (listDraws translucent w.flags [mesh]).map (fun d => (d, s)) ∧
          s.run calls = s := by
  unfold World.renderMesh at h
  cases hobj : w.meshes[mesh]? with
  | none =>
    rw [hobj] at h
    cases h
  | some object =>
    rw [hobj] at h
    simp only at h
    cases hr : renderSubMeshes alg images translucent mesh 0 object.m_submeshes
        { mesh := object.toMesh, camera := w.camera, renderer := w.renderer } with
    | error e =>
      rw [hr] at h
      cases h
    | ok res =>
      obtain ⟨sc, submeshes, calls1⟩ := res
      rw [hr] at h
      simp only [Except.ok.injEq, Prod.mk.injEq] at h
      obtain ⟨h1, h2⟩ := h
      obtain ⟨e1, e2, e3⟩ := renderSubMeshes_spec alg images translucent mesh
        object.m_submeshes 0 _ sc submeshes calls1 hr
      rw [← h1, ← h2]
      refine ⟨?_, e2, ?_⟩
      · unfold World.flags
        simp only
        exact map_set_same MeshObject.flags w.meshes mesh object _ hobj
          (by unfold MeshObject.flags; exact e1)
      · intro s
        have hflags : w.flags[mesh]? = some object.flags := by
          unfold World.flags
          rw [List.getElem?_map, hobj]
          rfl
        have hl : listDraws translucent w.flags [mesh] =
            render3d.passDraws translucent mesh 0 object.flags := by
          simp [listDraws, hflags]
        rw [hl]
        exact e3 s

theorem World.renderList_spec {F M V Q S : Type} (alg : Linear M V Q S) (images : Images)
    (translucent : Bool) (list : List Nat) :
    ∀ (w w1 : World F M V Q S) (calls : List (FrameCall M S)),
      World.renderList alg images translucent list w = .ok (w1, calls) →
      w1.flags = w.flags ∧ w1.renderer.m_mesh_list = w.renderer.m_mesh_list ∧
        ∀ s : GLState,
          drawStates s calls =
              (listDraws translucent w.flags list).map (fun d => (d, s)) ∧
            s.run calls = s := by
  induction list with
  | nil =>
    intro w w1 calls h
    simp only [World.renderList, Except.ok.injEq, Prod.mk.injEq] at h
    rw [← h.1, ← h.2]
    exact ⟨rfl, rfl, fun s => ⟨rfl, rfl⟩⟩
  | cons mesh rest ih =>
    intro w w2 calls h
    simp only [World.renderList] at h
    cases hone : w.renderMesh alg images translucent mesh with
    | error e =>
      rw [hone] at h
      cases h
    | ok res1 =>
      obtain ⟨w1, calls1⟩ := res1
      rw [hone] at h
      simp only at h
      cases hr : World.renderList alg images translucent rest w1 with
      | error e =>
        rw [hr] at h
        cases h
      | ok res =>
        obtain ⟨w3, calls2⟩ := res
        rw [hr] at h
        simp only [Except.ok.injEq, Prod.mk.injEq] at h
        obtain ⟨h1, h2⟩ := h
        obtain ⟨a1, a2, a3⟩ := World.renderMesh_spec alg images translucent w w1 mesh calls1 hone
        obtain ⟨b1, b2, b3⟩ := ih w1 w3 calls2 hr
        rw [← h1, ← h2]
        refine ⟨b1.trans a1, b2.trans a2, ?_⟩
        intro s
        obtain ⟨d1, d2⟩ := a3 s
        obtain ⟨d3, d4⟩ := b3 s
        rw [listDraws_cons translucent w.flags mesh rest, List.map_append, drawStates_append,
          GLState.run_append, d1, d2, d3, d4, a1]
        exact ⟨rfl, rfl⟩

theorem World.RenderMeshes_spec {F M V Q S : Type} (alg : Linear M V Q S) (images : Images)
    (w w1 : World F M V Q S) (calls : List (FrameCall M S))
    (h : w.RenderMeshes alg images = .ok (w1, calls)) (s : GLState) :
    drawStates s calls =
        (w.passDraws false).map (fun d => (d, s.opaquePass)) ++
          (w.passDraws true).map (fun d => (d, s.translucentPass)) ∧
      s.run calls = s.translucentPass ∧
      w1.flags = w.flags ∧ w1.renderer.m_mesh_list = w.renderer.m_mesh_list := by
  unfold World.RenderMeshes at h
  cases h1 : World.renderList alg images false w.renderer.m_mesh_list w with
  | error e =>
    rw [h1] at h
    cases h
  | ok res1 =>
    obtain ⟨wa, opaque_calls⟩ := res1
    rw [h1] at h
    simp only at h
    cases h2 : World.renderList alg images true wa.renderer.m_mesh_list wa with
    | error e =>
      rw [h2] at h
      cases h
    | ok res2 =>
      obtain ⟨wb, translucent_calls⟩ := res2
      rw [h2] at h
      simp only [Except.ok.injEq, Prod.mk.injEq] at h
      obtain ⟨hw, hc⟩ := h
      obtain ⟨a1, a2, a3⟩ := World.renderList_spec alg images false _ w wa opaque_calls h1
      obtain ⟨b1, b2, b3⟩ := World.renderList_spec alg images true _ wa wb translucent_calls h2
      rw [← hw, ← hc, World.passDraws_eq, World.passDraws_eq]
      have hs1 : s.run ([.glEnable .GL_DEPTH_TEST, .glDepthFunc .GL_LESS,
          .glDisable .GL_BLEND] : List (FrameCall M S)) = s.opaquePass := rfl
      have hs2 : s.opaquePass.run ([.glDepthMask false, .glEnable .GL_BLEND,
          .glBlendFunc .GL_ONE .GL_ONE_MINUS_SRC_ALPHA] : List (FrameCall M S)) =
          s.translucentPass := rfl
      have hd1 : drawStates s ([.glEnable .GL_DEPTH_TEST, .glDepthFunc .GL_LESS,
          .glDisable .GL_BLEND] : List (FrameCall M S)) = [] := rfl
      have hd2 : drawStates s.opaquePass ([.glDepthMask false, .glEnable .GL_BLEND,
          .glBlendFunc .GL_ONE .GL_ONE_MINUS_SRC_ALPHA] : List (FrameCall M S)) = [] := rfl
      have r1 : s.run (([.glEnable .GL_DEPTH_TEST, .glDepthFunc .GL_LESS,
          .glDisable .GL_BLEND] : List (FrameCall M S)) ++ opaque_calls) = s.opaquePass := by
        rw [GLState.run_append, hs1, (a3 s.opaquePass).2]
      have r2 : s.run (([.glEnable .GL_DEPTH_TEST, .glDepthFunc .GL_LESS,
          .glDisable .GL_BLEND] : List (FrameCall M S)) ++ opaque_calls ++
          [.glDepthMask false, .glEnable .GL_BLEND,
           .glBlendFunc .GL_ONE .GL_ONE_MINUS_SRC_ALPHA]) = s.translucentPass := by
        rw [GLState.run_append, r1, hs2]
      have e1 : drawStates s (([.glEnable .GL_DEPTH_TEST, .glDepthFunc .GL_LESS,
          .glDisable .GL_BLEND] : List (FrameCall M S)) ++ opaque_calls) =
          (listDraws false w.flags w.renderer.m_mesh_list).map
            (fun d => (d, s.opaquePass)) := by
        rw [drawStates_append, hd1, hs1, (a3 s.opaquePass).1]
        rfl
      have e2 : drawStates s (([.glEnable .GL_DEPTH_TEST, .glDepthFunc .GL_LESS,
          .glDisable .GL_BLEND] : List (FrameCall M S)) ++ opaque_calls ++
          [.glDepthMask false, .glEnable .GL_BLEND,
           .glBlendFunc .GL_ONE .GL_ONE_MINUS_SRC_ALPHA]) =
          (listDraws false w.flags w.renderer.m_mesh_list).map
            (fun d => (d, s.opaquePass)) := by
        rw [drawStates_append, e1, r1, hd2, List.append_nil]
      refine ⟨?_, ?_, b1.trans a1, b2.trans a2⟩
      · rw [drawStates_append, e2, r2, (b3 s.translucentPass).1, a1, a2]
      · rw [GLState.run_append, r2, (b3 s.translucentPass).2]

theorem mem_passDraws (translucent : Bool) (mesh : Nat) (flags : List (Option Bool)) :
    ∀ (submesh m j : Nat),
      (m, j) ∈ passDraws translucent mesh submesh flags ↔
        m = mesh ∧ submesh ≤ j ∧ flags[j - submesh]? = some (some translucent) := by
  induction flags with
  | nil =>
    intro submesh m j
    simp [passDraws]
  | cons f rest ih =>
    intro submesh m j
    have hrest := ih (submesh + 1) m j
    have hshift : submesh + 1 ≤ j → (f :: rest)[j - submesh]? = rest[j - (submesh + 1)]? := by
      intro hle
      have : j - submesh = (j - (submesh + 1)) + 1 := by omega
      rw [this, List.getElem?_cons_succ]
    simp only [passDraws]
    by_cases hf : f = some translucent
    · rw [if_pos hf, List.mem_cons, hrest]
      constructor
      · rintro (h | ⟨h1, h2, h3⟩)
        · simp only [Prod.mk.injEq] at h
          obtain ⟨h1, h2⟩ := h
          subst h2
          exact ⟨h1, le_refl _, by simp [hf]⟩
        · exact ⟨h1, by omega, by rw [hshift h2]; exact h3⟩
      · rintro ⟨h1, h2, h3⟩
        rcases Nat.eq_or_lt_of_le h2 with h4 | h4
        · left
          rw [h1, h4]
        · right
          exact ⟨h1, h4, by rw [← hshift h4]; exact h3⟩
    · rw [if_neg hf, hrest]
      constructor
      · rintro ⟨h1, h2, h3⟩
        exact ⟨h1, by omega, by rw [hshift h2]; exact h3⟩
      · rintro ⟨h1, h2, h3⟩
        rcases Nat.eq_or_lt_of_le h2 with h4 | h4
        · subst h4
          simp only [Nat.sub_self, List.getElem?_cons_zero, Option.some.injEq] at h3
          exact absurd h3 hf
        · exact ⟨h1, h4, by rw [← hshift h4]; exact h3⟩

theorem nodup_passDraws (translucent : Bool) (mesh : Nat) (flags : List (Option Bool)) :
    ∀ submesh : Nat, (passDraws translucent mesh submesh flags).Nodup := by
  induction flags with
  | nil => intro submesh; exact List.nodup_nil
  | cons f rest ih =>
    intro submesh
    simp only [passDraws]
    by_cases hf : f = some translucent
    · rw [if_pos hf, List.nodup_cons]
      refine ⟨?_, ih (submesh + 1)⟩
      intro hmem
      have := ((mem_passDraws translucent mesh rest (submesh + 1) mesh submesh).1 hmem).2.1
      omega
    · rw [if_neg hf]
      exact ih (submesh + 1)

theorem mem_listDraws (translucent : Bool) (flags : List (List (Option Bool)))
    (list : List Nat) (m j : Nat) :
    (m, j) ∈ listDraws translucent flags list ↔
      m ∈ list ∧ ∃ submeshes, flags[m]? = some submeshes ∧
        submeshes[j]? = some (some translucent) := by
  unfold listDraws
  rw [List.mem_flatMap]
  constructor
  · rintro ⟨a, ha, hmem⟩
    cases hf : flags[a]? with
    | none =>
      rw [hf] at hmem
      cases hmem
    | some submeshes =>
      rw [hf] at hmem
      obtain ⟨h1, _, h3⟩ := (mem_passDraws translucent a submeshes 0 m j).1 hmem
      subst h1
      exact ⟨ha, submeshes, hf, by simpa using h3⟩
  · rintro ⟨hm, submeshes, hf, hj⟩
    refine ⟨m, hm, ?_⟩
    rw [hf]
    exact (mem_passDraws translucent m submeshes 0 m j).2 ⟨rfl, Nat.zero_le _, by simpa using hj⟩

theorem nodup_listDraws (translucent : Bool) (flags : List (List (Option Bool)))
    (list : List Nat) (h : list.Nodup) : (listDraws translucent flags list).Nodup := by
  unfold listDraws
  rw [List.nodup_flatMap]
  constructor
  · intro a _
    cases flags[a]? with
    | none => exact List.nodup_nil
    | some submeshes => exact nodup_passDraws translucent a submeshes 0
  · refine List.Pairwise.imp_of_mem ?_ (List.Nodup.pairwise_of_forall_ne h (fun a _ b _ hne => hne))
    intro a b _ _ hne
    intro d hda hdb
    obtain ⟨m, j⟩ := d
    simp only at hda hdb
    cases hfa : flags[a]? with
    | none =>
      rw [hfa] at hda
      cases hda
    | some sa =>
      cases hfb : flags[b]? with
      | none =>
        rw [hfb] at hdb
        cases hdb
      | some sb =>
        rw [hfa] at hda
        rw [hfb] at hdb
        have h1 := ((mem_passDraws translucent a sa 0 m j).1 hda).1
        have h2 := ((mem_passDraws translucent b sb 0 m j).1 hdb).1
        exact hne (h1.symm.trans h2)

theorem nodup_both_passes (flags : List (List (Option Bool))) (list : List Nat)
    (h : list.Nodup) : (listDraws false flags list ++ listDraws true flags list).Nodup := by
  rw [List.nodup_append]
  refine ⟨nodup_listDraws false flags list h, nodup_listDraws true flags list h, ?_⟩
  intro d h1 h2
  obtain ⟨m, j⟩ := d
  obtain ⟨_, s1, hs1, hj1⟩ := (mem_listDraws false flags list m j).1 h1
  obtain ⟨_, s2, hs2, hj2⟩ := (mem_listDraws true flags list m j).1 h2
  rw [hs1] at hs2
  cases hs2
  rw [hj1] at hj2
  cases hj2

theorem World.flags_lookup {F M V Q S : Type} (w : World F M V Q S) (mesh j : Nat)
    (translucent : Bool) :
    (∃ submeshes, w.flags[mesh]? = some submeshes ∧
        submeshes[j]? = some (some translucent)) ↔
      ∃ object sm material, w.meshes[mesh]? = some object ∧
        object.m_submeshes[j]? = some sm ∧ sm.m_material = some material ∧
        material.m_translucent = translucent := by
  unfold World.flags
  rw [List.getElem?_map]
  constructor
  · rintro ⟨submeshes, h1, h2⟩
    cases hobj : w.meshes[mesh]? with
    | none =>
      rw [hobj] at h1
      cases h1
    | some object =>
      rw [hobj] at h1
      simp only [Option.map_some', Option.some.injEq] at h1
      rw [← h1] at h2
      unfold MeshObject.flags at h2
      rw [List.getElem?_map] at h2
      cases hsm : object.m_submeshes[j]? with
      | none =>
        rw [hsm] at h2
        cases h2
      | some sm =>
        rw [hsm] at h2
        simp only [Option.map_some', Option.some.injEq] at h2
        cases hmat : sm.m_material with
        | none =>
          rw [hmat] at h2
          cases h2
        | some material =>
          rw [hmat] at h2
          simp only [Option.map_some', Option.some.injEq] at h2
          exact ⟨object, sm, material, rfl, hsm, hmat, h2⟩
  · rintro ⟨object, sm, material, h1, h2, h3, h4⟩
    refine ⟨object.flags, by rw [h1]; rfl, ?_⟩
    unfold MeshObject.flags
    rw [List.getElem?_map, h2]
    simp [h3, h4]

theorem count_pair_of_nodup (l : List (Nat × Nat)) (d : Nat × Nat) (h : l.Nodup) :
    l.count d = if d ∈ l then 1 else 0 := by
  induction l with
  | nil => rfl
  | cons x rest ih =>
    rw [List.nodup_cons] at h
    rw [List.count_cons, ih h.2]
    by_cases hx : x = d
    · subst hx
      simp [h.1]
    · have hb : (x == d) = false := by simpa using hx
      have hd : d ≠ x := fun e => hx e.symm
      simp [hb, hd]

/-- C23.  When `RenderMeshes` returns, the draws issued are, in this order,
those of the opaque pass and those of the translucent pass, each pass going
through the render list in registration order and through the submeshes of a
mesh in their order, with no other reordering.  A pass draws exactly the
submeshes of registered meshes that have a material of its translucency; so
on a render list without duplicates every submesh with a material is drawn
exactly once and a submesh without a material is never drawn. -/
theorem World.RenderMeshes_draws {F M V Q S : Type} (alg : Linear M V Q S) (images : Images)
    (w w1 : World F M V Q S) (calls : List (FrameCall M S))
    (h : w.RenderMeshes alg images = .ok (w1, calls)) :
    draws calls = w.passDraws false ++ w.passDraws true ∧
      (∀ translucent mesh j, (mesh, j) ∈ w.passDraws translucent ↔
        mesh ∈ w.renderer.m_mesh_list ∧
          ∃ object sm material, w.meshes[mesh]? = some object ∧
            object.m_submeshes[j]? = some sm ∧ sm.m_material = some material ∧
            material.m_translucent = translucent) ∧
      (w.renderer.m_mesh_list.Nodup →
        ∀ mesh ∈ w.renderer.m_mesh_list, ∀ object j sm, w.meshes[mesh]? = some object →
          object.m_submeshes[j]? = some sm →
          (draws calls).count (mesh, j) = if sm.m_material.isSome then 1 else 0) := by
  have hmem : ∀ translucent mesh j, (mesh, j) ∈ w.passDraws translucent ↔
      mesh ∈ w.renderer.m_mesh_list ∧
        ∃ object sm material, w.meshes[mesh]? = some object ∧
          object.m_submeshes[j]? = some sm ∧ sm.m_material = some material ∧
          material.m_translucent = translucent := by
    intro translucent mesh j
    rw [World.passDraws_eq, mem_listDraws, World.flags_lookup]
  have hdraws : draws calls = w.passDraws false ++ w.passDraws true := by
    rw [draws_eq_drawStates calls GLState.initial,
      (World.RenderMeshes_spec alg images w w1 calls h GLState.initial).1]
    simp [Function.comp_def]
  refine ⟨hdraws, hmem, ?_⟩
  intro hnd mesh hmesh object j sm hobj hsm
  have hnodup : (draws calls).Nodup := by
    rw [hdraws, World.passDraws_eq, World.passDraws_eq]
    exact nodup_both_passes _ _ hnd
  rw [count_pair_of_nodup _ _ hnodup]
  refine if_congr ?_ rfl rfl
  rw [hdraws, List.mem_append, hmem, hmem]
  cases hmat : sm.m_material with
  | none =>
    simp only [Option.isSome_none, Bool.false_eq_true, iff_false]
    rintro (⟨_, o, s1, m1, h1, h2, h3, _⟩ | ⟨_, o, s1, m1, h1, h2, h3, _⟩)
    · rw [hobj] at h1
      cases h1
      rw [hsm] at h2
      cases h2
      rw [hmat] at h3
      cases h3
    · rw [hobj] at h1
      cases h1
      rw [hsm] at h2
      cases h2
      rw [hmat] at h3
      cases h3
  | some material =>
    simp only [Option.isSome_some, iff_true]
    cases ht : material.m_translucent with
    | false => exact Or.inl ⟨hmesh, object, sm, material, hobj, hsm, hmat, ht⟩
    | true => exact Or.inr ⟨hmesh, object, sm, material, hobj, hsm, hmat, ht⟩

/-- C23, witness: the sample mesh, whose submesh 0 is opaque, whose submesh 1
has no material and whose submesh 2 is translucent. -/
theorem World.RenderMeshes_draws_witness :
    ∃ w1 calls, sampleWorld.RenderMeshes sampleLinear sampleImages = .ok (w1, calls) ∧
      draws calls = [(0, 0), (0, 2)] ∧
      draws calls = sampleWorld.passDraws false ++ sampleWorld.passDraws true ∧
      sampleWorld.renderer.m_mesh_list.Nodup ∧
      (draws calls).count (0, 1) = 0 ∧ (draws calls).count (0, 2) = 1 :=
  ⟨_, _, rfl, rfl,
    (World.RenderMeshes_draws sampleLinear sampleImages sampleWorld _ _ rfl).1,
    by decide,
    (World.RenderMeshes_draws sampleLinear sampleImages sampleWorld _ _ rfl).2.2 (by decide)
      0 (by decide) sampleMeshObject 1 _ rfl rfl,
    (World.RenderMeshes_draws sampleLinear sampleImages sampleWorld _ _ rfl).2.2 (by decide)
      0 (by decide) sampleMeshObject 2 _ rfl rfl⟩

/-- C24, counterexample.  `RenderMeshes` switches depth writes off for its
translucent pass and never switches them on.  Called again on the state that
it left, with no `EndRender` in between, it issues the draw of the opaque
submesh 0 with depth writes off. -/
theorem World.RenderMeshes_opaque_without_depth_write :
    ∃ w1 calls1 w2 calls2,
      sampleWorld.RenderMeshes sampleLinear sampleImages = .ok (w1, calls1) ∧
      w1.RenderMeshes sampleLinear sampleImages = .ok (w2, calls2) ∧
      (GLState.initial.run calls1).depthMask = false ∧
      drawStates (GLState.initial.run calls1) calls2 =
        [((0, 0),
          { depthTest := true, depthFunc := .GL_LESS, depthMask := false, blend := false,
            blendFunc := (.GL_ONE, .GL_ONE_MINUS_SRC_ALPHA) }),
         ((0, 2),
          { depthTest := true, depthFunc := .GL_LESS, depthMask := false, blend := true,
            blendFunc := (.GL_ONE, .GL_ONE_MINUS_SRC_ALPHA) })] :=
  ⟨_, _, _, _, rfl, rfl, rfl, rfl⟩

/-- C24, amended.  When `RenderMeshes` returns, whatever the state `s` of the
backend was at the call: every draw of the opaque pass is issued with the
depth test on, the depth function `GL_LESS` and blending off, and with depth
writes as they were in `s`, since `RenderMeshes` never switches them on; every
draw of the translucent pass is issued with depth writes off and blending on
with the factors (one, one-minus-source-alpha), the depth test still on; and
the call leaves depth writes off.  So the opaque draws are issued with depth
writes on exactly when depth writes were on at the call, which is the state
that `EndRender` leaves. -/
theorem World.RenderMeshes_states {F M V Q S : Type} (alg : Linear M V Q S) (images : Images)
    (w w1 : World F M V Q S) (calls : List (FrameCall M S)) (s : GLState)
    (h : w.RenderMeshes alg images = .ok (w1, calls)) :
    drawStates s calls =
        (w.passDraws false).map (fun d => (d, s.opaquePass)) ++
          (w.passDraws true).map (fun d => (d, s.translucentPass)) ∧
      (s.opaquePass.depthTest = true ∧ s.opaquePass.depthFunc = .GL_LESS ∧
        s.opaquePass.depthMask = s.depthMask ∧ s.opaquePass.blend = false ∧
        s.opaquePass.blendFunc = s.blendFunc) ∧
      (s.translucentPass.depthTest = true ∧ s.translucentPass.depthFunc = .GL_LESS ∧
        s.translucentPass.depthMask = false ∧ s.translucentPass.blend = true ∧
        s.translucentPass.blendFunc = (.GL_ONE, .GL_ONE_MINUS_SRC_ALPHA)) ∧
      (∀ d state, (d, state) ∈ drawStates s calls →
        (d ∈ w.passDraws false ∧ state.depthTest = true ∧ state.depthFunc = .GL_LESS ∧
            state.depthMask = s.depthMask ∧ state.blend = false) ∨
          (d ∈ w.passDraws true ∧ state.depthTest = true ∧ state.depthMask = false ∧
            state.blend = true ∧ state.blendFunc = (.GL_ONE, .GL_ONE_MINUS_SRC_ALPHA))) ∧
      (∀ d ∈ w.passDraws false, ∃ state, (d, state) ∈ drawStates s calls ∧
        state.depthMask = s.depthMask) ∧
      (s.run calls).depthMask = false ∧
      ∀ before : GLState, (before.run (endRenderCalls M S)).depthMask = true := by
  have hspec := World.RenderMeshes_spec alg images w w1 calls h s
  have hd := hspec.1
  refine ⟨hd, ⟨rfl, rfl, rfl, rfl, rfl⟩, ⟨rfl, rfl, rfl, rfl, rfl⟩, ?_, ?_, ?_, fun _ => rfl⟩
  · intro d state hmem
    rw [hd, List.mem_append, List.mem_map, List.mem_map] at hmem
    rcases hmem with ⟨d1, h1, h2⟩ | ⟨d1, h1, h2⟩
    · simp only [Prod.mk.injEq] at h2
      rw [← h2.1, ← h2.2]
      exact Or.inl ⟨h1, rfl, rfl, rfl, rfl⟩
    · simp only [Prod.mk.injEq] at h2
      rw [← h2.1, ← h2.2]
      exact Or.inr ⟨h1, rfl, rfl, rfl, rfl⟩
  · intro d hmem
    refine ⟨s.opaquePass, ?_, rfl⟩
    rw [hd, List.mem_append, List.mem_map]
    exact Or.inl ⟨d, hmem, rfl⟩
  · rw [hspec.2.1]
    rfl

/-- C24, witness: the sample world rendered in the state that `EndRender`
leaves, where the opaque draw writes depth, and rendered in the state that a
call of `RenderMeshes` leaves, where it does not. -/
theorem World.RenderMeshes_states_witness :
    ∃ w1 calls, sampleWorld.RenderMeshes sampleLinear sampleImages = .ok (w1, calls) ∧
      (GLState.initial.run (endRenderCalls Int Int)).depthMask = true ∧
      drawStates (GLState.initial.run (endRenderCalls Int Int)) calls =
        [((0, 0),
          { depthTest := true, depthFunc := .GL_LESS, depthMask := true, blend := false,
            blendFunc := (.GL_ONE, .GL_ZERO) }),
         ((0, 2),
          { depthTest := true, depthFunc := .GL_LESS, depthMask := false, blend := true,
            blendFunc := (.GL_ONE, .GL_ONE_MINUS_SRC_ALPHA) })] ∧
      drawStates (GLState.initial.run (endRenderCalls Int Int)) calls =
        (sampleWorld.passDraws false).map
            (fun d => (d, (GLState.initial.run (endRenderCalls Int Int)).opaquePass)) ++
          (sampleWorld.passDraws true).map
            (fun d => (d, (GLState.initial.run (endRenderCalls Int Int)).translucentPass)) ∧
      (GLState.initial.run calls).depthMask = false ∧
      drawStates (GLState.initial.run calls) calls =
        (sampleWorld.passDraws false).map
            (fun d => (d, (GLState.initial.run calls).opaquePass)) ++
          (sampleWorld.passDraws true).map
            (fun d => (d, (GLState.initial.run calls).translucentPass)) ∧
      (GLState.initial.run calls).opaquePass.depthMask = false :=
  ⟨_, _, rfl, rfl, rfl,
    (World.RenderMeshes_states sampleLinear sampleImages sampleWorld _ _
      (GLState.initial.run (endRenderCalls Int Int)) rfl).1,
    rfl,
    (World.RenderMeshes_states sampleLinear sampleImages sampleWorld _ _
      (GLState.initial.run _) rfl).1,
    rfl⟩

/-! # The mesh factories -/

/-- C25, code defect.  On a mesh text of two material blocks, with shaders
that do not link: `CreatePBRMesh` leaves both submeshes without a material,
but `CreateOccluderMesh`, `CreateScanMesh`, `createUnlitMesh` and
`CreateDepthMesh` give each submesh a material whose program is null.  The
occluder mesh is in the render list, and `RenderMeshes` does not skip its
submeshes: `Material::Apply` goes through the null program. -/
theorem factories_attach_null_program :
    (∃ w1,
      emptyWorld.CreatePBRMesh meshDriverRejecting sampleImages strtofInteger sampleMesh false
        "a.obj" none = .ok (some 0, w1) ∧
      w1.materialPrograms = [[none, none]]) ∧
    (∃ w1,
      emptyWorld.CreateOccluderMesh meshDriverRejecting sampleImages strtofInteger sampleMesh
        false "a.obj" = .ok (some 0, w1) ∧
      w1.materialPrograms = [[some false, some false]] ∧
      w1.renderer.m_mesh_list = [0] ∧
      w1.RenderMeshes sampleLinear sampleImages = .error .nullProgram) ∧
    (∃ w1,
      emptyWorld.CreateScanMesh meshDriverRejecting sampleImages strtofInteger sampleMesh
        "a.obj" false = .ok (some 0, w1) ∧
      w1.materialPrograms = [[some false, some false]]) ∧
    (∃ w1,
      emptyWorld.createUnlitMesh meshDriverRejecting sampleImages strtofInteger sampleMesh
        false "a.obj" = .ok (some 0, w1) ∧
      w1.materialPrograms = [[some false, some false]]) ∧
    (∃ w1,
      emptyWorld.CreateDepthMesh meshDriverRejecting sampleImages strtofInteger sampleMesh
        false "a.obj" = .ok (some 0, w1) ∧
      w1.materialPrograms = [[some false, some false]]) :=
  ⟨⟨_, rfl, rfl⟩, ⟨_, rfl, rfl, rfl, rfl⟩, ⟨_, rfl, rfl⟩, ⟨_, rfl, rfl⟩, ⟨_, rfl, rfl⟩⟩

theorem stripExtension_short (mesh_file_path : String)
    (h : ¬ (4 ≤ mesh_file_path.length ∧ mesh_file_path.length - 4 ≤ 255)) :
    stripExtension mesh_file_path = .error .pathCopy := by
  unfold stripExtension
  rw [if_neg h]

/-- C26, code defect.  Every factory starts by copying the path without its
last four characters through `char temp[256]`, before the text is read.  For a
path of fewer than four characters, or of more than 259, the copy leaves the
path or the array, so no factory returns null for it, whatever the file
holds. -/
theorem factories_fault_on_path {F M V Q S : Type} (driver : Driver) (images : Images)
    (strtof : List Char → Option (F × List Char)) (created : Mesh M V Q)
    (export_triangles : Bool) (w : World F M V Q S) (mesh_file_path : String)
    (mirrorPath : Option String)
    (h : ¬ (4 ≤ mesh_file_path.length ∧ mesh_file_path.length - 4 ≤ 255)) :
    w.CreatePBRMesh driver images strtof created export_triangles mesh_file_path mirrorPath =
        .error .pathCopy ∧
      w.CreateScanMesh driver images strtof created mesh_file_path export_triangles =
        .error .pathCopy ∧
      w.createUnlitMesh driver images strtof created export_triangles mesh_file_path =
        .error .pathCopy ∧
      w.CreateDepthMesh driver images strtof created export_triangles mesh_file_path =
        .error .pathCopy ∧
      w.CreateOccluderMesh driver images strtof created export_triangles mesh_file_path =
        .error .pathCopy := by
  have hs := stripExtension_short mesh_file_path h
  refine ⟨?_, ?_, ?_, ?_, ?_⟩
  · unfold World.CreatePBRMesh
    rw [hs]
  · unfold World.CreateScanMesh World.createBaseMesh
    rw [hs]
  · unfold World.createUnlitMesh World.createBaseMesh
    rw [hs]
  · unfold World.CreateDepthMesh World.createBaseMesh
    rw [hs]
  · unfold World.CreateOccluderMesh
    rw [hs]

/-- C26, witness: the path `a`, which no file answers to. -/
theorem factories_fault_on_path_witness :
    meshDriverRejecting.ReadTextFile "a" = "" ∧
      ¬ (4 ≤ "a".length ∧ "a".length - 4 ≤ 255) ∧
      emptyWorld.CreatePBRMesh meshDriverRejecting sampleImages strtofInteger sampleMesh false
        "a" none = .error .pathCopy ∧
      emptyWorld.CreateOccluderMesh meshDriverRejecting sampleImages strtofInteger sampleMesh
        false "a" = .error .pathCopy :=
  ⟨rfl, by decide,
    (factories_fault_on_path meshDriverRejecting sampleImages strtofInteger sampleMesh false
      emptyWorld "a" none (by decide)).1,
    (factories_fault_on_path meshDriverRejecting sampleImages strtofInteger sampleMesh false
      emptyWorld "a" none (by decide)).2.2.2.2⟩

theorem loadMesh_fails {F : Type} (driver : Driver)
    (strtof : List Char → Option (F × List Char)) (export_triangles : Bool) (r : Renderer)
    (mesh_file_path : String)
    (hfail : (driver.ReadTextFile mesh_file_path).length = 0 ∨
      ∃ parsed, Parse strtof export_triangles [] (driver.ReadTextFile mesh_file_path).toList =
        .ok parsed ∧ parsed.succ = false) :
    loadMesh driver strtof export_triangles r mesh_file_path = .ok (none, r) := by
  unfold loadMesh
  by_cases hlen : (driver.ReadTextFile mesh_file_path).length ≤ 0
  · rw [if_pos hlen]
  · rw [if_neg hlen]
    rcases hfail with h0 | ⟨parsed, hp, hs⟩
    · exact absurd (le_of_eq h0) hlen
    · rw [hp]
      simp only [hs, Bool.false_eq_true, if_false]
      rfl

/-- A failed load yields no mesh.  For a path whose copy is defined: when the
text read is empty (as for an unreadable file) or `Parse` reports failure,
every factory returns null and leaves the world as it was, the render list
included. -/
theorem factories_null_on_failed_load {F M V Q S : Type} (driver : Driver) (images : Images)
    (strtof : List Char → Option (F × List Char)) (created : Mesh M V Q)
    (export_triangles : Bool) (w : World F M V Q S) (mesh_file_path : String)
    (hpath : 4 ≤ mesh_file_path.length ∧ mesh_file_path.length - 4 ≤ 255)
    (hfail : (driver.ReadTextFile mesh_file_path).length = 0 ∨
      ∃ parsed, Parse strtof export_triangles [] (driver.ReadTextFile mesh_file_path).toList =
        .ok parsed ∧ parsed.succ = false) :
    (w.CreatePBRMesh driver images strtof created export_triangles mesh_file_path none =
        .ok (none, w) ∧
      ∀ mirror stem,
        mirrorStem (String.mk ((mesh_file_path.toList.take
          (mesh_file_path.length - 4)).takeWhile (fun c => c != NUL))) mirror = .ok stem →
        w.CreatePBRMesh driver images strtof created export_triangles mesh_file_path
          (some mirror) = .ok (none, w)) ∧
      w.CreateScanMesh driver images strtof created mesh_file_path export_triangles =
        .ok (none, w) ∧
      w.createUnlitMesh driver images strtof created export_triangles mesh_file_path =
        .ok (none, w) ∧
      w.CreateDepthMesh driver images strtof created export_triangles mesh_file_path =
        .ok (none, w) ∧
      w.CreateOccluderMesh driver images strtof created export_triangles mesh_file_path =
        .ok (none, w) := by
  have hs : stripExtension mesh_file_path = .ok (String.mk ((mesh_file_path.toList.take
      (mesh_file_path.length - 4)).takeWhile (fun c => c != NUL))) := by
    unfold stripExtension
    rw [if_pos hpath]
  have hl := loadMesh_fails driver strtof export_triangles w.renderer mesh_file_path hfail
  refine ⟨⟨?_, ?_⟩, ?_, ?_, ?_, ?_⟩
  · unfold World.CreatePBRMesh
    rw [hs]
    simp only [hl]
  · intro mirror stem hm
    unfold World.CreatePBRMesh
    rw [hs]
    simp only [hm, hl]
  · unfold World.CreateScanMesh World.createBaseMesh
    rw [hs]
    simp only [hl]
  · unfold World.createUnlitMesh World.createBaseMesh
    rw [hs]
    simp only [hl]
  · unfold World.CreateDepthMesh World.createBaseMesh
    rw [hs]
    simp only [hl]
  · unfold World.CreateOccluderMesh
    rw [hs]
    simp only [hl]

/-- The two ways of a failed load on sample files: a file that cannot be read,
and a text on which `Parse` reports failure. -/
theorem factories_null_on_failed_load_sample :
    (meshDriverRejecting.ReadTextFile "none.obj").length = 0 ∧
      emptyWorld.CreatePBRMesh meshDriverRejecting sampleImages strtofInteger sampleMesh false
        "none.obj" none = .ok (none, emptyWorld) ∧
      Parse strtofInteger false [] (meshDriverRejecting.ReadTextFile "bad.obj").toList =
        .ok sampleNegativeAfterBlockResult ∧
      emptyWorld.CreateOccluderMesh meshDriverRejecting sampleImages strtofInteger sampleMesh
        false "bad.obj" = .ok (none, emptyWorld) :=
  ⟨rfl,
    (factories_null_on_failed_load meshDriverRejecting sampleImages strtofInteger sampleMesh
      false emptyWorld "none.obj" (by decide) (Or.inl rfl)).1.1,
    rfl,
    (factories_null_on_failed_load meshDriverRejecting sampleImages strtofInteger sampleMesh
      false emptyWorld "bad.obj" (by decide)
      (Or.inr ⟨sampleNegativeAfterBlockResult, rfl, rfl⟩)).2.2.2.2⟩

end render3d
